import Mathlib

/-!
# Deadline tracking, extension workflow, milestones and availability

A shallow embedding of the deadline part of the task-management server
(`server/models/Task.js`, `server/models/Project.js`,
`server/controllers/deadlineController.js`,
`server/controllers/scheduleController.js`), of the code around it that the
deadline part relies on (`server/controllers/taskController.js`,
`server/controllers/notificationController.js`, `server/services/emailService.js`,
`server/config/cronConfig.js`, `server/cronJobs.js`, `server/routes/userRoutes.js`)
and of the availability and workload helpers of the client
(`client/src/components/BulkTaskAssignment.js`, `TaskCard.js`,
`ScheduleManagement.js`).

Conventions of the embedding:

* a JavaScript `Date` is its number of milliseconds since the epoch (`Int`);
* an ObjectId is a natural number;
* a document is a structure; what is kept in the data store is the last saved
  document, so an operation that ends in `save()` returns `Except`: `.ok doc`
  is the document now stored, `.error e` means the save was rejected and the
  stored document is the old one;
* schema validation (`required`, `enum`) is modelled from the schema
  declarations of the models;
* the wall clock read by `new Date()` inside an operation is a parameter.
-/

namespace TaskMgmt

/-! ## Basic values -/

deriving instance DecidableEq for Except

abbrev ObjectId := Nat

/-- Milliseconds since the epoch, the value of a valid JavaScript `Date`. -/
abbrev Date := Int

/-- The constant `1000 * 60 * 60 * 24` of the controllers: one day in milliseconds. -/
def DAY_MS : Int := 1000 * 60 * 60 * 24

/-- A value handed to `new Date(...)`: absent from the request, `null`, something
that denotes an instant (a number or a parseable string), or something that does not. -/
inductive JsDateArg where
  | undefined : JsDateArg
  | null : JsDateArg
  | instant (t : Date) : JsDateArg
  | unparseable : JsDateArg
  deriving DecidableEq, Repr

/-- The result of `new Date(x)`: `none` is the Invalid Date. `new Date(null)` is the epoch. -/
def newDate : JsDateArg → Option Date
  | .undefined => none
  | .null => some 0
  | .instant t => some t
  | .unparseable => none

/-- The value of `Math.ceil(a / b)` for a positive divisor `b`. -/
def ceilDiv (a b : Int) : Int := -((-a) / b)

/-! ## Documents -/

/-- An element of `deadlineNotifications` (the ledger). `sentTo` is not required by the schema. -/
structure LedgerEntry where
  type : String
  sentAt : Date
  sentTo : Option ObjectId
  deriving DecidableEq, Repr

/-- An element of `deadlineExtensions`. -/
structure ExtensionRequest where
  _id : ObjectId
  requestedBy : ObjectId
  requestedAt : Date
  newDeadline : Date
  reason : Option String
  status : String
  reviewedBy : Option ObjectId
  reviewedAt : Option Date
  deriving DecidableEq, Repr

/-- An element of `milestones` of a project. -/
structure Milestone where
  _id : ObjectId
  title : String
  description : Option String
  dueDate : Date
  completed : Bool
  completedAt : Option Date
  deriving DecidableEq, Repr

/-- A document of `TaskSchema` (the fields the deadline code reads or writes). -/
structure Task where
  _id : ObjectId
  title : String
  assignedTo : Option ObjectId
  deadline : Option Date
  projectId : Option ObjectId
  status : String
  deadlineNotifications : List LedgerEntry
  deadlineExtensions : List ExtensionRequest
  deriving DecidableEq, Repr

/-- A document of `ProjectSchema` (the fields the deadline code reads or writes). -/
structure Project where
  _id : ObjectId
  name : String
  members : List ObjectId
  status : String
  deadline : Option Date
  deadlineNotifications : List LedgerEntry
  deadlineExtensions : List ExtensionRequest
  milestones : List Milestone
  deriving DecidableEq, Repr

/-- One weekday of `workSchedule`. -/
structure DaySchedule where
  start : String
  «end» : String
  available : Bool
  deriving DecidableEq, Repr

/-- The `workSchedule` object of a user; a key that is not stored is `none`.
The fields are in the order of the schema, which is the order of `Object.keys`. -/
structure WorkSchedule where
  monday : Option DaySchedule
  tuesday : Option DaySchedule
  wednesday : Option DaySchedule
  thursday : Option DaySchedule
  friday : Option DaySchedule
  saturday : Option DaySchedule
  sunday : Option DaySchedule
  deriving DecidableEq, Repr

/-- An element of `vacationDays`. -/
structure VacationPeriod where
  startDate : Date
  endDate : Date
  reason : Option String
  deriving DecidableEq, Repr

/-- The `preferredWorkingHours` object of a user. -/
structure WorkingHours where
  start : String
  «end» : String
  deriving DecidableEq, Repr

/-- A document of `UserSchema`. -/
structure User where
  _id : ObjectId
  name : String
  email : String
  role : String
  isActive : Bool
  deletedAt : Option Date
  workSchedule : Option WorkSchedule
  timezone : Option String
  vacationDays : List VacationPeriod
  preferredWorkingHours : Option WorkingHours
  deriving DecidableEq, Repr

/-- The `relatedItem` of a notification (type and id; the display fields are not set
by the deadline code). -/
structure RelatedItem where
  type : String
  id : ObjectId
  deriving DecidableEq, Repr

/-- A document of `NotificationSchema`; the message text is not modelled. `emailSent` and
`emailSentAt` have the defaults of the schema (`false`, unset). -/
structure Notification where
  userId : ObjectId
  title : String
  type : String
  relatedItem : RelatedItem
  priority : String
  emailSent : Bool := false
  emailSentAt : Option Date := none
  deriving DecidableEq, Repr

/-- The data store: the four collections. -/
structure Store where
  users : List User
  tasks : List Task
  projects : List Project
  notifications : List Notification
  deriving DecidableEq, Repr

/-! ## Schema validation -/

/-- The `enum` of `TaskSchema.status`. -/
def TASK_STATUS_ENUM : List String := ["todo", "in_progress", "done"]

/-- The `enum` of `TaskSchema.deadlineNotifications.type`. -/
def TASK_LEDGER_ENUM : List String := ["3_days", "1_day", "overdue"]

/-- The `enum` of `ProjectSchema.status`. -/
def PROJECT_STATUS_ENUM : List String := ["not started", "in progress", "completed"]

/-- The `enum` of `ProjectSchema.deadlineNotifications.type`. -/
def PROJECT_LEDGER_ENUM : List String := ["7_days", "3_days", "1_day", "overdue"]

/-- The `enum` of `deadlineExtensions.status` (same in both schemas). -/
def EXTENSION_STATUS_ENUM : List String := ["pending", "approved", "rejected"]

/-- The `enum` of `NotificationSchema.type`. -/
def NOTIFICATION_TYPE_ENUM : List String :=
  ["task_assignment", "deadline_approaching", "deadline_overdue", "vacation_request",
   "vacation_response", "issue_update", "general"]

/-- The `enum` of `NotificationSchema.priority`. -/
def NOTIFICATION_PRIORITY_ENUM : List String := ["low", "medium", "high", "urgent"]

/-- The `enum` of `NotificationSchema.relatedItem.type`. -/
def RELATED_ITEM_TYPE_ENUM : List String := ["task", "project", "issue", "user"]

/-- A `required` string must be non-empty. -/
def requiredString (s : String) : Bool := s != ""

/-- Validation of one extension request: `status` must be in the enum. -/
def ExtensionRequest.validate (e : ExtensionRequest) : Bool :=
  EXTENSION_STATUS_ENUM.contains e.status

/-- Validation of one milestone: `title` is required. -/
def Milestone.validate (m : Milestone) : Bool := requiredString m.title

/-- Validation run by `task.save()`: the `required` and `enum` constraints of `TaskSchema`.
A document read from the store satisfies it, so a save is rejected only for what the
operation before it changed. -/
def Task.validate (t : Task) : Bool :=
  requiredString t.title
    && TASK_STATUS_ENUM.contains t.status
    && t.deadlineNotifications.all (fun n => TASK_LEDGER_ENUM.contains n.type)
    && t.deadlineExtensions.all ExtensionRequest.validate

/-- Validation run by `project.save()`: the `required` and `enum` constraints of
`ProjectSchema`. -/
def Project.validate (p : Project) : Bool :=
  requiredString p.name
    && PROJECT_STATUS_ENUM.contains p.status
    && p.deadlineNotifications.all (fun n => PROJECT_LEDGER_ENUM.contains n.type)
    && p.deadlineExtensions.all ExtensionRequest.validate
    && p.milestones.all Milestone.validate

/-- Validation run by `Notification.create`: the `enum` constraints of `NotificationSchema`
(`userId` and `message` are always given by the callers modelled here). -/
def Notification.validate (n : Notification) : Bool :=
  NOTIFICATION_TYPE_ENUM.contains n.type
    && NOTIFICATION_PRIORITY_ENUM.contains n.priority
    && RELATED_ITEM_TYPE_ENUM.contains n.relatedItem.type

/-- The call `task.save()`: the document is stored when it validates. -/
def Task.save (t : Task) : Except String Task :=
  if t.validate then .ok t else .error "ValidationError"

/-- The call `project.save()`: the document is stored when it validates. -/
def Project.save (p : Project) : Except String Project :=
  if p.validate then .ok p else .error "ValidationError"

/-- The call `Notification.create(data)`: the record is stored when it validates. -/
def Notification.create (n : Notification) : Except String Notification :=
  if n.validate then .ok n else .error "ValidationError"

/-! ## The deadline scan (`sendDeadlineNotifications`) -/

/-- The result of `populate` on a single reference: the referenced user document, or
`null` when the reference is unset or no such user exists. -/
def populate (users : List User) (ref : Option ObjectId) : Option User :=
  match ref with
  | none => none
  | some id => users.find? (fun u => u._id == id)

/-- The result of `populate` on an array of references: the referenced user documents,
in order; a reference without a document is dropped. -/
def populateMany (users : List User) (refs : List ObjectId) : List User :=
  refs.filterMap (fun id => users.find? (fun u => u._id == id))

/-- The test `ledger.some(n => n.type === type && n.sentTo.toString() === userId.toString())`.
The callback throws a `TypeError` on an entry of the wanted type that has no `sentTo`. -/
def notificationSent : List LedgerEntry → String → ObjectId → Except String Bool
  | [], _, _ => .ok false
  | n :: rest, type, userId =>
    if n.type = type then
      match n.sentTo with
      | none => .error "TypeError"
      | some recipient =>
        if recipient = userId then .ok true else notificationSent rest type userId
    else notificationSent rest type userId

/-- What one iteration of a scan loop (the body of its `try`) leaves behind: the stored
document, the notifications created, the increment of `notificationsSent`, and the
message of the exception caught, if any. -/
structure ItemResult (α : Type) where
  doc : α
  created : List Notification
  sent : Nat
  error : Option String
  deriving Repr

/-- An element of the `errors` list of a scan, for `Task <id>: <message>` and
`Project <id>: <message>`. -/
structure ScanError where
  kind : String
  id : ObjectId
  message : String
  deriving DecidableEq, Repr

/-- The filter `deadline: $lt now, status: $ne 'done'` of the first task query. -/
def overdueTaskQuery (now : Date) (task : Task) : Bool :=
  match task.deadline with
  | none => false
  | some d => decide (d < now) && task.status != "done"

/-- The filter `deadline: $gte now, $lte sevenDays, status: $ne 'done'` of the second task query. -/
def upcomingTaskQuery (now sevenDays : Date) (task : Task) : Bool :=
  match task.deadline with
  | none => false
  | some d => decide (now ≤ d) && decide (d ≤ sevenDays) && task.status != "done"

/-- The filter `deadline: $lt now, status: $ne 'completed'` of the project query. -/
def overdueProjectQuery (now : Date) (project : Project) : Bool :=
  match project.deadline with
  | none => false
  | some d => decide (d < now) && project.status != "completed"

/-- The body of the loop over `overdueTasks`. The ledger entry is stamped with the scan
instant (the source reads the clock again at the push). -/
def overdueTaskBody (now : Date) (users : List User) (task : Task) : ItemResult Task :=
  match populate users task.assignedTo with
  | none => ⟨task, [], 0, none⟩
  | some assignee =>
    match notificationSent task.deadlineNotifications "overdue" assignee._id with
    | .error e => ⟨task, [], 0, some e⟩
    | .ok true => ⟨task, [], 0, none⟩
    | .ok false =>
      match Notification.create
          { userId := assignee._id, title := "Task Overdue", type := "deadline_overdue",
            relatedItem := ⟨"task", task._id⟩, priority := "high" } with
      | .error e => ⟨task, [], 0, some e⟩
      | .ok n =>
        match Task.save { task with
            deadlineNotifications :=
              task.deadlineNotifications ++ [⟨"overdue", now, some assignee._id⟩] } with
        | .error e => ⟨task, [n], 0, some e⟩
        | .ok saved => ⟨saved, [n], 1, none⟩

/-- The value of `notificationType` chosen from `daysUntilDeadline`. -/
def notificationTypeOf (daysUntilDeadline : Int) : Option String :=
  if daysUntilDeadline = 1 then some "1_day"
  else if daysUntilDeadline = 3 then some "3_days"
  else if daysUntilDeadline = 7 then some "7_days"
  else none

/-- The body of the loop over `upcomingTasks`. A task without a deadline is not selected
by the query; for it the day count is not a number and no type is chosen. -/
def upcomingTaskBody (now : Date) (users : List User) (task : Task) : ItemResult Task :=
  match populate users task.assignedTo with
  | none => ⟨task, [], 0, none⟩
  | some assignee =>
    match task.deadline with
    | none => ⟨task, [], 0, none⟩
    | some deadline =>
      let daysUntilDeadline := ceilDiv (deadline - now) DAY_MS
      match notificationTypeOf daysUntilDeadline with
      | none => ⟨task, [], 0, none⟩
      | some notificationType =>
        match notificationSent task.deadlineNotifications notificationType assignee._id with
        | .error e => ⟨task, [], 0, some e⟩
        | .ok true => ⟨task, [], 0, none⟩
        | .ok false =>
          match Notification.create
              { userId := assignee._id, title := "Deadline Approaching",
                type := "deadline_approaching", relatedItem := ⟨"task", task._id⟩,
                priority := if daysUntilDeadline = 1 then "high" else "medium" } with
          | .error e => ⟨task, [], 0, some e⟩
          | .ok n =>
            match Task.save { task with
                deadlineNotifications :=
                  task.deadlineNotifications ++ [⟨notificationType, now, some assignee._id⟩] } with
            | .error e => ⟨task, [n], 0, some e⟩
            | .ok saved => ⟨saved, [n], 1, none⟩

/-- The variables the loop over the members of one project updates: the ledger of the
document in memory, the notifications created and the increment of `notificationsSent`. -/
structure MemberLoop where
  ledger : List LedgerEntry
  created : List Notification
  sent : Nat
  deriving Repr

/-- The loop `for (const member of project.members)` of the project scan: the state when
it ends, and the message of the exception that ended it early, if any. -/
def overdueProjectLoop (now : Date) (projectId : ObjectId) :
    List User → MemberLoop → MemberLoop × Option String
  | [], acc => (acc, none)
  | member :: rest, acc =>
    match notificationSent acc.ledger "overdue" member._id with
    | .error e => (acc, some e)
    | .ok true => overdueProjectLoop now projectId rest acc
    | .ok false =>
      match Notification.create
          { userId := member._id, title := "Project Overdue", type := "deadline_overdue",
            relatedItem := ⟨"project", projectId⟩, priority := "high" } with
      | .error e => (acc, some e)
      | .ok n =>
        overdueProjectLoop now projectId rest
          ⟨acc.ledger ++ [⟨"overdue", now, some member._id⟩], acc.created ++ [n], acc.sent + 1⟩

/-- The body of the loop over `overdueProjects`: the member loop, then one `project.save()`. -/
def overdueProjectBody (now : Date) (users : List User) (project : Project) :
    ItemResult Project :=
  match overdueProjectLoop now project._id (populateMany users project.members)
      ⟨project.deadlineNotifications, [], 0⟩ with
  | (acc, some e) => ⟨project, acc.created, acc.sent, some e⟩
  | (acc, none) =>
    match Project.save { project with deadlineNotifications := acc.ledger } with
    | .error e => ⟨project, acc.created, acc.sent, some e⟩
    | .ok saved => ⟨saved, acc.created, acc.sent, none⟩

/-- What one `for` loop of the scan leaves behind: the collection, the notifications
created, the increment of `notificationsSent` and the errors pushed. -/
structure PassResult (α : Type) where
  docs : List α
  created : List Notification
  sent : Nat
  errors : List ScanError
  deriving Repr

/-- A query followed by the `for` loop over its result, each iteration in its own
`try`/`catch`: the documents the query selects are processed in order, the others are
left as they are. -/
def forEachSelected {α : Type} (query : α → Bool) (body : α → ItemResult α)
    (mkError : α → String → ScanError) : List α → PassResult α
  | [] => ⟨[], [], 0, []⟩
  | d :: ds =>
    let rest := forEachSelected query body mkError ds
    if query d then
      let r := body d
      ⟨r.doc :: rest.docs, r.created ++ rest.created, r.sent + rest.sent,
        (match r.error with
          | none => []
          | some e => [mkError d e]) ++ rest.errors⟩
    else ⟨d :: rest.docs, rest.created, rest.sent, rest.errors⟩

/-- The object a scan returns (without `duration`). -/
structure ScanReport where
  success : Bool
  notificationsSent : Nat
  errors : List ScanError
  deriving DecidableEq, Repr

/-- The function `sendDeadlineNotifications`, run at the instant `now`: overdue tasks,
then upcoming tasks, then overdue projects. -/
def sendDeadlineNotifications (now : Date) (s : Store) : Store × ScanReport :=
  let sevenDays := now + 7 * 24 * 60 * 60 * 1000
  let p1 := forEachSelected (overdueTaskQuery now) (overdueTaskBody now s.users)
    (fun task e => ⟨"Task", task._id, e⟩) s.tasks
  let p2 := forEachSelected (upcomingTaskQuery now sevenDays) (upcomingTaskBody now s.users)
    (fun task e => ⟨"Task", task._id, e⟩) p1.docs
  let p3 := forEachSelected (overdueProjectQuery now) (overdueProjectBody now s.users)
    (fun project e => ⟨"Project", project._id, e⟩) s.projects
  ({ users := s.users, tasks := p2.docs, projects := p3.docs,
     notifications := s.notifications ++ p1.created ++ p2.created ++ p3.created },
   ⟨true, p1.sent + p2.sent + p3.sent, p1.errors ++ p2.errors ++ p3.errors⟩)

/-- Successive scans at the given instants, in order. -/
def runScans : List Date → Store → Store
  | [], s => s
  | now :: rest, s => runScans rest (sendDeadlineNotifications now s).1

/-! ## Extension requests and milestones (model methods) -/

/-- The in-place change of the sub-document an `array.id(...)` lookup returned: the first
element that satisfies `p` is replaced by its image under `f`. -/
def updateFirst {α : Type} (p : α → Bool) (f : α → α) : List α → List α
  | [] => []
  | x :: xs => if p x then f x :: xs else x :: updateFirst p f xs

/-- The lookup `this.deadlineExtensions.id(extensionId)`; an id that is absent or is not
an ObjectId (`none`) finds nothing. -/
def findExtension (extensions : List ExtensionRequest) (extensionId : Option ObjectId) :
    Option ExtensionRequest :=
  match extensionId with
  | none => none
  | some id => extensions.find? (fun e => e._id == id)

/-- The lookup `this.milestones.id(milestoneId)`. -/
def findMilestone (milestones : List Milestone) (milestoneId : Option ObjectId) :
    Option Milestone :=
  match milestoneId with
  | none => none
  | some id => milestones.find? (fun m => m._id == id)

/-- The method `TaskSchema.methods.requestExtension`. `newId` is the `_id` the new
sub-document gets and `clock` the default of `requestedAt`; a `userId` that is not an
ObjectId is `none`. A missing requester or an invalid date is rejected by `save()`. -/
def Task.requestExtension (task : Task) (newId : ObjectId) (clock : Date)
    (userId : Option ObjectId) (newDeadline : JsDateArg) (reason : Option String) :
    Except String Task :=
  match userId, newDate newDeadline with
  | some requester, some deadline =>
    Task.save { task with
      deadlineExtensions := task.deadlineExtensions ++
        [{ _id := newId, requestedBy := requester, requestedAt := clock,
           newDeadline := deadline, reason := reason, status := "pending",
           reviewedBy := none, reviewedAt := none }] }
  | _, _ => .error "ValidationError"

/-- The method `ProjectSchema.methods.requestExtension`. -/
def Project.requestExtension (project : Project) (newId : ObjectId) (clock : Date)
    (userId : Option ObjectId) (newDeadline : JsDateArg) (reason : Option String) :
    Except String Project :=
  match userId, newDate newDeadline with
  | some requester, some deadline =>
    Project.save { project with
      deadlineExtensions := project.deadlineExtensions ++
        [{ _id := newId, requestedBy := requester, requestedAt := clock,
           newDeadline := deadline, reason := reason, status := "pending",
           reviewedBy := none, reviewedAt := none }] }
  | _, _ => .error "ValidationError"

/-- The method `TaskSchema.methods.reviewExtension`; `clock` is the `new Date()` of
`reviewedAt`. A `reviewerId` that is not an ObjectId (`none`) makes `save()` reject the
changed request. -/
def Task.reviewExtension (task : Task) (clock : Date) (extensionId : Option ObjectId)
    (status : String) (reviewerId : Option ObjectId) : Except String Task :=
  match findExtension task.deadlineExtensions extensionId with
  | none => Task.save task
  | some extension =>
    match reviewerId with
    | none => .error "ValidationError"
    | some reviewer =>
      Task.save { task with
        deadlineExtensions :=
          updateFirst (fun e => e._id == extension._id)
            (fun e => { e with status := status, reviewedBy := some reviewer,
                               reviewedAt := some clock })
            task.deadlineExtensions
        deadline := if status = "approved" then some extension.newDeadline else task.deadline }

/-- The method `ProjectSchema.methods.reviewExtension`. -/
def Project.reviewExtension (project : Project) (clock : Date)
    (extensionId : Option ObjectId) (status : String) (reviewerId : Option ObjectId) :
    Except String Project :=
  match findExtension project.deadlineExtensions extensionId with
  | none => Project.save project
  | some extension =>
    match reviewerId with
    | none => .error "ValidationError"
    | some reviewer =>
      Project.save { project with
        deadlineExtensions :=
          updateFirst (fun e => e._id == extension._id)
            (fun e => { e with status := status, reviewedBy := some reviewer,
                               reviewedAt := some clock })
            project.deadlineExtensions
        deadline :=
          if status = "approved" then some extension.newDeadline else project.deadline }

/-- The method `ProjectSchema.methods.addMilestone`; `newId` is the `_id` the new
sub-document gets. A `title` that is absent is `none`. -/
def Project.addMilestone (project : Project) (newId : ObjectId) (title : Option String)
    (description : Option String) (dueDate : JsDateArg) : Except String Project :=
  match title, newDate dueDate with
  | some t, some due =>
    Project.save { project with
      milestones := project.milestones ++
        [{ _id := newId, title := t, description := description, dueDate := due,
           completed := false, completedAt := none }] }
  | _, _ => .error "ValidationError"

/-- The method `ProjectSchema.methods.completeMilestone`; `clock` is the `new Date()`
of `completedAt`. -/
def Project.completeMilestone (project : Project) (clock : Date)
    (milestoneId : Option ObjectId) : Except String Project :=
  match findMilestone project.milestones milestoneId with
  | none => Project.save project
  | some milestone =>
    Project.save { project with
      milestones :=
        updateFirst (fun m => m._id == milestone._id)
          (fun m => { m with completed := true, completedAt := some clock })
          project.milestones }

/-- What a model method leaves in the store: the saved document, or the old one when the
promise was rejected. -/
def stored {α : Type} (old : α) (r : Except String α) : α :=
  match r with
  | .ok doc => doc
  | .error _ => old

/-! ## REST handlers of the deadline controller -/

/-- The answer of a handler: the HTTP status, and the `error` or `message` of the body. -/
structure Response where
  status : Nat
  error : Option String
  message : Option String
  deriving DecidableEq, Repr

/-- The request `PUT /deadlines/:itemType/:itemId/extension/:extensionId`: the route
parameters and the body fields the handler reads. -/
structure ReviewRequest where
  itemType : String
  itemId : ObjectId
  paramExtensionId : Option ObjectId
  bodyExtensionId : Option ObjectId
  status : String
  reviewerId : Option ObjectId
  deriving DecidableEq, Repr

/-- The notification the review handler creates for the requester. -/
def reviewNotification (req : ReviewRequest) (extension : ExtensionRequest) : Notification :=
  { userId := extension.requestedBy, title := "Deadline Extension " ++ req.status,
    type := "deadline_extension_review", relatedItem := ⟨req.itemType, req.itemId⟩,
    priority := if req.status = "approved" then "low" else "medium" }

/-- The handler `reviewExtension` of the deadline controller. The extension id is read
from the body; `reviewerId` absent becomes the string `USER_ID_HERE`, which is not an
ObjectId. -/
def reviewExtensionHandler (req : ReviewRequest) (clock : Date) (s : Store) :
    Store × Response :=
  if req.itemType = "task" then
    match s.tasks.find? (fun t => t._id == req.itemId) with
    | none => (s, ⟨404, some "task not found", none⟩)
    | some item =>
      match item.reviewExtension clock req.bodyExtensionId req.status req.reviewerId with
      | .error e => (s, ⟨500, some e, none⟩)
      | .ok saved =>
        let s1 := { s with
          tasks := updateFirst (fun t => t._id == req.itemId) (fun _ => saved) s.tasks }
        match findExtension saved.deadlineExtensions req.bodyExtensionId with
        | none => (s1, ⟨200, none, some ("Extension " ++ req.status ++ " successfully")⟩)
        | some extension =>
          match Notification.create (reviewNotification req extension) with
          | .error e => (s1, ⟨500, some e, none⟩)
          | .ok n =>
            ({ s1 with notifications := s1.notifications ++ [n] },
              ⟨200, none, some ("Extension " ++ req.status ++ " successfully")⟩)
  else if req.itemType = "project" then
    match s.projects.find? (fun p => p._id == req.itemId) with
    | none => (s, ⟨404, some "project not found", none⟩)
    | some item =>
      match item.reviewExtension clock req.bodyExtensionId req.status req.reviewerId with
      | .error e => (s, ⟨500, some e, none⟩)
      | .ok saved =>
        let s1 := { s with
          projects := updateFirst (fun p => p._id == req.itemId) (fun _ => saved) s.projects }
        match findExtension saved.deadlineExtensions req.bodyExtensionId with
        | none => (s1, ⟨200, none, some ("Extension " ++ req.status ++ " successfully")⟩)
        | some extension =>
          match Notification.create (reviewNotification req extension) with
          | .error e => (s1, ⟨500, some e, none⟩)
          | .ok n =>
            ({ s1 with notifications := s1.notifications ++ [n] },
              ⟨200, none, some ("Extension " ++ req.status ++ " successfully")⟩)
  else (s, ⟨400, some "Invalid item type", none⟩)

/-- The loop `for (const memberId of project.members)` of a milestone handler, creating
one notification of the given type per member: the notifications created, and the message
of the exception that ended the loop, if any. -/
def notifyMembers (title type priority : String) (projectId : ObjectId) :
    List ObjectId → List Notification × Option String
  | [] => ([], none)
  | memberId :: rest =>
    match Notification.create
        { userId := memberId, title := title, type := type,
          relatedItem := ⟨"project", projectId⟩, priority := priority } with
    | .error e => ([], some e)
    | .ok n =>
      let r := notifyMembers title type priority projectId rest
      (n :: r.1, r.2)

/-- The handler `addMilestone` of the deadline controller, for
`POST /deadlines/projects/:projectId/milestones` with body `title, description, dueDate`. -/
def addMilestoneHandler (projectId : ObjectId) (newId : ObjectId) (title : Option String)
    (description : Option String) (dueDate : JsDateArg) (s : Store) : Store × Response :=
  match s.projects.find? (fun p => p._id == projectId) with
  | none => (s, ⟨404, some "Project not found", none⟩)
  | some project =>
    match project.addMilestone newId title description dueDate with
    | .error e => (s, ⟨500, some e, none⟩)
    | .ok saved =>
      let s1 := { s with
        projects := updateFirst (fun p => p._id == projectId) (fun _ => saved) s.projects }
      match notifyMembers "New Milestone Added" "milestone" "medium" projectId saved.members with
      | (created, some e) =>
        ({ s1 with notifications := s1.notifications ++ created }, ⟨500, some e, none⟩)
      | (created, none) =>
        ({ s1 with notifications := s1.notifications ++ created },
          ⟨200, none, some "Milestone added successfully"⟩)

/-! ## Availability (`getUserSchedule`, `isWorkDay`) -/

/-- The schedule object `getUserSchedule` answers with. -/
structure Schedule where
  workDays : List String
  startTime : String
  endTime : String
  timezone : String
  deriving DecidableEq, Repr

/-- The default work schedule `getUserSchedule` writes: Monday to Friday available. -/
def defaultWorkSchedule : WorkSchedule :=
  { monday := some ⟨"09:00", "17:00", true⟩
    tuesday := some ⟨"09:00", "17:00", true⟩
    wednesday := some ⟨"09:00", "17:00", true⟩
    thursday := some ⟨"09:00", "17:00", true⟩
    friday := some ⟨"09:00", "17:00", true⟩
    saturday := some ⟨"09:00", "17:00", false⟩
    sunday := some ⟨"09:00", "17:00", false⟩ }

/-- The value of `workSchedule[day]`. -/
def WorkSchedule.get (w : WorkSchedule) (day : String) : Option DaySchedule :=
  if day = "monday" then w.monday
  else if day = "tuesday" then w.tuesday
  else if day = "wednesday" then w.wednesday
  else if day = "thursday" then w.thursday
  else if day = "friday" then w.friday
  else if day = "saturday" then w.saturday
  else if day = "sunday" then w.sunday
  else none

/-- The value of `Object.keys(workSchedule)`: the stored keys, in schema order. -/
def WorkSchedule.keys (w : WorkSchedule) : List String :=
  ["monday", "tuesday", "wednesday", "thursday", "friday", "saturday", "sunday"].filter
    (fun day => (w.get day).isSome)

/-- The expression
`Object.keys(user.workSchedule).filter(day => user.workSchedule[day].available)`. -/
def workDaysOf (w : WorkSchedule) : List String :=
  w.keys.filter (fun day =>
    match w.get day with
    | some d => d.available
    | none => false)

/-- The handler `getUserSchedule`: `.error 404` when there is no such user; otherwise the
default schedule is written first when `workSchedule` or its `monday` is missing (with the
preferred hours when they are missing and the time zone `UTC` when it is missing or empty),
and the schedule is answered in the shape the client expects. -/
def getUserSchedule (userId : ObjectId) (s : Store) : Store × Except Nat Schedule :=
  match s.users.find? (fun u => u._id == userId) with
  | none => (s, .error 404)
  | some user =>
    let needsDefault :=
      match user.workSchedule with
      | none => true
      | some w => w.monday.isNone
    let user1 : User :=
      if needsDefault then
        { user with
          workSchedule := some defaultWorkSchedule
          preferredWorkingHours :=
            match user.preferredWorkingHours with
            | none => some ⟨"09:00", "17:00"⟩
            | some h => some h
          timezone :=
            match user.timezone with
            | none => some "UTC"
            | some tz => if tz = "" then some "UTC" else some tz }
      else user
    let s1 : Store :=
      if needsDefault then
        { s with users := updateFirst (fun u => u._id == userId) (fun _ => user1) s.users }
      else s
    let workDays :=
      match user1.workSchedule with
      | none => []
      | some w => workDaysOf w
    (s1, .ok
      { workDays := workDays
        startTime := match user1.preferredWorkingHours with
          | some h => if h.start = "" then "09:00" else h.start
          | none => "09:00"
        endTime := match user1.preferredWorkingHours with
          | some h => if h.«end» = "" then "17:00" else h.«end»
          | none => "17:00"
        timezone := match user1.timezone with
          | some tz => if tz = "" then "UTC" else tz
          | none => "UTC" })

/-- The value of `date.getDay()` for a valid date, 0 for Sunday to 6 for Saturday, in a
local time that is `tzOffset` milliseconds ahead of UTC (the epoch was a Thursday). -/
def getDay (tzOffset : Int) (t : Date) : Nat :=
  (((t + tzOffset) / DAY_MS + 4) % 7).toNat

/-- The array literal that `isWorkDay` indexes with `getDay()`. -/
def DAY_NAMES : List String :=
  ["sunday", "monday", "tuesday", "wednesday", "thursday", "friday", "saturday"]

/-- The client helper `isWorkDay` (the same in `BulkTaskAssignment.js` and `TaskCard.js`):
`res` is the outcome of the `getUserSchedule` request, an error status making the request
throw, which the `catch` turns into `false`. For an Invalid Date the index is not a
number, the array yields `undefined`, and `includes` answers `false`. -/
def isWorkDay (res : Except Nat Schedule) (tzOffset : Int) (date : JsDateArg) : Bool :=
  match res with
  | .error _ => false
  | .ok schedule =>
    match newDate date with
    | none => false
    | some t =>
      match DAY_NAMES.get? (getDay tzOffset t) with
      | none => false
      | some day => schedule.workDays.contains day

/-! ## Assignment checks of the client (`BulkTaskAssignment.js`, `TaskCard.js`) -/

/-- The client helper `isOnVacation` (the same in both components): a placeholder that
answers `false` without looking at the user or the date. -/
def isOnVacation (_userId : ObjectId) (_date : JsDateArg) : Bool := false

/-- A task as the client holds it (the fields the assignment checks read); a deadline that
is absent, `null` or empty is `none`, a present one is the date the server sent. -/
structure ClientTask where
  _id : ObjectId
  title : String
  deadline : Option Date
  assignedTo : Option ObjectId
  deriving DecidableEq, Repr

/-- The loop of `handleBulkAssign` that fills `unavailableTasks`: the titles of the selected
tasks with a deadline for which `!isAvailable || onVacation`, in selection order. `res` is
the answer of the schedule request for the selected user. The result is `none` when a
selected id names no task of `tasks`: reading `deadline` of `undefined` throws. -/
def unavailableTasks (res : Except Nat Schedule) (tzOffset : Int) (tasks : List ClientTask)
    (selectedUser : ObjectId) : List ObjectId → Option (List String)
  | [] => some []
  | taskId :: rest =>
    match tasks.find? (fun t => t._id == taskId) with
    | none => none
    | some task =>
      match unavailableTasks res tzOffset tasks selectedUser rest with
      | none => none
      | some titles =>
        match task.deadline with
        | none => some titles
        | some deadline =>
          let isAvailable := isWorkDay res tzOffset (.instant deadline)
          let onVacation := isOnVacation selectedUser (.instant deadline)
          if !isAvailable || onVacation then some (task.title :: titles) else some titles

/-- What a run of `handleBulkAssign` does that can be seen from outside: the value of
`assignError`, the message given to `onError`, the arguments given to `onBulkAssign`,
whether `onSuccess` was called, and whether the handler threw. -/
structure BulkAssignUi where
  assignError : String := ""
  onError : Option String := none
  onBulkAssign : Option (List ObjectId × ObjectId) := none
  onSuccess : Bool := false
  threw : Bool := false
  deriving DecidableEq, Repr

/-- The text `handleBulkAssign` puts before the list of titles. -/
def CANNOT_ASSIGN : String :=
  "Cannot assign: User is unavailable (vacation or not a work day) for the following task(s): "

/-- The handler `handleBulkAssign`. No selected user (the empty string) is `none`;
`assignResolves` says whether the promise of `onBulkAssign` resolves. -/
def handleBulkAssign (res : Except Nat Schedule) (tzOffset : Int) (tasks : List ClientTask)
    (selectedTasks : List ObjectId) (selectedUser : Option ObjectId) (assignResolves : Bool) :
    BulkAssignUi :=
  match selectedUser with
  | none => { onError := some "Please select a user and at least one task" }
  | some user =>
    if selectedTasks.length = 0 then
      { onError := some "Please select a user and at least one task" }
    else
      match unavailableTasks res tzOffset tasks user selectedTasks with
      | none => { threw := true }
      | some titles =>
        if titles.length > 0 then
          { assignError := CANNOT_ASSIGN ++ ", ".intercalate titles }
        else if assignResolves then
          { onBulkAssign := some (selectedTasks, user), onSuccess := true }
        else
          { onBulkAssign := some (selectedTasks, user),
            onError := some "Failed to assign tasks. Please try again." }

/-- What a run of `handleSubmit` of `TaskCard` does that can be seen from outside: the value
of `assignError` and whether `onEdit` was called. -/
structure SubmitUi where
  assignError : String
  onEdit : Bool
  deriving DecidableEq, Repr

/-- The handler `handleSubmit` of `TaskCard`, for the `assignedTo` and `deadline` of the edit
form (an empty field is `none`). -/
def handleSubmit (res : Except Nat Schedule) (tzOffset : Int) (assignedTo : Option ObjectId)
    (deadline : Option Date) : SubmitUi :=
  match assignedTo, deadline with
  | some user, some d =>
    let unavailable :=
      !(isWorkDay res tzOffset (.instant d)) || isOnVacation user (.instant d)
    if unavailable then
      ⟨"Cannot assign: User is unavailable (vacation or not a work day) on the selected deadline.",
        false⟩
    else ⟨"", true⟩
  | _, _ => ⟨"", true⟩

/-! ## Notification dispatch (`createNotificationWithEmail`, `emailService.js`) -/

/-- The fields of `emailConfig` that `sendEmail` and `validateEmailConfig` read. -/
structure EmailConfig where
  user : String
  pass : String
  enableEmailNotifications : Bool
  deriving DecidableEq, Repr

/-- The object `sendEmail` and `sendNotificationEmail` answer with (without `messageId`). -/
structure EmailResult where
  success : Bool
  error : Option String
  deriving DecidableEq, Repr

/-- The `errors` list of `validateEmailConfig`. -/
def validateEmailConfigErrors (c : EmailConfig) : List String :=
  (if c.user = "" || c.user = "your-email@gmail.com" then ["EMAIL_USER is not configured"]
    else [])
  ++ (if c.pass = "" || c.pass = "your-app-password" then ["EMAIL_PASSWORD is not configured"]
    else [])
  ++ (if !c.enableEmailNotifications then
      ["Email notifications are disabled (ENABLE_EMAIL_NOTIFICATIONS=false)"]
    else [])

/-- The function `sendEmail`. `sendMail` stands for rendering the template and
`transporter.sendMail`: it answers with a message id or throws. The transporter is `null`
when `validateEmailConfig` finds an error. -/
def sendEmail (c : EmailConfig) (sendMail : String → Except String String)
    (recipient : String) : EmailResult :=
  if !c.enableEmailNotifications then ⟨false, some "Email notifications are disabled"⟩
  else if (validateEmailConfigErrors c).length != 0 then
    ⟨false, some "Email transporter not configured"⟩
  else
    match sendMail recipient with
    | .ok _ => ⟨true, none⟩
    | .error e => ⟨false, some e⟩

/-- The function `sendNotificationEmail`: the template is chosen from the notification type
(not modelled) and the mail goes to `user.email`. -/
def sendNotificationEmail (c : EmailConfig) (sendMail : String → Except String String)
    (user : User) (_notification : Notification) : EmailResult :=
  sendEmail c sendMail user.email

/-- What `createNotificationWithEmail` does to the outside, in order. -/
inductive DispatchEffect where
  | saved (notification : Notification) : DispatchEffect
  | emailAttempt (userId : ObjectId) : DispatchEffect
  deriving DecidableEq, Repr

/-- What a call of `createNotificationWithEmail` that returns leaves behind: the store, the
notification returned, and the effects in the order they happened. -/
structure Dispatched where
  store : Store
  notification : Notification
  effects : List DispatchEffect
  deriving DecidableEq, Repr

/-- The helper `createNotificationWithEmail`. `send` is the email collaborator
(`sendNotificationEmail`), which answers with a result or throws; `clock` is the
`new Date()` of `emailSentAt`. A rejected first `save()` is rethrown. -/
def createNotificationWithEmail (send : User → Notification → Except String EmailResult)
    (clock : Date) (notificationData : Notification) (s : Store) : Except String Dispatched :=
  match Notification.create notificationData with
  | .error e => .error e
  | .ok notification =>
    match s.users.find? (fun u => u._id == notification.userId) with
    | none =>
      .ok ⟨{ s with notifications := s.notifications ++ [notification] }, notification,
        [.saved notification]⟩
    | some user =>
      if user.email = "" then
        .ok ⟨{ s with notifications := s.notifications ++ [notification] }, notification,
          [.saved notification]⟩
      else
        match send user notification with
        | .error _ =>
          .ok ⟨{ s with notifications := s.notifications ++ [notification] }, notification,
            [.saved notification, .emailAttempt user._id]⟩
        | .ok emailResult =>
          if emailResult.success then
            let sent := { notification with emailSent := true, emailSentAt := some clock }
            .ok ⟨{ s with notifications := s.notifications ++ [sent] }, sent,
              [.saved notification, .emailAttempt user._id, .saved sent]⟩
          else
            .ok ⟨{ s with notifications := s.notifications ++ [notification] }, notification,
              [.saved notification, .emailAttempt user._id]⟩

/-! ## Assignment on the server (`taskController.js`) -/

/-- The helper `updateProjectStatus`: the status of the project follows the share of its
tasks that are `done`; nothing happens when the project has no task. -/
def updateProjectStatus (projectId : ObjectId) (s : Store) : Store :=
  let tasks := s.tasks.filter (fun t => t.projectId == some projectId)
  if tasks.length = 0 then s
  else
    let completedTasks := (tasks.filter (fun t => t.status == "done")).length
    let newStatus :=
      if completedTasks = tasks.length then "completed"
      else if completedTasks > 0 then "in progress"
      else "not started"
    { s with
      projects :=
        updateFirst (fun p => p._id == projectId) (fun p => { p with status := newStatus })
          s.projects }

/-- The body of `PUT /tasks/bulk-assign`; a field that is absent is `none`. -/
structure BulkAssignBody where
  taskIds : Option (List ObjectId)
  assignedTo : Option ObjectId
  deriving DecidableEq, Repr

/-- The calls `Task.findByIdAndUpdate(taskId, assignedTo)` of `bulkAssignTasks`, one per
task id: the collection afterwards and the documents returned (`null` for an id without a
task). The update validators have nothing to check on `assignedTo`. -/
def bulkUpdate (assignedTo : ObjectId) : List ObjectId → List Task → List Task × List (Option Task)
  | [], tasks => (tasks, [])
  | taskId :: rest, tasks =>
    let updated := (tasks.find? (fun t => t._id == taskId)).map
      (fun t => { t with assignedTo := some assignedTo })
    let r := bulkUpdate assignedTo rest
      (updateFirst (fun t => t._id == taskId) (fun t => { t with assignedTo := some assignedTo })
        tasks)
    (r.1, updated :: r.2)

/-- The notification of `bulkAssignTasks` for one updated task. -/
def assignmentNotification (assignedTo : ObjectId) (task : Task) : Notification :=
  { userId := assignedTo, title := "New Task Assigned", type := "task_assignment",
    relatedItem := ⟨"task", task._id⟩, priority := "medium" }

/-- The promises `notificationPromises` of `bulkAssignTasks`: one dispatch per updated task;
reading `projectId` of `null` rejects. All promises run; the message is that of the first
rejection, if any. -/
def bulkNotify (send : User → Notification → Except String EmailResult) (clock : Date)
    (assignedTo : ObjectId) : List (Option Task) → Store → Store × Option String
  | [], s => (s, none)
  | none :: rest, s =>
    let r := bulkNotify send clock assignedTo rest s
    (r.1, some "TypeError")
  | some task :: rest, s =>
    match createNotificationWithEmail send clock (assignmentNotification assignedTo task) s with
    | .error e =>
      let r := bulkNotify send clock assignedTo rest s
      (r.1, some e)
    | .ok d =>
      let r := bulkNotify send clock assignedTo rest d.store
      (r.1, r.2)

/-- The handler `bulkAssignTasks`. -/
def bulkAssignTasks (send : User → Notification → Except String EmailResult) (clock : Date)
    (body : BulkAssignBody) (s : Store) : Store × Response :=
  match body.taskIds with
  | none => (s, ⟨400, some "Task IDs array is required", none⟩)
  | some taskIds =>
    if taskIds.length = 0 then (s, ⟨400, some "Task IDs array is required", none⟩)
    else
      match body.assignedTo with
      | none => (s, ⟨400, some "Assigned user is required", none⟩)
      | some assignedTo =>
        let updates := bulkUpdate assignedTo taskIds s.tasks
        let s1 := { s with tasks := updates.1 }
        match bulkNotify send clock assignedTo updates.2 s1 with
        | (s2, some e) => (s2, ⟨500, some e, none⟩)
        | (s2, none) =>
          let projectIds := (updates.2.filterMap
            (fun t => t.bind (fun task => task.projectId))).eraseDups
          (projectIds.foldl (fun acc projectId => updateProjectStatus projectId acc) s2,
            ⟨200, none,
              some ("Successfully assigned " ++ toString updates.2.length ++ " tasks")⟩)

/-- The body of `PUT /tasks/:id` (the fields of a task the handler and the update
validators look at); a field that is absent is `none`. -/
structure TaskUpdate where
  title : Option String
  assignedTo : Option ObjectId
  deadline : Option Date
  status : Option String
  deriving DecidableEq, Repr

/-- The update validators of `Task.findByIdAndUpdate(id, body)` with `runValidators`: the
`required` of `title` and the `enum` of `status`, for the fields in the body. -/
def TaskUpdate.validate (u : TaskUpdate) : Bool :=
  (match u.title with
    | none => true
    | some t => requiredString t)
  && (match u.status with
    | none => true
    | some st => TASK_STATUS_ENUM.contains st)

/-- The document after the update `body` is applied to `task`. -/
def TaskUpdate.apply (u : TaskUpdate) (task : Task) : Task :=
  { task with
    title := u.title.getD task.title
    assignedTo := match u.assignedTo with
      | some a => some a
      | none => task.assignedTo
    deadline := match u.deadline with
      | some d => some d
      | none => task.deadline
    status := u.status.getD task.status }

/-- The handler `updateTask`. The reassignment notification is created when `assignedTo` is
in the body and differs from the `assignedTo` of the document the update returned. -/
def updateTask (send : User → Notification → Except String EmailResult) (clock : Date)
    (id : ObjectId) (body : TaskUpdate) (s : Store) : Store × Response :=
  if !body.validate then (s, ⟨400, some "ValidationError", none⟩)
  else
    match s.tasks.find? (fun t => t._id == id) with
    | none => (s, ⟨404, some "Task not found", none⟩)
    | some old =>
      let task := body.apply old
      let s1 := { s with tasks := updateFirst (fun t => t._id == id) body.apply s.tasks }
      let notified : Except String Store :=
        match body.assignedTo with
        | none => .ok s1
        | some a =>
          if some a != task.assignedTo then
            (createNotificationWithEmail send clock
              { userId := a, title := "Task Reassigned", type := "task_assignment",
                relatedItem := ⟨"task", task._id⟩, priority := "medium" } s1).map
              (fun d => d.store)
          else .ok s1
      match notified with
      | .error e => (s1, ⟨400, some e, none⟩)
      | .ok s2 =>
        match task.projectId with
        | none => (s2, ⟨200, none, none⟩)
        | some projectId => (updateProjectStatus projectId s2, ⟨200, none, none⟩)

/-! ## Workload presentation (`ScheduleManagement.js`) -/

/-- The value of `utilization` the client receives in the answer of
`getWorkloadDistribution`: the integer `Math.round` returned, or `null`, which is what
`res.json` writes for the `NaN` or `Infinity` of a `maxHoursPerWeek` that is 0 or missing. -/
inductive Utilization where
  | int (v : Int) : Utilization
  | null : Utilization
  deriving DecidableEq, Repr

/-- The comparison `x < c` of JavaScript with an integer literal `c`; `null` is compared
as the number 0. -/
def Utilization.lt (x : Utilization) (c : Int) : Bool :=
  match x with
  | .int v => decide (v < c)
  | .null => decide (0 < c)

/-- The helper `getWorkloadColor` of `ScheduleManagement`: the class of the percentage text. -/
def getWorkloadColor (workload : Utilization) : String :=
  if workload.lt 50 then "text-green-400"
  else if workload.lt 80 then "text-yellow-400"
  else "text-red-400"

/-- The class of the workload bar, the conditional expression in the `className` of the bar
of `ScheduleManagement`. -/
def workloadBarColor (utilization : Utilization) : String :=
  if utilization.lt 50 then "bg-green-500"
  else if utilization.lt 80 then "bg-yellow-500"
  else "bg-red-500"

/-! ## Scheduler configuration (`cronConfig.js`, `cronJobs.js`) -/

/-- The settings of one job in `cronConfig`. -/
structure JobConfig where
  enabled : Bool
  schedule : String
  timezone : String
  deriving DecidableEq, Repr

/-- The object `cronConfig` (the two jobs; `validateConfig` and `initCronJobs` do not read
`thresholds` and `general`). -/
structure CronConfig where
  deadlineNotifications : JobConfig
  overdueChecks : JobConfig
  deriving DecidableEq, Repr

/-- A character class `[lo-hi]` of `cronRegex`. -/
def inClass (c lo hi : Char) : Bool :=
  decide (lo.toNat ≤ c.toNat) && decide (c.toNat ≤ hi.toNat)

/-- The minute values of `cronRegex`: `[0-9]|1[0-9]|2[0-9]|3[0-9]|4[0-9]|5[0-9]`. -/
def minuteValue : List Char → Bool
  | [d] => inClass d '0' '9'
  | [t, d] => inClass t '1' '5' && inClass d '0' '9'
  | _ => false

/-- The hour values of `cronRegex`: `[0-9]|1[0-9]|2[0-3]`. -/
def hourValue : List Char → Bool
  | [d] => inClass d '0' '9'
  | [t, d] => (t == '1' && inClass d '0' '9') || (t == '2' && inClass d '0' '3')
  | _ => false

/-- The day-of-month values of `cronRegex`: `[1-9]|1[0-9]|2[0-9]|3[0-1]`. -/
def dayValue : List Char → Bool
  | [d] => inClass d '1' '9'
  | [t, d] => (inClass t '1' '2' && inClass d '0' '9') || (t == '3' && inClass d '0' '1')
  | _ => false

/-- The month values of `cronRegex`: `[1-9]|1[0-2]`. -/
def monthValue : List Char → Bool
  | [d] => inClass d '1' '9'
  | [t, d] => t == '1' && inClass d '0' '2'
  | _ => false

/-- The day-of-week values of `cronRegex`: `[0-6]`. -/
def weekdayValue : List Char → Bool
  | [d] => inClass d '0' '6'
  | _ => false

/-- One field of `cronRegex`, the group `(\*|V|\*\/V)` for the values `V` of the field. -/
def cronField (value : List Char → Bool) (field : List Char) : Bool :=
  field == ['*'] || value field ||
    match field with
    | star :: slash :: rest => star == '*' && slash == '/' && value rest
    | _ => false

/-- The pieces of a text between its space characters. -/
def splitOnSpace : List Char → List (List Char)
  | [] => [[]]
  | c :: cs =>
    if c = Char.ofNat 32 then [] :: splitOnSpace cs
    else
      match splitOnSpace cs with
      | [] => [[c]]
      | piece :: pieces => (c :: piece) :: pieces

/-- The test `cronRegex.test(schedule)`: the whole text is five fields (minute, hour, day of
month, month, day of week) with one space between them. No field can hold a space, so the
fields are the pieces between the spaces. -/
def cronRegex (schedule : String) : Bool :=
  match splitOnSpace schedule.toList with
  | [minute, hour, day, month, weekday] =>
    cronField minuteValue minute && cronField hourValue hour && cronField dayValue day
      && cronField monthValue month && cronField weekdayValue weekday
  | _ => false

/-- The object `validateConfig` returns. -/
structure ConfigValidation where
  isValid : Bool
  errors : List String
  deriving DecidableEq, Repr

/-- The function `validateConfig`. `validTimeZone` stands for `Intl.DateTimeFormat`, which
throws for a time zone it does not know. -/
def validateConfig (validTimeZone : String → Bool) (cronConfig : CronConfig) :
    ConfigValidation :=
  let errors :=
    (if !cronRegex cronConfig.deadlineNotifications.schedule then
        ["Invalid deadline notifications schedule format"]
      else [])
    ++ (if !cronRegex cronConfig.overdueChecks.schedule then
        ["Invalid overdue checks schedule format"]
      else [])
    ++ (if !validTimeZone cronConfig.deadlineNotifications.timezone then
        ["Invalid deadline notifications timezone"]
      else [])
    ++ (if !validTimeZone cronConfig.overdueChecks.timezone then
        ["Invalid overdue checks timezone"]
      else [])
  ⟨errors.length == 0, errors⟩

/-- A call of `cron.schedule`: the job it is for, the schedule and the `timezone` option. -/
structure CronCall where
  job : String
  schedule : String
  timezone : String
  deriving DecidableEq, Repr

/-- The function `scheduleDeadlineNotifications`: the calls of `cron.schedule` it makes and
whether it throws. `cronAccepts` says whether `cron.schedule` returns for a schedule and a
time zone (it throws otherwise). -/
def scheduleDeadlineNotifications (cronAccepts : String → String → Bool)
    (cronConfig : CronConfig) : List CronCall × Bool :=
  let config := cronConfig.deadlineNotifications
  if !config.enabled then ([], false)
  else
    ([⟨"deadlineNotifications", config.schedule, config.timezone⟩],
      !cronAccepts config.schedule config.timezone)

/-- The function `scheduleOverdueChecks`: the calls of `cron.schedule` it makes and whether
it throws. -/
def scheduleOverdueChecks (cronAccepts : String → String → Bool)
    (cronConfig : CronConfig) : List CronCall × Bool :=
  let config := cronConfig.overdueChecks
  if !config.enabled then ([], false)
  else
    ([⟨"overdueChecks", config.schedule, config.timezone⟩],
      !cronAccepts config.schedule config.timezone)

/-- The function `initCronJobs`: the calls of `cron.schedule` made, in order. The
configuration is validated first; the two scheduling functions run in one `try`, so a
throw of the first skips the second. -/
def initCronJobs (validTimeZone : String → Bool) (cronAccepts : String → String → Bool)
    (cronConfig : CronConfig) : List CronCall :=
  if !(validateConfig validTimeZone cronConfig).isValid then []
  else
    let first := scheduleDeadlineNotifications cronAccepts cronConfig
    if first.2 then first.1
    else first.1 ++ (scheduleOverdueChecks cronAccepts cronConfig).1

/-! ## User routes (`userRoutes.js`) -/

/-- The query `User.countDocuments` for role `admin` and `isActive` not `false`. -/
def adminCount (users : List User) : Nat :=
  (users.filter (fun u => u.role == "admin" && u.isActive != false)).length

/-- The route `DELETE /users/:id`; `clock` is the `new Date()` of `deletedAt`. The admins
are counted only when the target has role `admin`. -/
def deleteUserRoute (clock : Date) (id : ObjectId) (s : Store) : Store × Response :=
  match s.users.find? (fun u => u._id == id) with
  | none => (s, ⟨404, some "User not found", none⟩)
  | some user =>
    if user.role = "admin" ∧ adminCount s.users ≤ 1 then
      (s, ⟨400, some "Cannot delete the last admin user", none⟩)
    else
      ({ s with
          users := updateFirst (fun u => u._id == id)
            (fun u => { u with isActive := false, deletedAt := some clock }) s.users },
        ⟨200, none, some "User deleted successfully"⟩)

/-! ## Calendar view (`getCalendarData`) -/

/-- An element of `tasks` in the answer of `getCalendarData`. -/
structure CalendarTask where
  id : ObjectId
  title : String
  date : Option Date
  type : String
  status : String
  isOverdue : Bool
  assignedTo : Option String
  projectName : Option String
  deriving DecidableEq, Repr

/-- An element of `projects` in the answer of `getCalendarData`. -/
structure CalendarProject where
  id : ObjectId
  title : String
  date : Option Date
  type : String
  status : String
  isOverdue : Bool
  deriving DecidableEq, Repr

/-- An element of `milestones` in the answer of `getCalendarData`. -/
structure CalendarMilestone where
  id : ObjectId
  title : String
  date : Date
  type : String
  projectId : ObjectId
  projectName : String
  completed : Bool
  deriving DecidableEq, Repr

/-- The answer of `getCalendarData`. -/
structure CalendarData where
  tasks : List CalendarTask
  projects : List CalendarProject
  milestones : List CalendarMilestone
  deriving DecidableEq, Repr

/-- The virtual `isOverdue` of `TaskSchema`, read at the instant `clock`. -/
def Task.isOverdue (task : Task) (clock : Date) : Bool :=
  match task.deadline with
  | none => false
  | some d => if task.status = "done" then false else decide (d < clock)

/-- The virtual `isOverdue` of `ProjectSchema`, read at the instant `clock`. -/
def Project.isOverdue (project : Project) (clock : Date) : Bool :=
  match project.deadline with
  | none => false
  | some d => if project.status = "completed" then false else decide (d < clock)

/-- The query condition `deadline: $gte start, $lte end`. -/
def deadlineWithin (start «end» : Date) (deadline : Option Date) : Bool :=
  match deadline with
  | none => false
  | some d => decide (start ≤ d) && decide (d ≤ «end»)

/-- The handler `getCalendarData` for `GET /deadlines/calendar`: the answer, or the message
of the error answered with status 500. A `startDate` or `endDate` that is no date makes the
queries throw. `clock` is the instant at which the `isOverdue` virtuals are read. -/
def getCalendarData (clock : Date) (userId : ObjectId) (startDate endDate : JsDateArg)
    (s : Store) : Except String CalendarData :=
  match newDate startDate, newDate endDate with
  | some start, some «end» =>
    let memberProjectIds :=
      (s.projects.filter (fun p => p.members.contains userId)).map (fun p => p._id)
    let tasks := s.tasks.filter (fun t =>
      (t.assignedTo == some userId ||
        match t.projectId with
        | some projectId => memberProjectIds.contains projectId
        | none => false)
      && deadlineWithin start «end» t.deadline)
    let projects := s.projects.filter (fun p =>
      p.members.contains userId && deadlineWithin start «end» p.deadline)
    let milestones := (projects.map (fun project =>
      (project.milestones.filter (fun milestone =>
        decide (start ≤ milestone.dueDate) && decide (milestone.dueDate ≤ «end»))).map
        (fun milestone =>
          { id := milestone._id, title := milestone.title, date := milestone.dueDate,
            type := "milestone", projectId := project._id, projectName := project.name,
            completed := milestone.completed : CalendarMilestone }))).flatten
    .ok
      { tasks := tasks.map (fun task =>
          { id := task._id, title := task.title, date := task.deadline, type := "task",
            status := task.status, isOverdue := task.isOverdue clock,
            assignedTo := (populate s.users task.assignedTo).map (fun u => u.name),
            projectName :=
              (task.projectId.bind
                (fun projectId => s.projects.find? (fun p => p._id == projectId))).map
                (fun p => p.name) })
        projects := projects.map (fun project =>
          { id := project._id, title := project.name, date := project.deadline,
            type := "project", status := project.status,
            isOverdue := project.isOverdue clock })
        milestones := milestones }
  | _, _ => .error "CastError"

/-! ## Handlers that create notifications (`deadlineController.js`, `scheduleController.js`) -/

/-- The handler `requestTaskExtension` for `POST /deadlines/tasks/:taskId/extension` with
body `newDeadline, reason, userId`; a `userId` that is absent becomes the string
`USER_ID_HERE`, which is not an ObjectId (`none`). `newId` is the `_id` of the new request
and `clock` the default of `requestedAt`. The notification goes to the first member of the
project of the task. -/
def requestTaskExtension (taskId newId : ObjectId) (clock : Date) (userId : Option ObjectId)
    (newDeadline : JsDateArg) (reason : Option String) (s : Store) : Store × Response :=
  match s.tasks.find? (fun t => t._id == taskId) with
  | none => (s, ⟨404, some "Task not found", none⟩)
  | some task =>
    match task.requestExtension newId clock userId newDeadline reason with
    | .error e => (s, ⟨500, some e, none⟩)
    | .ok saved =>
      let s1 := { s with
        tasks := updateFirst (fun t => t._id == taskId) (fun _ => saved) s.tasks }
      let project :=
        saved.projectId.bind (fun projectId => s.projects.find? (fun p => p._id == projectId))
      match project.bind (fun p => p.members.head?) with
      | none => (s1, ⟨200, none, some "Extension request submitted successfully"⟩)
      | some adminUser =>
        match Notification.create
            { userId := adminUser, title := "Deadline Extension Request",
              type := "deadline_extension", relatedItem := ⟨"task", taskId⟩,
              priority := "medium" } with
        | .error e => (s1, ⟨500, some e, none⟩)
        | .ok n =>
          ({ s1 with notifications := s1.notifications ++ [n] },
            ⟨200, none, some "Extension request submitted successfully"⟩)

/-- The handler `requestProjectExtension` for `POST /deadlines/projects/:projectId/extension`.
One notification is created for every member other than the requester. -/
def requestProjectExtension (projectId newId : ObjectId) (clock : Date)
    (userId : Option ObjectId) (newDeadline : JsDateArg) (reason : Option String)
    (s : Store) : Store × Response :=
  match s.projects.find? (fun p => p._id == projectId) with
  | none => (s, ⟨404, some "Project not found", none⟩)
  | some project =>
    match project.requestExtension newId clock userId newDeadline reason with
    | .error e => (s, ⟨500, some e, none⟩)
    | .ok saved =>
      let s1 := { s with
        projects := updateFirst (fun p => p._id == projectId) (fun _ => saved) s.projects }
      match notifyMembers "Project Deadline Extension Request" "deadline_extension" "high"
          projectId (saved.members.filter (fun memberId => some memberId != userId)) with
      | (created, some e) =>
        ({ s1 with notifications := s1.notifications ++ created }, ⟨500, some e, none⟩)
      | (created, none) =>
        ({ s1 with notifications := s1.notifications ++ created },
          ⟨200, none, some "Extension request submitted successfully"⟩)

/-- The handler `completeMilestone` of the deadline controller, for
`PUT /deadlines/projects/:projectId/milestones/:milestoneId/complete`; `clock` is the
`new Date()` of `completedAt`. -/
def completeMilestoneHandler (projectId : ObjectId) (milestoneId : Option ObjectId)
    (clock : Date) (s : Store) : Store × Response :=
  match s.projects.find? (fun p => p._id == projectId) with
  | none => (s, ⟨404, some "Project not found", none⟩)
  | some project =>
    match project.completeMilestone clock milestoneId with
    | .error e => (s, ⟨500, some e, none⟩)
    | .ok saved =>
      let s1 := { s with
        projects := updateFirst (fun p => p._id == projectId) (fun _ => saved) s.projects }
      match findMilestone saved.milestones milestoneId with
      | none => (s1, ⟨200, none, some "Milestone completed successfully"⟩)
      | some _ =>
        match notifyMembers "Milestone Completed" "milestone_complete" "low" projectId
            saved.members with
        | (created, some e) =>
          ({ s1 with notifications := s1.notifications ++ created }, ⟨500, some e, none⟩)
        | (created, none) =>
          ({ s1 with notifications := s1.notifications ++ created },
            ⟨200, none, some "Milestone completed successfully"⟩)

/-- The loop over the managers in `requestVacation`: one `vacation_request` notification per
manager; the notifications created and the message of the exception that ended the loop. -/
def notifyManagers (userId : ObjectId) : List User → List Notification × Option String
  | [] => ([], none)
  | manager :: rest =>
    match Notification.create
        { userId := manager._id, title := "Vacation Request", type := "vacation_request",
          relatedItem := ⟨"user", userId⟩, priority := "medium" } with
    | .error e => ([], some e)
    | .ok n =>
      let r := notifyManagers userId rest
      (n :: r.1, r.2)

/-- The handler `requestVacation` for `POST /schedule/users/:userId/vacation` with body
`startDate, endDate, reason`. A value that is no date makes `user.save()` reject. The answer
to a successful request is the stored vacation period. -/
def requestVacation (userId : ObjectId) (startDate endDate : JsDateArg)
    (reason : Option String) (s : Store) : Store × Response :=
  match s.users.find? (fun u => u._id == userId) with
  | none => (s, ⟨404, some "User not found", none⟩)
  | some user =>
    match newDate startDate, newDate endDate with
    | some start, some «end» =>
      let s1 := { s with
        users := updateFirst (fun u => u._id == userId)
          (fun u => { u with
            vacationDays := u.vacationDays ++
              [VacationPeriod.mk start «end» reason] })
          s.users }
      let managers := s1.users.filter (fun u => u.role == "admin" || u.role == "manager")
      match notifyManagers user._id managers with
      | (created, some e) =>
        ({ s1 with notifications := s1.notifications ++ created }, ⟨400, some e, none⟩)
      | (created, none) =>
        ({ s1 with notifications := s1.notifications ++ created }, ⟨200, none, none⟩)
    | _, _ => (s, ⟨400, some "ValidationError", none⟩)

/-! ## Schedule update (`updateUserSchedule`) -/

/-- The body of `PUT /schedule/users/:userId/schedule`, with all four fields present:
`workDays` an array of strings and the other three strings. -/
structure ScheduleBody where
  workDays : List String
  startTime : String
  endTime : String
  timezone : String
  deriving DecidableEq, Repr

/-- The handler `updateUserSchedule`: `.error 404` when there is no such user; otherwise the
work schedule built from the body, the time zone and the preferred hours are written to the
user and the schedule is answered in the shape the client expects. -/
def updateUserSchedule (userId : ObjectId) (body : ScheduleBody) (s : Store) :
    Store × Except Nat Schedule :=
  let workSchedule : WorkSchedule :=
    { monday := some ⟨body.startTime, body.endTime, body.workDays.contains "monday"⟩
      tuesday := some ⟨body.startTime, body.endTime, body.workDays.contains "tuesday"⟩
      wednesday := some ⟨body.startTime, body.endTime, body.workDays.contains "wednesday"⟩
      thursday := some ⟨body.startTime, body.endTime, body.workDays.contains "thursday"⟩
      friday := some ⟨body.startTime, body.endTime, body.workDays.contains "friday"⟩
      saturday := some ⟨body.startTime, body.endTime, body.workDays.contains "saturday"⟩
      sunday := some ⟨body.startTime, body.endTime, body.workDays.contains "sunday"⟩ }
  match s.users.find? (fun u => u._id == userId) with
  | none => (s, .error 404)
  | some _ =>
    ({ s with
        users := updateFirst (fun u => u._id == userId)
          (fun u =>
            { u with
              workSchedule := some workSchedule
              timezone := some body.timezone
              preferredWorkingHours := some ⟨body.startTime, body.endTime⟩ })
          s.users },
      .ok
        { workDays := workDaysOf workSchedule
          startTime := if body.startTime = "" then "09:00" else body.startTime
          endTime := if body.endTime = "" then "17:00" else body.endTime
          timezone := if body.timezone = "" then "UTC" else body.timezone })

/-! ## Properties stated about the model -/

/-- The dedup keys `(type, sentTo)` of a ledger, in order. -/
def ledgerKeys (ledger : List LedgerEntry) : List (String × Option ObjectId) :=
  ledger.map (fun n => (n.type, n.sentTo))

/-- No ledger of the store holds two entries with the same `(type, sentTo)`. -/
def LedgerUnique (s : Store) : Prop :=
  (∀ t ∈ s.tasks, (ledgerKeys t.deadlineNotifications).Nodup) ∧
  (∀ p ∈ s.projects, (ledgerKeys p.deadlineNotifications).Nodup)

/-- The deadline `after` an operation is the deadline `before` it, or the `newDeadline`
of one of the requests that are `approved` after it. -/
def DeadlineKeptOrApproved (before after : Option Date)
    (extensions : List ExtensionRequest) : Prop :=
  after = before ∨ ∃ e ∈ extensions, e.status = "approved" ∧ after = some e.newDeadline

/-- The name of the weekday of a valid date: the element of `DAY_NAMES` that `isWorkDay`
picks with `getDay()` (the index is always below 7). -/
def weekdayName (tzOffset : Int) (t : Date) : String :=
  (DAY_NAMES.get? (getDay tzOffset t)).getD ""

/-- The `available` flag stored for a day of a work schedule; a day that is not stored is
not available. -/
def WorkSchedule.available (w : WorkSchedule) (day : String) : Bool :=
  match w.get day with
  | some d => d.available
  | none => false

/-- The decision `canAssign` of the specification: `isWorkDay && !isOnVacation`. -/
def canAssign (res : Except Nat Schedule) (tzOffset : Int) (userId : ObjectId)
    (date : Date) : Bool :=
  isWorkDay res tzOffset (.instant date) && !isOnVacation userId (.instant date)

/-- A selected task fails the availability check: it has a deadline on which the user
cannot be assigned. -/
def failsCheck (res : Except Nat Schedule) (tzOffset : Int) (userId : ObjectId)
    (task : ClientTask) : Bool :=
  match task.deadline with
  | none => false
  | some d => !canAssign res tzOffset userId d

/-- The tasks a selection names, in selection order. -/
def selectedOf (tasks : List ClientTask) (selectedTasks : List ObjectId) : List ClientTask :=
  selectedTasks.filterMap (fun id => tasks.find? (fun t => t._id == id))

/-- The ledger has no entry of the given type for the user, and every entry of that type
names a recipient: the ledger test of the scan answers `false`. -/
def noEntry (ledger : List LedgerEntry) (type : String) (userId : ObjectId) : Bool :=
  ledger.all (fun n =>
    n.type != type ||
      match n.sentTo with
      | some v => v != userId
      | none => false)

/-- The ledger has no entry for the user at all, and every entry names a recipient. -/
def noEntryFor (ledger : List LedgerEntry) (userId : ObjectId) : Bool :=
  ledger.all (fun n =>
    match n.sentTo with
    | some v => v != userId
    | none => false)

/-- The notification the scan creates for an overdue task. -/
def overdueTaskNotification (userId taskId : ObjectId) : Notification :=
  { userId := userId, title := "Task Overdue", type := "deadline_overdue",
    relatedItem := ⟨"task", taskId⟩, priority := "high" }

/-- The notification the scan creates for a task whose deadline approaches. -/
def approachingTaskNotification (userId taskId : ObjectId) (priority : String) :
    Notification :=
  { userId := userId, title := "Deadline Approaching", type := "deadline_approaching",
    relatedItem := ⟨"task", taskId⟩, priority := priority }

/-- The task with one more ledger entry. -/
def withLedgerEntry (task : Task) (type : String) (sentAt : Date) (userId : ObjectId) :
    Task :=
  { task with
    deadlineNotifications := task.deadlineNotifications ++ [⟨type, sentAt, some userId⟩] }

/-- Processing of the task by the scan at `now` throws with the message `e`: the body of
the loop whose query selects the task ends in its `catch`. -/
def TaskThrows (now : Date) (users : List User) (task : Task) (e : String) : Prop :=
  (overdueTaskQuery now task = true ∧ (overdueTaskBody now users task).error = some e) ∨
  (upcomingTaskQuery now (now + 7 * 24 * 60 * 60 * 1000) task = true ∧
    (upcomingTaskBody now users task).error = some e)

/-- Processing of the project by the scan at `now` throws with the message `e`. -/
def ProjectThrows (now : Date) (users : List User) (project : Project) (e : String) : Prop :=
  overdueProjectQuery now project = true ∧ (overdueProjectBody now users project).error = some e

/-- The notifications a scan at `now` of the store `s` creates, in order. -/
def createdInRun (now : Date) (s : Store) : List Notification :=
  (sendDeadlineNotifications now s).1.notifications.drop s.notifications.length

/-- The ledger entry records the notification: same recipient, and the bucket of the entry
is that of the notification type (`overdue` for `deadline_overdue`, one of the threshold
buckets for `deadline_approaching`). -/
def Matches (n : Notification) (l : LedgerEntry) : Prop :=
  l.sentTo = some n.userId ∧
    ((n.type = "deadline_overdue" ∧ l.type = "overdue") ∨
      (n.type = "deadline_approaching" ∧
        (l.type = "1_day" ∨ l.type = "3_days" ∨ l.type = "7_days")))

/-- The threshold kinds the scan can push to the ledger of a task: `overdue` in the first
loop and the values of `notificationType` in the second. -/
def TASK_SCAN_KINDS : List String := ["overdue", "1_day", "3_days", "7_days"]

/-- The threshold kinds the scan can push to the ledger of a project: `overdue`. -/
def PROJECT_SCAN_KINDS : List String := ["overdue"]

/-- The priority the specification gives to a threshold bucket: `high` for `overdue` and
`1_day`, `medium` otherwise. -/
def bucketPriority (bucket : String) : String :=
  if bucket = "overdue" ∨ bucket = "1_day" then "high" else "medium"

/-- The `type` each notification-creating call site passes, with the function (or route) it
is in: the literals in `deadlineController.js`, `scheduleController.js` and `userRoutes.js`. -/
def NOTIFICATION_CALL_SITES : List (String × String) :=
  [("sendDeadlineNotifications", "deadline_overdue"),
   ("sendDeadlineNotifications", "deadline_approaching"),
   ("requestTaskExtension", "deadline_extension"),
   ("requestProjectExtension", "deadline_extension"),
   ("reviewExtension", "deadline_extension_review"),
   ("addMilestone", "milestone"),
   ("completeMilestone", "milestone_complete"),
   ("requestVacation", "vacation_request"),
   ("POST /users", "welcome")]

/-- The seven weekday names, Monday first. -/
def WEEKDAYS : List String :=
  ["monday", "tuesday", "wednesday", "thursday", "friday", "saturday", "sunday"]

/-! ## Concrete documents used in the evaluations -/

/-- A user with the given id and no stored schedule. -/
def userWithId (id : ObjectId) : User :=
  { _id := id, name := "U", email := "u@example.org", role := "member", isActive := true,
    deletedAt := none, workSchedule := none, timezone := none, vacationDays := [],
    preferredWorkingHours := none }

/-- A store with one user and one task assigned to that user, due exactly seven days
after the instant 0, with an empty ledger. -/
def storeSevenDays : Store :=
  { users := [userWithId 1]
    tasks := [{ _id := 10, title := "Report", assignedTo := some 1,
                deadline := some (7 * DAY_MS), projectId := none, status := "todo",
                deadlineNotifications := [], deadlineExtensions := [] }]
    projects := []
    notifications := [] }

/-- A store with an overdue project whose member list names user 1 twice. -/
def storeDuplicateMember : Store :=
  { users := [userWithId 1, userWithId 2]
    tasks := []
    projects := [{ _id := 20, name := "Launch", members := [1, 2, 1], status := "in progress",
                   deadline := some (-5), deadlineNotifications := [],
                   deadlineExtensions := [], milestones := [] }]
    notifications := [] }

/-- A valid task with deadline 1000 and one pending extension request (id 1, by user 7,
asking for 5000). -/
def taskWithPending : Task :=
  { _id := 10, title := "Report", assignedTo := some 7, deadline := some 1000,
    projectId := some 20, status := "todo", deadlineNotifications := [],
    deadlineExtensions :=
      [{ _id := 1, requestedBy := 7, requestedAt := 100, newDeadline := 5000,
         reason := some "blocked", status := "pending", reviewedBy := none,
         reviewedAt := none }] }

/-- The same task after user 8 rejected the request at the instant 200. -/
def taskWithRejected : Task :=
  { taskWithPending with
    deadlineExtensions :=
      [{ _id := 1, requestedBy := 7, requestedAt := 100, newDeadline := 5000,
         reason := some "blocked", status := "rejected", reviewedBy := some 8,
         reviewedAt := some 200 }] }

/-- A valid project with deadline 1000, members 7 and 8, one pending extension request
(id 1, by user 7, asking for 5000) and one milestone (id 3) completed at the instant 300. -/
def projectWithPending : Project :=
  { _id := 20, name := "Launch", members := [7, 8], status := "in progress",
    deadline := some 1000, deadlineNotifications := [],
    deadlineExtensions :=
      [{ _id := 1, requestedBy := 7, requestedAt := 100, newDeadline := 5000,
         reason := some "blocked", status := "pending", reviewedBy := none,
         reviewedAt := none }],
    milestones :=
      [{ _id := 3, title := "Beta", description := none, dueDate := 800, completed := true,
         completedAt := some 300 }] }

/-- The same project after user 8 rejected the request at the instant 200. -/
def projectWithRejected : Project :=
  { projectWithPending with
    deadlineExtensions :=
      [{ _id := 1, requestedBy := 7, requestedAt := 100, newDeadline := 5000,
         reason := some "blocked", status := "rejected", reviewedBy := some 8,
         reviewedAt := some 200 }] }

/-- A store holding `taskWithRejected` and `projectWithRejected`. -/
def storeWithRejected : Store :=
  { users := [userWithId 7, userWithId 8], tasks := [taskWithRejected],
    projects := [projectWithRejected], notifications := [] }

/-- A user (id 5) whose stored schedule marks Monday to Friday available and the weekend
unavailable. -/
def weekdayWorker : User :=
  { userWithId 5 with workSchedule := some defaultWorkSchedule }

/-- A store holding `weekdayWorker`. -/
def storeWeekdayWorker : Store :=
  { users := [weekdayWorker], tasks := [], projects := [projectWithPending],
    notifications := [] }

/-- The schedule `getUserSchedule` answers with for `weekdayWorker`. -/
def mondayToFriday : Schedule :=
  { workDays := ["monday", "tuesday", "wednesday", "thursday", "friday"],
    startTime := "09:00", endTime := "17:00", timezone := "UTC" }

/-- A user (id 6) with the Monday-to-Friday schedule and a stored vacation from Monday
5 January 1970 to Friday 9 January 1970. -/
def vacationWorker : User :=
  { userWithId 6 with
    workSchedule := some defaultWorkSchedule
    vacationDays := [⟨4 * DAY_MS, 8 * DAY_MS, some "leave"⟩] }

/-- A store holding `vacationWorker`. -/
def storeVacationWorker : Store :=
  { users := [vacationWorker], tasks := [], projects := [], notifications := [] }

/-- A client task due at 01:00 on Saturday 3 January 1970 (UTC). -/
def saturdayTask : ClientTask :=
  { _id := 30, title := "Deploy", deadline := some (2 * DAY_MS + 3600000), assignedTo := none }

/-- The same task due on Tuesday 6 January 1970 (UTC). -/
def tuesdayTask : ClientTask :=
  { _id := 30, title := "Deploy", deadline := some (5 * DAY_MS), assignedTo := none }

/-- A client task without a deadline. -/
def undatedTask : ClientTask :=
  { _id := 32, title := "Tidy", deadline := none, assignedTo := none }

/-- An email collaborator that reports that email notifications are disabled. -/
def noEmail : User → Notification → Except String EmailResult :=
  fun _ _ => .ok ⟨false, some "Email notifications are disabled"⟩

/-- A store with `weekdayWorker` (Monday to Friday) and one unassigned task (id 40) due at
01:00 on Saturday 3 January 1970. -/
def storeSaturdayAssignment : Store :=
  { users := [weekdayWorker]
    tasks := [{ _id := 40, title := "Deploy", assignedTo := none,
                deadline := some (2 * DAY_MS + 3600000), projectId := none, status := "todo",
                deadlineNotifications := [], deadlineExtensions := [] }]
    projects := []
    notifications := [] }

/-- A store with user 1 and one task (id 10) assigned to that user, in progress and due
one hour before the instant 0, with an empty ledger. -/
def storeDueAnHourAgo : Store :=
  { users := [userWithId 1]
    tasks := [{ _id := 10, title := "Report", assignedTo := some 1,
                deadline := some (-3600000), projectId := none, status := "in_progress",
                deadlineNotifications := [], deadlineExtensions := [] }]
    projects := []
    notifications := [] }

/-- A valid task (id 10) in progress, assigned to user 1, with the given deadline and an
empty ledger. -/
def reportTask (deadline : Int) : Task :=
  { _id := 10, title := "Report", assignedTo := some 1, deadline := some deadline,
    projectId := none, status := "in_progress", deadlineNotifications := [],
    deadlineExtensions := [] }

/-- A project (id 20) in progress with members 7 and 8, the given deadline and an empty
ledger. -/
def launchProject (deadline : Int) : Project :=
  { _id := 20, name := "Launch", members := [7, 8], status := "in progress",
    deadline := some deadline, deadlineNotifications := [], deadlineExtensions := [],
    milestones := [] }

/-- A store with users 7 and 8 and `launchProject` with the given deadline. -/
def storeLaunch (deadline : Int) : Store :=
  { users := [userWithId 7, userWithId 8], tasks := [], projects := [launchProject deadline],
    notifications := [] }

/-- A project (id 21) that is overdue at the instant 0, with member 7, whose ledger holds an
`overdue` entry without `sentTo`: the ledger test throws on it. -/
def malformedProject : Project :=
  { _id := 21, name := "Audit", members := [7], status := "in progress",
    deadline := some (-5), deadlineNotifications := [⟨"overdue", -3, none⟩],
    deadlineExtensions := [], milestones := [] }

/-- A store with users 1, 7 and 8; a task due in exactly seven days (its processing
throws) between two overdue tasks; and `malformedProject` before an overdue project. -/
def storeWithFailingItems : Store :=
  { users := [userWithId 1, userWithId 7, userWithId 8]
    tasks := [{ reportTask (-3600000) with _id := 11 }, reportTask (7 * DAY_MS),
              { reportTask (-7200000) with _id := 12 }]
    projects := [malformedProject, launchProject (-1)]
    notifications := [] }

/-- A store with users 7 and 8 and an overdue project (id 22) whose stored status is not
one of the schema (the project update route writes the body without validators). -/
def storeInvalidProject : Store :=
  { users := [userWithId 7, userWithId 8], tasks := []
    projects := [{ _id := 22, name := "Legacy", members := [7, 8], status := "in_progress",
                   deadline := some (-1), deadlineNotifications := [],
                   deadlineExtensions := [], milestones := [] }]
    notifications := [] }

/-- A store holding `taskWithPending` and `projectWithPending`. -/
def storeWithPending : Store :=
  { users := [userWithId 7, userWithId 8], tasks := [taskWithPending],
    projects := [projectWithPending], notifications := [] }

/-- An email collaborator whose send throws. -/
def brokenEmail : User → Notification → Except String EmailResult :=
  fun _ _ => .error "connect ECONNREFUSED"

/-- An email collaborator that reports success. -/
def workingEmail : User → Notification → Except String EmailResult :=
  fun _ _ => .ok ⟨true, none⟩

/-- A user (id 4) whose stored schedule has only a `tuesday` entry. -/
def tuesdayOnlyWorker : User :=
  { userWithId 4 with
    workSchedule := some
      { monday := none, tuesday := some ⟨"10:00", "12:00", true⟩, wednesday := none,
        thursday := none, friday := none, saturday := none, sunday := none }
    timezone := some "CET" }

/-- A store holding a user without a stored schedule (id 1), `tuesdayOnlyWorker` and
`weekdayWorker`. -/
def storeSchedules : Store :=
  { users := [userWithId 1, tuesdayOnlyWorker, weekdayWorker], tasks := [], projects := [],
    notifications := [] }

/-- The configuration when no environment variable is set. -/
def defaultCronConfig : CronConfig :=
  { deadlineNotifications := ⟨true, "0 9 * * *", "UTC"⟩
    overdueChecks := ⟨false, "0 */6 * * *", "UTC"⟩ }

/-- A time zone check that knows the zones `UTC` and `Europe/Paris`. -/
def knownTimeZone : String → Bool :=
  fun tz => tz == "UTC" || tz == "Europe/Paris"

/-- A scheduler that accepts every call. -/
def cronAcceptsAll : String → String → Bool :=
  fun _ _ => true

/-- A store with two active admins (ids 1 and 2) and one member (id 3). -/
def storeTwoAdmins : Store :=
  { users := [{ userWithId 1 with role := "admin" }, { userWithId 2 with role := "admin" },
              userWithId 3]
    tasks := [], projects := [], notifications := [] }

/-- A store with one active admin (id 1), one admin deleted earlier (id 2) and one member
(id 3). -/
def storeOneAdmin : Store :=
  { users := [{ userWithId 1 with role := "admin" },
              { userWithId 2 with role := "admin", isActive := false, deletedAt := some 5 },
              userWithId 3]
    tasks := [], projects := [], notifications := [] }

/-- A store with user 7 and three projects of which user 7 is a member: project 20
(`projectWithPending`, deadline 1000, milestone 3 due at 800), project 23 without a deadline
(milestone 4 due at 700) and project 24 with deadline 850 (milestones 5 due at 600 and 6 due
at 2000); and task 50 of project 20, assigned to user 8 and due at 700. -/
def storeCalendar : Store :=
  { users := [userWithId 7, userWithId 8]
    tasks := [{ _id := 50, title := "Wireframes", assignedTo := some 8, deadline := some 700,
                projectId := some 20, status := "todo", deadlineNotifications := [],
                deadlineExtensions := [] }]
    projects :=
      [projectWithPending,
       { _id := 23, name := "Research", members := [7], status := "in progress",
         deadline := none, deadlineNotifications := [], deadlineExtensions := [],
         milestones := [⟨4, "Survey", none, 700, false, none⟩] },
       { _id := 24, name := "Website", members := [8, 7], status := "in progress",
         deadline := some 850, deadlineNotifications := [], deadlineExtensions := [],
         milestones := [⟨5, "Draft", none, 600, false, none⟩,
                        ⟨6, "Release", none, 2000, false, none⟩] }]
    notifications := [] }

/-! ## Lemmas on the scan -/

theorem task_save_ok {t saved : Task} (h : Task.save t = .ok saved) : saved = t := by
  unfold Task.save at h
  split at h
  · cases h; rfl
  · cases h

theorem project_save_ok {p saved : Project} (h : Project.save p = .ok saved) : saved = p := by
  unfold Project.save at h
  split at h
  · cases h; rfl
  · cases h

theorem notificationSent_false {ledger : List LedgerEntry} {type : String} {userId : ObjectId}
    (h : notificationSent ledger type userId = .ok false) :
    (type, some userId) ∉ ledgerKeys ledger := by
  induction ledger with
  | nil => simp [ledgerKeys]
  | cons n rest ih =>
    simp only [notificationSent] at h
    have hcons : ledgerKeys (n :: rest) = (n.type, n.sentTo) :: ledgerKeys rest := rfl
    rw [hcons, List.mem_cons, not_or]
    split at h
    · next hty =>
      split at h
      · cases h
      · next recipient hto =>
        split at h
        · cases h
        · next hne =>
          refine ⟨?_, ih h⟩
          intro heq
          rw [hto] at heq
          injection heq with _ h2
          injection h2 with h3
          exact hne h3.symm
    · next hty =>
      refine ⟨?_, ih h⟩
      intro heq
      injection heq with h1 _
      exact hty h1.symm

theorem ledgerKeys_append_nodup {ledger : List LedgerEntry} {type : String} {at_ : Date}
    {userId : ObjectId} (hnd : (ledgerKeys ledger).Nodup)
    (h : notificationSent ledger type userId = .ok false) :
    (ledgerKeys (ledger ++ [⟨type, at_, some userId⟩])).Nodup := by
  unfold ledgerKeys at *
  rw [List.map_append, List.nodup_append]
  refine ⟨hnd, by simp, ?_⟩
  intro a ha hb
  simp only [List.map_cons, List.map_nil, List.mem_singleton] at hb
  subst hb
  exact notificationSent_false h ha

theorem overdueTaskBody_nodup (now : Date) (users : List User) (task : Task)
    (h : (ledgerKeys task.deadlineNotifications).Nodup) :
    (ledgerKeys (overdueTaskBody now users task).doc.deadlineNotifications).Nodup := by
  unfold overdueTaskBody
  split
  · exact h
  · split
    · exact h
    · exact h
    · next hsent =>
      split
      · exact h
      · split
        · exact h
        · next saved hsave =>
          rw [task_save_ok hsave]
          exact ledgerKeys_append_nodup h hsent

theorem upcomingTaskBody_nodup (now : Date) (users : List User) (task : Task)
    (h : (ledgerKeys task.deadlineNotifications).Nodup) :
    (ledgerKeys (upcomingTaskBody now users task).doc.deadlineNotifications).Nodup := by
  unfold upcomingTaskBody
  split
  · exact h
  · split
    · exact h
    · simp only
      split
      · exact h
      · split
        · exact h
        · exact h
        · next hsent =>
          split
          · exact h
          · split
            · exact h
            · next saved hsave =>
              rw [task_save_ok hsave]
              exact ledgerKeys_append_nodup h hsent

theorem overdueProjectLoop_nodup (now : Date) (projectId : ObjectId) (members : List User) :
    ∀ acc : MemberLoop, (ledgerKeys acc.ledger).Nodup →
      (ledgerKeys (overdueProjectLoop now projectId members acc).1.ledger).Nodup := by
  induction members with
  | nil => intro acc h; exact h
  | cons member rest ih =>
    intro acc h
    unfold overdueProjectLoop
    split
    · exact h
    · exact ih acc h
    · next hsent =>
      split
      · exact h
      · exact ih _ (ledgerKeys_append_nodup h hsent)

theorem overdueProjectBody_nodup (now : Date) (users : List User) (project : Project)
    (h : (ledgerKeys project.deadlineNotifications).Nodup) :
    (ledgerKeys (overdueProjectBody now users project).doc.deadlineNotifications).Nodup := by
  unfold overdueProjectBody
  split
  · exact h
  · next acc hloop =>
    split
    · exact h
    · next saved hsave =>
      rw [project_save_ok hsave]
      have := overdueProjectLoop_nodup now project._id (populateMany users project.members)
        ⟨project.deadlineNotifications, [], 0⟩ h
      rw [hloop] at this
      exact this

theorem forEachSelected_forall {α : Type} (P : α → Prop) (query : α → Bool)
    (body : α → ItemResult α) (mkError : α → String → ScanError)
    (hbody : ∀ d, P d → P (body d).doc) :
    ∀ docs : List α, (∀ d ∈ docs, P d) →
      ∀ d ∈ (forEachSelected query body mkError docs).docs, P d := by
  intro docs
  induction docs with
  | nil => intro _ d hd; simp [forEachSelected] at hd
  | cons x xs ih =>
    intro hall d hd
    have hx : P x := hall x (List.mem_cons_self _ _)
    have hxs : ∀ d ∈ xs, P d := fun d hd => hall d (List.mem_cons_of_mem _ hd)
    simp only [forEachSelected] at hd
    split at hd
    · rcases List.mem_cons.mp hd with h | h
      · rw [h]; exact hbody x hx
      · exact ih hxs d h
    · rcases List.mem_cons.mp hd with h | h
      · rw [h]; exact hx
      · exact ih hxs d h

theorem sendDeadlineNotifications_ledgerUnique (now : Date) (s : Store)
    (h : LedgerUnique s) : LedgerUnique (sendDeadlineNotifications now s).1 := by
  obtain ⟨ht, hp⟩ := h
  refine ⟨?_, ?_⟩
  · show ∀ t ∈ (forEachSelected _ _ _ (forEachSelected _ _ _ s.tasks).docs).docs, _
    refine forEachSelected_forall (fun t : Task => (ledgerKeys t.deadlineNotifications).Nodup)
      _ _ _ (fun d hd => upcomingTaskBody_nodup now s.users d hd) _ ?_
    exact forEachSelected_forall (fun t : Task => (ledgerKeys t.deadlineNotifications).Nodup)
      _ _ _ (fun d hd => overdueTaskBody_nodup now s.users d hd) _ ht
  · show ∀ p ∈ (forEachSelected _ _ _ s.projects).docs, _
    exact forEachSelected_forall
      (fun p : Project => (ledgerKeys p.deadlineNotifications).Nodup)
      _ _ _ (fun d hd => overdueProjectBody_nodup now s.users d hd) _ hp

/-! ## Lemmas on sub-document lookup and update -/

theorem find?_of_mem_nodup {α : Type} (key : α → ObjectId) :
    ∀ (xs : List α), (xs.map key).Nodup → ∀ x ∈ xs,
      xs.find? (fun y => key y == key x) = some x := by
  intro xs
  induction xs with
  | nil => intro _ x hx; cases hx
  | cons a rest ih =>
    intro hnd x hx
    rw [List.map_cons, List.nodup_cons] at hnd
    rcases List.mem_cons.mp hx with h | h
    · subst h
      simp [List.find?]
    · have hne : key a ≠ key x := by
        intro heq
        exact hnd.1 (heq ▸ List.mem_map_of_mem key h)
      have hb : (key a == key x) = false := by simpa using hne
      rw [List.find?_cons, hb]
      exact ih hnd.2 x h

theorem updateFirst_all {α : Type} (q p : α → Bool) (f : α → α)
    (hf : ∀ x, q x = true → q (f x) = true) :
    ∀ xs : List α, xs.all q = true → (updateFirst p f xs).all q = true := by
  intro xs
  induction xs with
  | nil => intro h; exact h
  | cons a rest ih =>
    intro h
    rw [List.all_cons, Bool.and_eq_true] at h
    unfold updateFirst
    split
    · rw [List.all_cons, Bool.and_eq_true]
      exact ⟨hf a h.1, h.2⟩
    · rw [List.all_cons, Bool.and_eq_true]
      exact ⟨h.1, ih h.2⟩

theorem updateFirst_const_of_find? {α : Type} (p : α → Bool) (x : α) :
    ∀ xs : List α, xs.find? p = some x → updateFirst p (fun _ => x) xs = xs := by
  intro xs
  induction xs with
  | nil => intro h; cases h
  | cons a rest ih =>
    intro h
    rw [List.find?_cons] at h
    unfold updateFirst
    cases hp : p a with
    | true =>
      rw [hp] at h
      injection h with h
      simp [h]
    | false =>
      rw [hp] at h
      simp [ih h]

theorem find?_updateFirst {α : Type} (p : α → Bool) (f : α → α) (hf : ∀ y, p (f y) = p y)
    (x : α) : ∀ xs : List α, xs.find? p = some x →
      (updateFirst p f xs).find? p = some (f x) := by
  intro xs
  induction xs with
  | nil => intro h; cases h
  | cons a rest ih =>
    intro h
    rw [List.find?_cons] at h
    unfold updateFirst
    cases hp : p a with
    | true =>
      rw [hp] at h
      injection h with h
      subst h
      simp [List.find?_cons, hf, hp]
    | false =>
      rw [hp] at h
      simp [List.find?_cons, hp, ih h]

theorem mem_updateFirst_of_find? {α : Type} (p : α → Bool) (f : α → α) (x : α) :
    ∀ xs : List α, xs.find? p = some x → f x ∈ updateFirst p f xs := by
  intro xs
  induction xs with
  | nil => intro h; cases h
  | cons a rest ih =>
    intro h
    rw [List.find?_cons] at h
    unfold updateFirst
    cases hp : p a with
    | true =>
      rw [hp] at h
      injection h with h
      subst h
      simp
    | false =>
      rw [hp] at h
      simp [ih h]

theorem findExtension_some {extensions : List ExtensionRequest} {extensionId : Option ObjectId}
    {e : ExtensionRequest} (h : findExtension extensions extensionId = some e) :
    extensionId = some e._id ∧
      extensions.find? (fun x => x._id == e._id) = some e ∧ e ∈ extensions := by
  unfold findExtension at h
  cases extensionId with
  | none => cases h
  | some id =>
    simp only at h
    have hp := List.find?_some h
    have hid : e._id = id := by simpa using hp
    subst hid
    exact ⟨rfl, h, List.mem_of_find?_eq_some h⟩

theorem findExtension_of_mem {extensions : List ExtensionRequest}
    (hnd : (extensions.map (fun e => e._id)).Nodup) {r : ExtensionRequest}
    (hr : r ∈ extensions) : findExtension extensions (some r._id) = some r :=
  find?_of_mem_nodup (fun e : ExtensionRequest => e._id) extensions hnd r hr

theorem task_validate_with_extensions (task : Task) (extensions : List ExtensionRequest)
    (deadline : Option Date) (h : task.validate = true)
    (hex : extensions.all ExtensionRequest.validate = true) :
    Task.validate { task with deadlineExtensions := extensions, deadline := deadline } = true := by
  unfold Task.validate at *
  simp only [Bool.and_eq_true] at *
  exact ⟨h.1, hex⟩

theorem project_validate_with_extensions (project : Project)
    (extensions : List ExtensionRequest) (deadline : Option Date)
    (h : project.validate = true)
    (hex : extensions.all ExtensionRequest.validate = true) :
    Project.validate
      { project with deadlineExtensions := extensions, deadline := deadline } = true := by
  unfold Project.validate at *
  simp only [Bool.and_eq_true] at *
  exact ⟨⟨h.1.1, hex⟩, h.2⟩

theorem task_validate_extensions {task : Task} (h : task.validate = true) :
    task.deadlineExtensions.all ExtensionRequest.validate = true := by
  unfold Task.validate at h
  simp only [Bool.and_eq_true] at h
  exact h.2

theorem project_validate_extensions {project : Project} (h : project.validate = true) :
    project.deadlineExtensions.all ExtensionRequest.validate = true := by
  unfold Project.validate at h
  simp only [Bool.and_eq_true] at h
  exact h.1.2

/-- The request a review leaves in place of `e`. -/
theorem task_reviewExtension_found (task : Task) (clock : Date)
    (extensionId : Option ObjectId) (status : String) (reviewer : ObjectId)
    (e : ExtensionRequest) (hfind : findExtension task.deadlineExtensions extensionId = some e)
    (hvalid : task.validate = true) (hstatus : EXTENSION_STATUS_ENUM.contains status = true) :
    task.reviewExtension clock extensionId status (some reviewer) =
      .ok { task with
        deadlineExtensions :=
          updateFirst (fun x => x._id == e._id)
            (fun x => { x with status := status, reviewedBy := some reviewer,
                               reviewedAt := some clock })
            task.deadlineExtensions
        deadline := if status = "approved" then some e.newDeadline else task.deadline } := by
  unfold Task.reviewExtension
  rw [hfind]
  simp only
  unfold Task.save
  rw [if_pos]
  apply task_validate_with_extensions task _ _ hvalid
  apply updateFirst_all ExtensionRequest.validate
  · intro x _; exact hstatus
  · exact task_validate_extensions hvalid

theorem project_reviewExtension_found (project : Project) (clock : Date)
    (extensionId : Option ObjectId) (status : String) (reviewer : ObjectId)
    (e : ExtensionRequest)
    (hfind : findExtension project.deadlineExtensions extensionId = some e)
    (hvalid : project.validate = true)
    (hstatus : EXTENSION_STATUS_ENUM.contains status = true) :
    project.reviewExtension clock extensionId status (some reviewer) =
      .ok { project with
        deadlineExtensions :=
          updateFirst (fun x => x._id == e._id)
            (fun x => { x with status := status, reviewedBy := some reviewer,
                               reviewedAt := some clock })
            project.deadlineExtensions
        deadline :=
          if status = "approved" then some e.newDeadline else project.deadline } := by
  unfold Project.reviewExtension
  rw [hfind]
  simp only
  unfold Project.save
  rw [if_pos]
  apply project_validate_with_extensions project _ _ hvalid
  apply updateFirst_all ExtensionRequest.validate
  · intro x _; exact hstatus
  · exact project_validate_extensions hvalid

theorem stored_task_save (old d : Task) :
    stored old (Task.save d) = d ∨ stored old (Task.save d) = old := by
  unfold Task.save
  split
  · exact Or.inl rfl
  · exact Or.inr rfl

theorem stored_project_save (old d : Project) :
    stored old (Project.save d) = d ∨ stored old (Project.save d) = old := by
  unfold Project.save
  split
  · exact Or.inl rfl
  · exact Or.inr rfl

theorem findMilestone_of_mem {milestones : List Milestone}
    (hnd : (milestones.map (fun m => m._id)).Nodup) {m : Milestone}
    (hm : m ∈ milestones) : findMilestone milestones (some m._id) = some m :=
  find?_of_mem_nodup (fun x : Milestone => x._id) milestones hnd m hm

theorem project_validate_with_milestones (project : Project) (milestones : List Milestone)
    (h : project.validate = true) (hms : milestones.all Milestone.validate = true) :
    Project.validate { project with milestones := milestones } = true := by
  unfold Project.validate at *
  simp only [Bool.and_eq_true] at *
  exact ⟨h.1, hms⟩

theorem project_validate_milestones {project : Project} (h : project.validate = true) :
    project.milestones.all Milestone.validate = true := by
  unfold Project.validate at h
  simp only [Bool.and_eq_true] at h
  exact h.2

/-! ## Lemmas on availability -/

theorem getDay_lt (tzOffset : Int) (t : Date) : getDay tzOffset t < 7 := by
  unfold getDay
  omega

theorem dayNames_get (tzOffset : Int) (t : Date) :
    DAY_NAMES.get? (getDay tzOffset t) = some (weekdayName tzOffset t) := by
  unfold weekdayName
  have h := getDay_lt tzOffset t
  generalize getDay tzOffset t = n at h
  have : n = 0 ∨ n = 1 ∨ n = 2 ∨ n = 3 ∨ n = 4 ∨ n = 5 ∨ n = 6 := by omega
  rcases this with h | h | h | h | h | h | h <;> subst h <;> rfl

theorem getDay_time_of_day (tzOffset day ms : Int) (h0 : 0 ≤ ms) (h1 : ms < DAY_MS) :
    getDay tzOffset (day * DAY_MS - tzOffset + ms) = ((day + 4) % 7).toNat := by
  unfold getDay
  unfold DAY_MS at *
  have : (day * (1000 * 60 * 60 * 24) - tzOffset + ms + tzOffset) / (1000 * 60 * 60 * 24)
      = day := by omega
  rw [this]

theorem mem_workDaysOf (w : WorkSchedule) (day : String) :
    day ∈ workDaysOf w ↔ w.available day = true := by
  unfold workDaysOf WorkSchedule.keys WorkSchedule.available
  rw [List.mem_filter, List.mem_filter]
  constructor
  · intro h
    exact h.2
  · intro h
    refine ⟨⟨?_, ?_⟩, h⟩
    · unfold WorkSchedule.get at h
      simp only [List.mem_cons, List.mem_singleton]
      split_ifs at h with h1 h2 h3 h4 h5 h6 h7
      · exact Or.inl h1
      · exact Or.inr (Or.inl h2)
      · exact Or.inr (Or.inr (Or.inl h3))
      · exact Or.inr (Or.inr (Or.inr (Or.inl h4)))
      · exact Or.inr (Or.inr (Or.inr (Or.inr (Or.inl h5))))
      · exact Or.inr (Or.inr (Or.inr (Or.inr (Or.inr (Or.inl h6)))))
      · exact Or.inr (Or.inr (Or.inr (Or.inr (Or.inr (Or.inr (Or.inl h7))))))
    · cases hg : w.get day with
      | none => rw [hg] at h; simp at h
      | some d => rfl

theorem contains_iff_mem (l : List String) (a : String) : l.contains a = true ↔ a ∈ l := by
  simp

theorem isWorkDay_ok (schedule : Schedule) (tzOffset : Int) (t : Date) :
    isWorkDay (.ok schedule) tzOffset (.instant t)
      = schedule.workDays.contains (weekdayName tzOffset t) := by
  unfold isWorkDay
  simp only [newDate, dayNames_get]

/-! ## The properties of the specification, C1 to C10 -/

/-- C1, evaluated at the failing input: a task due exactly seven days after the scan
instant, assigned to an existing user, with an empty ledger. The first scan creates one
notification, the save of the `7_days` entry is rejected by the task schema, so the
stored ledger stays empty; the second scan at the same instant creates a second, equal
notification. -/
theorem C1_second_scan_duplicates_seven_day_task :
    (sendDeadlineNotifications 0 storeSevenDays).1.tasks = storeSevenDays.tasks ∧
    (sendDeadlineNotifications 0 storeSevenDays).1.notifications.length = 1 ∧
    (sendDeadlineNotifications 0 storeSevenDays).2.errors = [⟨"Task", 10, "ValidationError"⟩] ∧
    (sendDeadlineNotifications 0 (sendDeadlineNotifications 0 storeSevenDays).1).1.notifications
      = [{ userId := 1, title := "Deadline Approaching", type := "deadline_approaching",
           relatedItem := ⟨"task", 10⟩, priority := "medium" },
         { userId := 1, title := "Deadline Approaching", type := "deadline_approaching",
           relatedItem := ⟨"task", 10⟩, priority := "medium" }] := by
  decide

/-- C2: ledger uniqueness is an invariant of the scan. From any store in which no task or
project ledger holds two entries with the same `(type, sentTo)`, after scans at any
instants, in any number, no ledger holds two such entries. -/
theorem C2_ledger_unique_invariant (s : Store) (h : LedgerUnique s) (instants : List Date) :
    LedgerUnique (runScans instants s) := by
  induction instants generalizing s with
  | nil => exact h
  | cons now rest ih => exact ih _ (sendDeadlineNotifications_ledgerUnique now s h)

/-- C2 at a concrete store: an overdue project whose member list names user 1 twice,
scanned at the instant 0 and again one hour later, ends with one entry per member. -/
theorem C2_ledger_unique_invariant_witness :
    LedgerUnique storeDuplicateMember ∧
      LedgerUnique (runScans [0, 3600000] storeDuplicateMember) ∧
      (runScans [0, 3600000] storeDuplicateMember).projects.map
          (fun p => ledgerKeys p.deadlineNotifications)
        = [[("overdue", some 1), ("overdue", some 2)]] :=
  have h : LedgerUnique storeDuplicateMember := by unfold LedgerUnique; decide
  ⟨h, C2_ledger_unique_invariant storeDuplicateMember h [0, 3600000], by decide⟩

/-- C3: for a stored (valid) task or project whose requests have distinct ids, and every
request `r` it contains, reviewing `r` as `approved` saves the item with its deadline equal
to `r.newDeadline`, and reviewing `r` as `rejected` saves it with the deadline unchanged. -/
theorem C3_review_approved_sets_deadline_rejected_keeps_it
    (task : Task) (project : Project) (clock : Date) (reviewer : ObjectId)
    (rt rp : ExtensionRequest)
    (htask : task.validate = true) (hproject : project.validate = true)
    (htids : (task.deadlineExtensions.map (fun e => e._id)).Nodup)
    (hpids : (project.deadlineExtensions.map (fun e => e._id)).Nodup)
    (hrt : rt ∈ task.deadlineExtensions) (hrp : rp ∈ project.deadlineExtensions) :
    (∃ saved, task.reviewExtension clock (some rt._id) "approved" (some reviewer) = .ok saved ∧
        saved.deadline = some rt.newDeadline) ∧
    (∃ saved, task.reviewExtension clock (some rt._id) "rejected" (some reviewer) = .ok saved ∧
        saved.deadline = task.deadline) ∧
    (∃ saved, project.reviewExtension clock (some rp._id) "approved" (some reviewer) = .ok saved ∧
        saved.deadline = some rp.newDeadline) ∧
    (∃ saved, project.reviewExtension clock (some rp._id) "rejected" (some reviewer) = .ok saved ∧
        saved.deadline = project.deadline) := by
  have ft := findExtension_of_mem htids hrt
  have fp := findExtension_of_mem hpids hrp
  refine ⟨⟨_, task_reviewExtension_found task clock _ "approved" reviewer rt ft htask
      (by decide), ?_⟩,
    ⟨_, task_reviewExtension_found task clock _ "rejected" reviewer rt ft htask
      (by decide), ?_⟩,
    ⟨_, project_reviewExtension_found project clock _ "approved" reviewer rp fp hproject
      (by decide), ?_⟩,
    ⟨_, project_reviewExtension_found project clock _ "rejected" reviewer rp fp hproject
      (by decide), ?_⟩⟩
  · simp
  · simp
  · simp
  · simp

/-- C3 at concrete documents: the pending request of `taskWithPending` and of
`projectWithPending` (deadline 1000, request for 5000), reviewed by user 8 at 900. -/
theorem C3_review_approved_sets_deadline_rejected_keeps_it_witness :
    (∃ saved, taskWithPending.reviewExtension 900 (some 1) "approved" (some 8) = .ok saved ∧
        saved.deadline = some 5000) ∧
    (∃ saved, taskWithPending.reviewExtension 900 (some 1) "rejected" (some 8) = .ok saved ∧
        saved.deadline = some 1000) ∧
    (∃ saved, projectWithPending.reviewExtension 900 (some 1) "approved" (some 8) = .ok saved ∧
        saved.deadline = some 5000) ∧
    (∃ saved, projectWithPending.reviewExtension 900 (some 1) "rejected" (some 8) = .ok saved ∧
        saved.deadline = some 1000) :=
  C3_review_approved_sets_deadline_rejected_keeps_it taskWithPending projectWithPending 900 8
    { _id := 1, requestedBy := 7, requestedAt := 100, newDeadline := 5000,
      reason := some "blocked", status := "pending", reviewedBy := none, reviewedAt := none }
    { _id := 1, requestedBy := 7, requestedAt := 100, newDeadline := 5000,
      reason := some "blocked", status := "pending", reviewedBy := none, reviewedAt := none }
    (by decide) (by decide) (by decide) (by decide) (by decide) (by decide)

/-- C4 refuted at a concrete input: on `taskWithRejected` (its only request has id 1 and
status `rejected`), a review naming the unknown id 99 does not fail: the model method
resolves with the task as it was and the handler answers 200 with a success message; and a
review naming the non-pending request 1 is not refused by the model method either, it is
applied. -/
theorem C4_unknown_or_non_pending_review_is_not_refused :
    taskWithRejected.reviewExtension 900 (some 99) "approved" (some 9) = .ok taskWithRejected ∧
    reviewExtensionHandler ⟨"task", 10, some 99, some 99, "approved", some 9⟩ 900
        storeWithRejected
      = (storeWithRejected, ⟨200, none, some "Extension approved successfully"⟩) ∧
    reviewExtensionHandler ⟨"project", 20, some 99, some 99, "approved", some 9⟩ 900
        storeWithRejected
      = (storeWithRejected, ⟨200, none, some "Extension approved successfully"⟩) ∧
    taskWithRejected.reviewExtension 900 (some 1) "approved" (some 9) =
      .ok { taskWithRejected with
        deadline := some 5000
        deadlineExtensions :=
          [{ _id := 1, requestedBy := 7, requestedAt := 100, newDeadline := 5000,
             reason := some "blocked", status := "approved", reviewedBy := some 9,
             reviewedAt := some 900 }] } := by
  decide

/-- C4 as amended: `reviewExtension` has no not-found outcome. For a stored (valid) task or
project, a decision of the status enum and a reviewer id, the model method resolves: with
the item unchanged when the id names none of its requests, and with the transition applied
to the named request whatever its current status. For a request that gives the same
extension id in the path and in the body, when that id names no request of the item, the
handler answers 200 with a success message and leaves the store as it was, for every status
string and reviewer. -/
theorem C4_review_has_no_not_found_outcome
    (task : Task) (project : Project) (clock : Date) (extensionId : Option ObjectId)
    (status : String) (reviewer : ObjectId)
    (htask : task.validate = true) (hproject : project.validate = true)
    (hstatus : EXTENSION_STATUS_ENUM.contains status = true) :
    task.reviewExtension clock extensionId status (some reviewer) =
      .ok (match findExtension task.deadlineExtensions extensionId with
        | none => task
        | some e =>
          { task with
            deadlineExtensions :=
              updateFirst (fun x => x._id == e._id)
                (fun x => { x with status := status, reviewedBy := some reviewer,
                                   reviewedAt := some clock })
                task.deadlineExtensions
            deadline := if status = "approved" then some e.newDeadline else task.deadline }) ∧
    project.reviewExtension clock extensionId status (some reviewer) =
      .ok (match findExtension project.deadlineExtensions extensionId with
        | none => project
        | some e =>
          { project with
            deadlineExtensions :=
              updateFirst (fun x => x._id == e._id)
                (fun x => { x with status := status, reviewedBy := some reviewer,
                                   reviewedAt := some clock })
                project.deadlineExtensions
            deadline :=
              if status = "approved" then some e.newDeadline else project.deadline }) ∧
    (∀ (s : Store) (req : ReviewRequest), req.itemType = "task" →
      s.tasks.find? (fun t => t._id == req.itemId) = some task →
      req.bodyExtensionId = req.paramExtensionId →
      findExtension task.deadlineExtensions req.paramExtensionId = none →
      reviewExtensionHandler req clock s =
        (s, ⟨200, none, some ("Extension " ++ req.status ++ " successfully")⟩)) ∧
    (∀ (s : Store) (req : ReviewRequest), req.itemType = "project" →
      s.projects.find? (fun p => p._id == req.itemId) = some project →
      req.bodyExtensionId = req.paramExtensionId →
      findExtension project.deadlineExtensions req.paramExtensionId = none →
      reviewExtensionHandler req clock s =
        (s, ⟨200, none, some ("Extension " ++ req.status ++ " successfully")⟩)) := by
  have hts : Task.save task = .ok task := by unfold Task.save; rw [if_pos htask]
  have hps : Project.save project = .ok project := by unfold Project.save; rw [if_pos hproject]
  refine ⟨?_, ?_, ?_, ?_⟩
  · cases hfind : findExtension task.deadlineExtensions extensionId with
    | none => unfold Task.reviewExtension; rw [hfind]; exact hts
    | some e => exact task_reviewExtension_found task clock _ status reviewer e hfind htask hstatus
  · cases hfind : findExtension project.deadlineExtensions extensionId with
    | none => unfold Project.reviewExtension; rw [hfind]; exact hps
    | some e =>
      exact project_reviewExtension_found project clock _ status reviewer e hfind hproject hstatus
  · intro s req htype hitem hsame hfind
    rw [← hsame] at hfind
    have hrev : task.reviewExtension clock req.bodyExtensionId req.status req.reviewerId
        = .ok task := by
      unfold Task.reviewExtension; rw [hfind]; exact hts
    unfold reviewExtensionHandler
    rw [if_pos htype, hitem]
    simp only [hrev, hfind, updateFirst_const_of_find? _ task s.tasks hitem]
  · intro s req htype hitem hsame hfind
    rw [← hsame] at hfind
    have hrev : project.reviewExtension clock req.bodyExtensionId req.status req.reviewerId
        = .ok project := by
      unfold Project.reviewExtension; rw [hfind]; exact hps
    have hnt : ¬ req.itemType = "task" := by rw [htype]; decide
    unfold reviewExtensionHandler
    rw [if_neg hnt, if_pos htype, hitem]
    simp only [hrev, hfind, updateFirst_const_of_find? _ project s.projects hitem]

/-- C4 as amended, at concrete documents: on `taskWithRejected` and `projectWithRejected`
in `storeWithRejected`, a review that names the unknown id 98 in the path and in the body
resolves with the item as it was and is answered with 200. -/
theorem C4_review_has_no_not_found_outcome_witness :
    taskWithRejected.reviewExtension 900 (some 98) "rejected" (some 9) = .ok taskWithRejected ∧
    projectWithRejected.reviewExtension 900 (some 98) "rejected" (some 9)
      = .ok projectWithRejected ∧
    reviewExtensionHandler ⟨"task", 10, some 98, some 98, "rejected", some 9⟩ 900
        storeWithRejected
      = (storeWithRejected, ⟨200, none, some "Extension rejected successfully"⟩) ∧
    reviewExtensionHandler ⟨"project", 20, some 98, some 98, "rejected", some 9⟩ 900
        storeWithRejected
      = (storeWithRejected, ⟨200, none, some "Extension rejected successfully"⟩) :=
  have h := C4_review_has_no_not_found_outcome taskWithRejected projectWithRejected 900
    (some 98) "rejected" 9 (by decide) (by decide) (by decide)
  ⟨h.1, h.2.1,
    h.2.2.1 storeWithRejected ⟨"task", 10, some 98, some 98, "rejected", some 9⟩ rfl
      (by decide) rfl (by decide),
    h.2.2.2 storeWithRejected ⟨"project", 20, some 98, some 98, "rejected", some 9⟩ rfl
      (by decide) rfl (by decide)⟩

/-- C5 refuted at a concrete input: the request of `taskWithRejected` was rejected by user 8
at the instant 200 and the task's deadline is 1000; a further review of the same request,
`approved` by user 9 at the instant 900, is saved and changes the request's status,
reviewedBy and reviewedAt and the task's deadline. -/
theorem C5_second_review_changes_request_and_deadline :
    ∃ saved, taskWithRejected.reviewExtension 900 (some 1) "approved" (some 9) = .ok saved ∧
      taskWithRejected.deadline = some 1000 ∧ saved.deadline = some 5000 ∧
      (findExtension taskWithRejected.deadlineExtensions (some 1)).map
          (fun e => (e.status, e.reviewedBy, e.reviewedAt))
        = some ("rejected", some 8, some 200) ∧
      (findExtension saved.deadlineExtensions (some 1)).map
          (fun e => (e.status, e.reviewedBy, e.reviewedAt))
        = some ("approved", some 9, some 900) :=
  ⟨{ taskWithRejected with
      deadline := some 5000
      deadlineExtensions :=
        [{ _id := 1, requestedBy := 7, requestedAt := 100, newDeadline := 5000,
           reason := some "blocked", status := "approved", reviewedBy := some 9,
           reviewedAt := some 900 }] }, by decide⟩

/-- C5 as amended: a request that is already `approved` or `rejected` is reviewed again like
a pending one. For a stored (valid) task or project whose requests have distinct ids, every
request `r` of it whatever its status, every decision of the status enum, every reviewer
and instant, the call is saved; afterwards the request with that id is `r` with the new
status, reviewer and instant, and the deadline is `r.newDeadline` when the decision is
`approved` and the old deadline otherwise. -/
theorem C5_reviewed_request_is_reviewed_again
    (task : Task) (project : Project) (clock : Date) (status : String) (reviewer : ObjectId)
    (rt rp : ExtensionRequest)
    (htask : task.validate = true) (hproject : project.validate = true)
    (htids : (task.deadlineExtensions.map (fun e => e._id)).Nodup)
    (hpids : (project.deadlineExtensions.map (fun e => e._id)).Nodup)
    (hrt : rt ∈ task.deadlineExtensions) (hrp : rp ∈ project.deadlineExtensions)
    (hstatus : EXTENSION_STATUS_ENUM.contains status = true) :
    (∃ saved, task.reviewExtension clock (some rt._id) status (some reviewer) = .ok saved ∧
      findExtension saved.deadlineExtensions (some rt._id) =
        some { rt with status := status, reviewedBy := some reviewer,
                       reviewedAt := some clock } ∧
      saved.deadline = if status = "approved" then some rt.newDeadline else task.deadline) ∧
    (∃ saved, project.reviewExtension clock (some rp._id) status (some reviewer) = .ok saved ∧
      findExtension saved.deadlineExtensions (some rp._id) =
        some { rp with status := status, reviewedBy := some reviewer,
                       reviewedAt := some clock } ∧
      saved.deadline =
        if status = "approved" then some rp.newDeadline else project.deadline) := by
  have ft := findExtension_of_mem htids hrt
  have fp := findExtension_of_mem hpids hrp
  refine ⟨⟨_, task_reviewExtension_found task clock _ status reviewer rt ft htask hstatus,
      ?_, rfl⟩,
    ⟨_, project_reviewExtension_found project clock _ status reviewer rp fp hproject hstatus,
      ?_, rfl⟩⟩
  · exact find?_updateFirst (fun x : ExtensionRequest => x._id == rt._id)
      (fun x => { x with status := status, reviewedBy := some reviewer,
                         reviewedAt := some clock })
      (fun _ => rfl) rt task.deadlineExtensions ft
  · exact find?_updateFirst (fun x : ExtensionRequest => x._id == rp._id)
      (fun x => { x with status := status, reviewedBy := some reviewer,
                         reviewedAt := some clock })
      (fun _ => rfl) rp project.deadlineExtensions fp

/-- C5 as amended, at concrete documents: the rejected request of `taskWithRejected` and of
`projectWithRejected`, approved afterwards by user 9 at the instant 900. -/
theorem C5_reviewed_request_is_reviewed_again_witness :
    (∃ saved, taskWithRejected.reviewExtension 900 (some 1) "approved" (some 9) = .ok saved ∧
      findExtension saved.deadlineExtensions (some 1) =
        some { _id := 1, requestedBy := 7, requestedAt := 100, newDeadline := 5000,
               reason := some "blocked", status := "approved", reviewedBy := some 9,
               reviewedAt := some 900 } ∧
      saved.deadline = some 5000) ∧
    (∃ saved, projectWithRejected.reviewExtension 900 (some 1) "approved" (some 9) = .ok saved ∧
      findExtension saved.deadlineExtensions (some 1) =
        some { _id := 1, requestedBy := 7, requestedAt := 100, newDeadline := 5000,
               reason := some "blocked", status := "approved", reviewedBy := some 9,
               reviewedAt := some 900 } ∧
      saved.deadline = some 5000) :=
  C5_reviewed_request_is_reviewed_again taskWithRejected projectWithRejected 900 "approved" 9
    { _id := 1, requestedBy := 7, requestedAt := 100, newDeadline := 5000,
      reason := some "blocked", status := "rejected", reviewedBy := some 8,
      reviewedAt := some 200 }
    { _id := 1, requestedBy := 7, requestedAt := 100, newDeadline := 5000,
      reason := some "blocked", status := "rejected", reviewedBy := some 8,
      reviewedAt := some 200 }
    (by decide) (by decide) (by decide) (by decide) (by decide) (by decide) (by decide)

/-- C6: after any call of `requestExtension` or `reviewExtension` on a task or project,
with any arguments, the stored deadline is the deadline before the call or the
`newDeadline` of one of the stored requests whose status is `approved`. -/
theorem C6_deadline_only_from_approved_request
    (task : Task) (project : Project) (newId : ObjectId) (clock : Date)
    (extensionId reviewerId userId : Option ObjectId) (status : String)
    (newDeadline : JsDateArg) (reason : Option String) :
    DeadlineKeptOrApproved task.deadline
      (stored task (task.reviewExtension clock extensionId status reviewerId)).deadline
      (stored task (task.reviewExtension clock extensionId status reviewerId)).deadlineExtensions ∧
    DeadlineKeptOrApproved task.deadline
      (stored task (task.requestExtension newId clock userId newDeadline reason)).deadline
      (stored task
        (task.requestExtension newId clock userId newDeadline reason)).deadlineExtensions ∧
    DeadlineKeptOrApproved project.deadline
      (stored project (project.reviewExtension clock extensionId status reviewerId)).deadline
      (stored project
        (project.reviewExtension clock extensionId status reviewerId)).deadlineExtensions ∧
    DeadlineKeptOrApproved project.deadline
      (stored project (project.requestExtension newId clock userId newDeadline reason)).deadline
      (stored project
        (project.requestExtension newId clock userId newDeadline reason)).deadlineExtensions := by
  have keep : ∀ (d : Option Date) (l : List ExtensionRequest),
      DeadlineKeptOrApproved d d l := fun _ _ => Or.inl rfl
  refine ⟨?_, ?_, ?_, ?_⟩
  · unfold Task.reviewExtension
    cases hfind : findExtension task.deadlineExtensions extensionId with
    | none =>
      simp only
      rcases stored_task_save task task with h | h <;> rw [h] <;> exact keep _ _
    | some e =>
      cases reviewerId with
      | none => exact keep _ _
      | some reviewer =>
        simp only
        rcases stored_task_save task
          { task with
            deadlineExtensions :=
              updateFirst (fun x => x._id == e._id)
                (fun x => { x with status := status, reviewedBy := some reviewer,
                                   reviewedAt := some clock })
                task.deadlineExtensions
            deadline := if status = "approved" then some e.newDeadline else task.deadline }
          with h | h
        · rw [h]
          by_cases hs : status = "approved"
          · refine Or.inr ⟨_, mem_updateFirst_of_find? _ _ e _ (findExtension_some hfind).2.1,
              hs, ?_⟩
            simp [hs]
          · refine Or.inl ?_
            simp [hs]
        · rw [h]; exact keep _ _
  · unfold Task.requestExtension
    split
    · rcases stored_task_save task
        { task with
          deadlineExtensions := task.deadlineExtensions ++
            [{ _id := newId, requestedBy := _, requestedAt := clock, newDeadline := _,
               reason := reason, status := "pending", reviewedBy := none,
               reviewedAt := none }] } with h | h
      · rw [h]; exact keep _ _
      · rw [h]; exact keep _ _
    · exact keep _ _
  · unfold Project.reviewExtension
    cases hfind : findExtension project.deadlineExtensions extensionId with
    | none =>
      simp only
      rcases stored_project_save project project with h | h <;> rw [h] <;> exact keep _ _
    | some e =>
      cases reviewerId with
      | none => exact keep _ _
      | some reviewer =>
        simp only
        rcases stored_project_save project
          { project with
            deadlineExtensions :=
              updateFirst (fun x => x._id == e._id)
                (fun x => { x with status := status, reviewedBy := some reviewer,
                                   reviewedAt := some clock })
                project.deadlineExtensions
            deadline :=
              if status = "approved" then some e.newDeadline else project.deadline }
          with h | h
        · rw [h]
          by_cases hs : status = "approved"
          · refine Or.inr ⟨_, mem_updateFirst_of_find? _ _ e _ (findExtension_some hfind).2.1,
              hs, ?_⟩
            simp [hs]
          · refine Or.inl ?_
            simp [hs]
        · rw [h]; exact keep _ _
  · unfold Project.requestExtension
    split
    · rcases stored_project_save project
        { project with
          deadlineExtensions := project.deadlineExtensions ++
            [{ _id := newId, requestedBy := _, requestedAt := clock, newDeadline := _,
               reason := reason, status := "pending", reviewedBy := none,
               reviewedAt := none }] } with h | h
      · rw [h]; exact keep _ _
      · rw [h]; exact keep _ _
    · exact keep _ _

/-- C7: `requestExtension` with a requester id and a value that denotes a date, on a stored
(valid) task or project, saves the item with exactly one request appended at the end of
`deadlineExtensions`: `requestedBy` the requester, the given new deadline and reason, status
`pending`, no `reviewedBy` and no `reviewedAt`. The deadline, the earlier requests and every
other field are as before. -/
theorem C7_requestExtension_appends_one_pending_request
    (task : Task) (project : Project) (newId : ObjectId) (clock : Date) (userId : ObjectId)
    (newDeadline : JsDateArg) (deadline : Date) (reason : Option String)
    (htask : task.validate = true) (hproject : project.validate = true)
    (hdate : newDate newDeadline = some deadline) :
    task.requestExtension newId clock (some userId) newDeadline reason =
      .ok { task with
        deadlineExtensions := task.deadlineExtensions ++
          [{ _id := newId, requestedBy := userId, requestedAt := clock,
             newDeadline := deadline, reason := reason, status := "pending",
             reviewedBy := none, reviewedAt := none }] } ∧
    project.requestExtension newId clock (some userId) newDeadline reason =
      .ok { project with
        deadlineExtensions := project.deadlineExtensions ++
          [{ _id := newId, requestedBy := userId, requestedAt := clock,
             newDeadline := deadline, reason := reason, status := "pending",
             reviewedBy := none, reviewedAt := none }] } := by
  constructor
  · unfold Task.requestExtension Task.save
    rw [hdate]
    simp only
    rw [if_pos]
    apply task_validate_with_extensions task _ task.deadline htask
    rw [List.all_append, Bool.and_eq_true]
    exact ⟨task_validate_extensions htask,
      by simp [ExtensionRequest.validate, EXTENSION_STATUS_ENUM]⟩
  · unfold Project.requestExtension Project.save
    rw [hdate]
    simp only
    rw [if_pos]
    apply project_validate_with_extensions project _ project.deadline hproject
    rw [List.all_append, Bool.and_eq_true]
    exact ⟨project_validate_extensions hproject,
      by simp [ExtensionRequest.validate, EXTENSION_STATUS_ENUM]⟩

/-- C7 at concrete documents: user 9 asks for the deadline 7000 on `taskWithRejected` and on
`projectWithRejected`; the new request (id 2) follows the existing one. -/
theorem C7_requestExtension_appends_one_pending_request_witness :
    taskWithRejected.requestExtension 2 950 (some 9) (.instant 7000) (some "scope") =
      .ok { taskWithRejected with
        deadlineExtensions :=
          [{ _id := 1, requestedBy := 7, requestedAt := 100, newDeadline := 5000,
             reason := some "blocked", status := "rejected", reviewedBy := some 8,
             reviewedAt := some 200 },
           { _id := 2, requestedBy := 9, requestedAt := 950, newDeadline := 7000,
             reason := some "scope", status := "pending", reviewedBy := none,
             reviewedAt := none }] } ∧
    projectWithRejected.requestExtension 2 950 (some 9) (.instant 7000) (some "scope") =
      .ok { projectWithRejected with
        deadlineExtensions :=
          [{ _id := 1, requestedBy := 7, requestedAt := 100, newDeadline := 5000,
             reason := some "blocked", status := "rejected", reviewedBy := some 8,
             reviewedAt := some 200 },
           { _id := 2, requestedBy := 9, requestedAt := 950, newDeadline := 7000,
             reason := some "scope", status := "pending", reviewedBy := none,
             reviewedAt := none }] } :=
  C7_requestExtension_appends_one_pending_request taskWithRejected projectWithRejected 2 950 9
    (.instant 7000) 7000 (some "scope") (by decide) (by decide) rfl

/-- C8 refuted at a concrete input: milestone 3 of `projectWithPending` was completed at the
instant 300; `completeMilestone` called again at the instant 900 is saved and leaves
`completedAt` at 900. -/
theorem C8_second_completion_overwrites_completedAt :
    findMilestone projectWithPending.milestones (some 3) =
      some { _id := 3, title := "Beta", description := none, dueDate := 800,
             completed := true, completedAt := some 300 } ∧
    projectWithPending.completeMilestone 900 (some 3) =
      .ok { projectWithPending with
        milestones :=
          [{ _id := 3, title := "Beta", description := none, dueDate := 800,
             completed := true, completedAt := some 900 }] } := by
  decide

/-- C8 as amended: the last completion is the one recorded. For a stored (valid) project
whose milestones have distinct ids and every milestone `m` of it that is already completed,
`completeMilestone` at the instant `clock` is saved; afterwards the milestone with that id
is `m` with `completed = true` and `completedAt = clock`, so `completedAt` is unchanged only
when the call happens at the recorded instant. -/
theorem C8_completeMilestone_records_last_completion
    (project : Project) (clock : Date) (m : Milestone)
    (hproject : project.validate = true)
    (hids : (project.milestones.map (fun x => x._id)).Nodup)
    (hm : m ∈ project.milestones) (hdone : m.completed = true) :
    ∃ saved, project.completeMilestone clock (some m._id) = .ok saved ∧
      findMilestone saved.milestones (some m._id) =
        some { m with completed := true, completedAt := some clock } ∧
      (some clock = m.completedAt ↔
        findMilestone saved.milestones (some m._id) = some m) := by
  have fm := findMilestone_of_mem hids hm
  have hfound : findMilestone
      (updateFirst (fun x => x._id == m._id)
        (fun x => { x with completed := true, completedAt := some clock })
        project.milestones) (some m._id)
      = some { m with completed := true, completedAt := some clock } :=
    find?_updateFirst (fun x : Milestone => x._id == m._id)
      (fun x => { x with completed := true, completedAt := some clock })
      (fun _ => rfl) m project.milestones fm
  refine ⟨{ project with
      milestones :=
        updateFirst (fun x => x._id == m._id)
          (fun x => { x with completed := true, completedAt := some clock })
          project.milestones }, ?_, hfound, ?_⟩
  · unfold Project.completeMilestone
    rw [fm]
    simp only
    unfold Project.save
    rw [if_pos]
    apply project_validate_with_milestones project _ hproject
    apply updateFirst_all Milestone.validate
    · intro x hx; exact hx
    · exact project_validate_milestones hproject
  · simp only [hfound]
    constructor
    · intro h
      rw [h, ← hdone]
    · intro h
      injection h with h
      have := congrArg Milestone.completedAt h
      exact this

/-- C8 as amended, at a concrete document: milestone 3 of `projectWithPending`, completed at
300, completed again at 900. -/
theorem C8_completeMilestone_records_last_completion_witness :
    ∃ saved, projectWithPending.completeMilestone 900 (some 3) = .ok saved ∧
      findMilestone saved.milestones (some 3) =
        some { _id := 3, title := "Beta", description := none, dueDate := 800,
               completed := true, completedAt := some 900 } ∧
      (some (900 : Date) = some 300 ↔
        findMilestone saved.milestones (some 3) =
          some { _id := 3, title := "Beta", description := none, dueDate := 800,
                 completed := true, completedAt := some 300 }) :=
  C8_completeMilestone_records_last_completion projectWithPending 900
    { _id := 3, title := "Beta", description := none, dueDate := 800, completed := true,
      completedAt := some 300 }
    (by decide) (by decide) (by decide) rfl

/-- C9: `addMilestone` on a project. When `dueDate` is absent, the model method fails with a
validation error for every title and description, nothing is stored, and the handler
answers with an error status and leaves the store as it was. When the title is a non-empty
string and `dueDate` denotes a date, on a stored (valid) project the method saves the
project with exactly one milestone appended at the end: the given title, description and
due date, `completed = false` and no `completedAt`; the earlier milestones and every other
field are as before. -/
theorem C9_addMilestone_validates_dueDate_and_appends
    (project : Project) (newId : ObjectId) (anyTitle description : Option String)
    (title : String) (dueDate : JsDateArg) (due : Date)
    (hproject : project.validate = true) (htitle : title ≠ "")
    (hdate : newDate dueDate = some due) :
    project.addMilestone newId anyTitle description .undefined = .error "ValidationError" ∧
    (stored project (project.addMilestone newId anyTitle description .undefined)).milestones
      = project.milestones ∧
    (∀ (s : Store) (projectId : ObjectId),
      (addMilestoneHandler projectId newId anyTitle description .undefined s).1 = s ∧
      (addMilestoneHandler projectId newId anyTitle description .undefined s).2.status ≠ 200) ∧
    project.addMilestone newId (some title) description dueDate =
      .ok { project with
        milestones := project.milestones ++
          [{ _id := newId, title := title, description := description, dueDate := due,
             completed := false, completedAt := none }] } := by
  have hfail : ∀ p : Project,
      p.addMilestone newId anyTitle description .undefined = .error "ValidationError" := by
    intro p
    unfold Project.addMilestone
    cases anyTitle <;> rfl
  refine ⟨hfail project, by rw [hfail project]; rfl, ?_, ?_⟩
  · intro s projectId
    unfold addMilestoneHandler
    cases s.projects.find? (fun p => p._id == projectId) with
    | none => simp
    | some p => simp [hfail p]
  · unfold Project.addMilestone Project.save
    rw [hdate]
    simp only
    rw [if_pos]
    apply project_validate_with_milestones project _ hproject
    rw [List.all_append, Bool.and_eq_true]
    refine ⟨project_validate_milestones hproject, ?_⟩
    simpa [Milestone.validate, requiredString] using htitle

/-- C9 at a concrete document: on `projectWithPending` (one milestone, id 3), a milestone
without `dueDate` is refused and the milestone `RC` due at 1500 is appended. -/
theorem C9_addMilestone_validates_dueDate_and_appends_witness :
    projectWithPending.addMilestone 4 (some "RC") (some "candidate") .undefined
      = .error "ValidationError" ∧
    (stored projectWithPending
      (projectWithPending.addMilestone 4 (some "RC") (some "candidate") .undefined)).milestones
      = projectWithPending.milestones ∧
    (addMilestoneHandler 20 4 (some "RC") (some "candidate") .undefined storeWeekdayWorker).1
      = storeWeekdayWorker ∧
    projectWithPending.addMilestone 4 (some "RC") (some "candidate") (.instant 1500) =
      .ok { projectWithPending with
        milestones :=
          [{ _id := 3, title := "Beta", description := none, dueDate := 800,
             completed := true, completedAt := some 300 },
           { _id := 4, title := "RC", description := some "candidate", dueDate := 1500,
             completed := false, completedAt := none }] } :=
  have h := C9_addMilestone_validates_dueDate_and_appends projectWithPending 4 (some "RC")
    (some "candidate") "RC" (.instant 1500) 1500 (by decide) (by decide) rfl
  ⟨h.1, h.2.1, (h.2.2.1 storeWeekdayWorker 20).1, h.2.2.2⟩

/-- C10: for every schedule `getUserSchedule` answers with and every valid date, `isWorkDay`
is true iff the name of the date's weekday is in the schedule's `workDays`, and false iff it
is not. For a user whose stored work schedule has a `monday` entry, the answer is the
`available` flag stored for that weekday. The answer is the same for any two dates with the
same `getDay()`, and for every time of day on the same local calendar day. -/
theorem C10_isWorkDay_is_weekday_availability
    (schedule : Schedule) (tzOffset : Int) (t : Date) (s : Store) (user : User)
    (w : WorkSchedule) (huser : s.users.find? (fun u => u._id == user._id) = some user)
    (hw : user.workSchedule = some w) (hmonday : w.monday.isSome = true) :
    (isWorkDay (.ok schedule) tzOffset (.instant t) = true ↔
      weekdayName tzOffset t ∈ schedule.workDays) ∧
    (isWorkDay (.ok schedule) tzOffset (.instant t) = false ↔
      weekdayName tzOffset t ∉ schedule.workDays) ∧
    isWorkDay (getUserSchedule user._id s).2 tzOffset (.instant t)
      = w.available (weekdayName tzOffset t) ∧
    (∀ t2 : Date, getDay tzOffset t2 = getDay tzOffset t →
      isWorkDay (.ok schedule) tzOffset (.instant t2)
        = isWorkDay (.ok schedule) tzOffset (.instant t)) ∧
    (∀ day ms1 ms2 : Int, 0 ≤ ms1 → ms1 < DAY_MS → 0 ≤ ms2 → ms2 < DAY_MS →
      isWorkDay (.ok schedule) tzOffset (.instant (day * DAY_MS - tzOffset + ms1))
        = isWorkDay (.ok schedule) tzOffset (.instant (day * DAY_MS - tzOffset + ms2))) := by
  have hsame : ∀ t1 t2 : Date, getDay tzOffset t1 = getDay tzOffset t2 →
      isWorkDay (.ok schedule) tzOffset (.instant t1)
        = isWorkDay (.ok schedule) tzOffset (.instant t2) := by
    intro t1 t2 h
    rw [isWorkDay_ok, isWorkDay_ok]
    unfold weekdayName
    rw [h]
  refine ⟨?_, ?_, ?_, fun t2 h => hsame t2 t h, ?_⟩
  · rw [isWorkDay_ok]
    exact (contains_iff_mem _ _)
  · rw [isWorkDay_ok, ← Bool.not_eq_true]
    exact not_congr (contains_iff_mem _ _)
  · have hnone : w.monday.isNone = false := by
      cases hm : w.monday with
      | none => rw [hm] at hmonday; cases hmonday
      | some d => rfl
    have hres : (getUserSchedule user._id s).2 =
        .ok { workDays := workDaysOf w
              startTime := match user.preferredWorkingHours with
                | some h => if h.start = "" then "09:00" else h.start
                | none => "09:00"
              endTime := match user.preferredWorkingHours with
                | some h => if h.«end» = "" then "17:00" else h.«end»
                | none => "17:00"
              timezone := match user.timezone with
                | some tz => if tz = "" then "UTC" else tz
                | none => "UTC" } := by
      unfold getUserSchedule
      simp [huser, hw, hnone]
    rw [hres, isWorkDay_ok]
    cases hc : w.available (weekdayName tzOffset t) with
    | true => exact (contains_iff_mem _ _).mpr ((mem_workDaysOf w _).mpr hc)
    | false =>
      rw [← Bool.not_eq_true]
      intro h
      have := (mem_workDaysOf w _).mp ((contains_iff_mem _ _).mp h)
      rw [hc] at this
      cases this
  · intro day ms1 ms2 h1 h2 h3 h4
    apply hsame
    rw [getDay_time_of_day tzOffset day ms1 h1 h2, getDay_time_of_day tzOffset day ms2 h3 h4]

/-- C10 at a concrete user: for `weekdayWorker` in UTC, 01:00 on Saturday 3 January 1970 is
not a work day, as the stored flag of Saturday says, and the first and the last millisecond
of Tuesday 6 January 1970 get the same answer. -/
theorem C10_isWorkDay_is_weekday_availability_witness :
    weekdayName 0 (2 * DAY_MS + 3600000) = "saturday" ∧
    isWorkDay (getUserSchedule 5 storeWeekdayWorker).2 0 (.instant (2 * DAY_MS + 3600000))
      = defaultWorkSchedule.available (weekdayName 0 (2 * DAY_MS + 3600000)) ∧
    defaultWorkSchedule.available "saturday" = false ∧
    isWorkDay (.ok mondayToFriday) 0 (.instant (5 * DAY_MS - 0 + 0))
      = isWorkDay (.ok mondayToFriday) 0 (.instant (5 * DAY_MS - 0 + 86399999)) ∧
    isWorkDay (.ok mondayToFriday) 0 (.instant (5 * DAY_MS - 0 + 0)) = true :=
  have h := C10_isWorkDay_is_weekday_availability mondayToFriday 0 (2 * DAY_MS + 3600000)
    storeWeekdayWorker weekdayWorker defaultWorkSchedule (by decide) rfl rfl
  ⟨by decide, h.2.2.1, by decide,
    h.2.2.2.2 5 0 86399999 (by decide) (by decide) (by decide) (by decide), by decide⟩

/-! ## Lemmas on the assignment checks of the client -/

theorem unavailableTasks_eq (res : Except Nat Schedule) (tzOffset : Int)
    (tasks : List ClientTask) (user : ObjectId) :
    ∀ selectedTasks : List ObjectId,
      (∀ id ∈ selectedTasks, (tasks.find? (fun t => t._id == id)).isSome = true) →
      unavailableTasks res tzOffset tasks user selectedTasks =
        some (((selectedOf tasks selectedTasks).filter (failsCheck res tzOffset user)).map
          (fun t => t.title)) := by
  intro selectedTasks
  induction selectedTasks with
  | nil => intro _; rfl
  | cons id rest ih =>
    intro h
    obtain ⟨t, ht⟩ := Option.isSome_iff_exists.mp (h id (List.mem_cons_self _ _))
    have hrest := ih (fun i hi => h i (List.mem_cons_of_mem _ hi))
    have hsel : selectedOf tasks (id :: rest) = t :: selectedOf tasks rest := by
      unfold selectedOf
      rw [List.filterMap_cons, ht]
    rw [hsel]
    unfold unavailableTasks
    rw [ht]
    simp only [hrest]
    cases hd : t.deadline with
    | none =>
      have hf : failsCheck res tzOffset user t = false := by
        unfold failsCheck; rw [hd]
      rw [List.filter_cons, hf]
      simp
    | some d =>
      simp only
      have hf : failsCheck res tzOffset user t
          = (!isWorkDay res tzOffset (.instant d) || isOnVacation user (.instant d)) := by
        unfold failsCheck canAssign
        rw [hd]
        simp [isOnVacation]
      rw [List.filter_cons, hf]
      split <;> simp_all

/-! ## The properties of the specification, C11 to C20 -/

/-- C11: `isOnVacation` answers `false` for every user and date, so the decision taken
before an assignment is that of `isWorkDay`: `canAssign` equals `isWorkDay`,
`handleSubmit` calls `onEdit` exactly when `isWorkDay` holds for the form's user and
deadline, and `handleBulkAssign` on one selected task with a deadline calls `onBulkAssign`
exactly when `isWorkDay` holds. The stored `vacationDays` of the user do not change the
answer of the schedule request; for `vacationWorker`, on vacation on Tuesday 6 January 1970,
a deadline on that day is accepted by both handlers. -/
theorem C11_isOnVacation_false_so_decision_is_isWorkDay
    (res : Except Nat Schedule) (tzOffset : Int) (userId taskId : ObjectId)
    (date : JsDateArg) (d : Date) (title : String) (assignResolves : Bool)
    (user : User) (vacation : List VacationPeriod) (others : List User) (tasks : List Task)
    (projects : List Project) (notifications : List Notification) :
    isOnVacation userId date = false ∧
    canAssign res tzOffset userId d = isWorkDay res tzOffset (.instant d) ∧
    (handleSubmit res tzOffset (some userId) (some d)).onEdit
      = isWorkDay res tzOffset (.instant d) ∧
    (handleBulkAssign res tzOffset [⟨taskId, title, some d, none⟩] [taskId] (some userId)
        assignResolves).onBulkAssign
      = (if isWorkDay res tzOffset (.instant d) then some ([taskId], userId) else none) ∧
    (getUserSchedule user._id
        ⟨{ user with vacationDays := vacation } :: others, tasks, projects, notifications⟩).2
      = (getUserSchedule user._id ⟨user :: others, tasks, projects, notifications⟩).2 ∧
    (handleSubmit (getUserSchedule 6 storeVacationWorker).2 0 (some 6) (some (5 * DAY_MS))).onEdit
      = true ∧
    (handleBulkAssign (getUserSchedule 6 storeVacationWorker).2 0 [tuesdayTask] [30] (some 6)
        true).onBulkAssign = some ([30], 6) := by
  refine ⟨rfl, ?_, ?_, ?_, ?_, by decide, by decide⟩
  · simp [canAssign, isOnVacation]
  · unfold handleSubmit
    simp only [isOnVacation, Bool.or_false]
    cases isWorkDay res tzOffset (.instant d) <;> rfl
  · unfold handleBulkAssign
    simp only [List.length_singleton, one_ne_zero, if_false]
    unfold unavailableTasks
    simp only [List.find?_cons, beq_self_eq_true, unavailableTasks, isOnVacation,
      Bool.or_false]
    cases isWorkDay res tzOffset (.instant d) <;> cases assignResolves <;> rfl
  · unfold getUserSchedule
    simp only [List.find?_cons, beq_self_eq_true]
    cases hws : user.workSchedule with
    | none => simp
    | some w => cases hm : w.monday <;> simp [hm, hws]

/-- C12: `handleBulkAssign` is all-or-nothing. For a selected user and a non-empty selection
whose ids name tasks of the list (the state in which the button that runs the handler is
enabled), `onBulkAssign` is called, with the whole selection, iff no selected task fails the
availability check; otherwise nothing else happens than `assignError` being set to the fixed
text followed by the titles of the selected tasks that fail the check, in selection order,
joined by commas. A task without a deadline never fails the check. -/
theorem C12_handleBulkAssign_all_or_nothing
    (res : Except Nat Schedule) (tzOffset : Int) (tasks : List ClientTask)
    (selectedTasks : List ObjectId) (user : ObjectId) (assignResolves : Bool)
    (hsel : selectedTasks ≠ [])
    (hfound : ∀ id ∈ selectedTasks, (tasks.find? (fun t => t._id == id)).isSome = true) :
    ((handleBulkAssign res tzOffset tasks selectedTasks (some user) assignResolves).onBulkAssign
        = some (selectedTasks, user) ↔
      (selectedOf tasks selectedTasks).filter (failsCheck res tzOffset user) = []) ∧
    ((selectedOf tasks selectedTasks).filter (failsCheck res tzOffset user) ≠ [] →
      handleBulkAssign res tzOffset tasks selectedTasks (some user) assignResolves =
        { assignError := CANNOT_ASSIGN ++ ", ".intercalate
            (((selectedOf tasks selectedTasks).filter (failsCheck res tzOffset user)).map
              (fun t => t.title)) }) ∧
    (∀ t : ClientTask, t.deadline = none → failsCheck res tzOffset user t = false) := by
  have hlen : ¬ selectedTasks.length = 0 := by
    intro h
    exact hsel (List.length_eq_zero.mp h)
  have hun := unavailableTasks_eq res tzOffset tasks user selectedTasks hfound
  refine ⟨?_, ?_, ?_⟩
  · unfold handleBulkAssign
    simp only [if_neg hlen, hun, List.length_map]
    cases hf : (selectedOf tasks selectedTasks).filter (failsCheck res tzOffset user) with
    | nil => cases assignResolves <;> simp
    | cons a l => simp
  · intro hne
    unfold handleBulkAssign
    simp only [if_neg hlen, hun, List.length_map]
    rw [if_pos (List.length_pos.mpr hne)]
  · intro t ht
    unfold failsCheck
    rw [ht]

/-- C12 at concrete tasks: for the Monday-to-Friday schedule, the task due on a Saturday
is refused and listed, the same task due on a Tuesday is assigned, and an undated task
selected together with the Saturday task does not appear in the list. -/
theorem C12_handleBulkAssign_all_or_nothing_witness :
    handleBulkAssign (.ok mondayToFriday) 0 [saturdayTask, undatedTask] [32, 30] (some 5) true
      = { assignError := CANNOT_ASSIGN ++ "Deploy" } ∧
    handleBulkAssign (.ok mondayToFriday) 0 [tuesdayTask, undatedTask] [32, 30] (some 5) true
      = { onBulkAssign := some ([32, 30], 5), onSuccess := true } ∧
    ((handleBulkAssign (.ok mondayToFriday) 0 [tuesdayTask, undatedTask] [32, 30] (some 5)
        true).onBulkAssign = some ([32, 30], 5) ↔
      (selectedOf [tuesdayTask, undatedTask] [32, 30]).filter
        (failsCheck (.ok mondayToFriday) 0 5) = []) :=
  ⟨by decide, by decide,
    (C12_handleBulkAssign_all_or_nothing (.ok mondayToFriday) 0 [tuesdayTask, undatedTask]
      [32, 30] 5 true (by decide) (by decide)).1⟩

/-! ## Lemmas on the assignment handlers of the server -/

theorem createNotificationWithEmail_frame
    (send : User → Notification → Except String EmailResult) (clock : Date)
    (n : Notification) (s : Store) (d : Dispatched)
    (h : createNotificationWithEmail send clock n s = .ok d) :
    d.store.tasks = s.tasks ∧ d.store.projects = s.projects ∧ d.store.users = s.users := by
  unfold createNotificationWithEmail at h
  split at h
  · cases h
  · split at h
    · cases h; exact ⟨rfl, rfl, rfl⟩
    · split at h
      · cases h; exact ⟨rfl, rfl, rfl⟩
      · split at h
        · cases h; exact ⟨rfl, rfl, rfl⟩
        · split at h <;> (cases h; exact ⟨rfl, rfl, rfl⟩)

theorem createNotificationWithEmail_ok_of_valid
    (send : User → Notification → Except String EmailResult) (clock : Date)
    (n : Notification) (s : Store) (hv : n.validate = true) :
    ∃ d, createNotificationWithEmail send clock n s = .ok d := by
  unfold createNotificationWithEmail Notification.create
  rw [if_pos hv]
  simp only
  split
  · exact ⟨_, rfl⟩
  · split
    · exact ⟨_, rfl⟩
    · split
      · exact ⟨_, rfl⟩
      · split <;> exact ⟨_, rfl⟩

theorem bulkNotify_tasks (send : User → Notification → Except String EmailResult)
    (clock : Date) (a : ObjectId) :
    ∀ (l : List (Option Task)) (s : Store),
      (bulkNotify send clock a l s).1.tasks = s.tasks := by
  intro l
  induction l with
  | nil => intro s; rfl
  | cons x rest ih =>
    intro s
    cases x with
    | none => exact ih s
    | some task =>
      unfold bulkNotify
      cases hc : createNotificationWithEmail send clock (assignmentNotification a task) s with
      | error e => exact ih s
      | ok d =>
        simp only
        rw [ih d.store]
        exact (createNotificationWithEmail_frame send clock _ s d hc).1

theorem bulkNotify_no_error (send : User → Notification → Except String EmailResult)
    (clock : Date) (a : ObjectId) :
    ∀ (l : List (Option Task)) (s : Store), (∀ x ∈ l, x.isSome = true) →
      (bulkNotify send clock a l s).2 = none := by
  intro l
  induction l with
  | nil => intro s _; rfl
  | cons x rest ih =>
    intro s h
    have hrest : ∀ y ∈ rest, y.isSome = true := fun y hy => h y (List.mem_cons_of_mem _ hy)
    cases x with
    | none => exact absurd (h none (List.mem_cons_self _ _)) (by simp)
    | some task =>
      obtain ⟨d, hd⟩ := createNotificationWithEmail_ok_of_valid send clock
        (assignmentNotification a task) s (by rfl)
      unfold bulkNotify
      rw [hd]
      exact ih d.store hrest

theorem updateProjectStatus_tasks (projectId : ObjectId) (s : Store) :
    (updateProjectStatus projectId s).tasks = s.tasks := by
  unfold updateProjectStatus
  simp only
  split <;> rfl

theorem foldl_updateProjectStatus_tasks :
    ∀ (projectIds : List ObjectId) (s : Store),
      (projectIds.foldl (fun acc projectId => updateProjectStatus projectId acc) s).tasks
        = s.tasks := by
  intro projectIds
  induction projectIds with
  | nil => intro s; rfl
  | cons x rest ih =>
    intro s
    rw [List.foldl_cons, ih, updateProjectStatus_tasks]

theorem find?_updateFirst_id (f : Task → Task) (hf : ∀ t, (f t)._id = t._id)
    (i j : ObjectId) :
    ∀ tasks : List Task,
      (updateFirst (fun t => t._id == j) f tasks).find? (fun t => t._id == i)
        = (tasks.find? (fun t => t._id == i)).map (fun t => if i = j then f t else t) := by
  intro tasks
  induction tasks with
  | nil => rfl
  | cons x rest ih =>
    unfold updateFirst
    by_cases hxj : x._id = j
    · have hb : (x._id == j) = true := by simpa using hxj
      simp only [hb, if_true]
      by_cases hxi : x._id = i
      · subst hxi
        subst hxj
        simp [List.find?_cons, hf]
      · have hbi : (x._id == i) = false := by simpa using hxi
        have hij : ¬ i = j := fun h => hxi (h ▸ hxj)
        simp [List.find?_cons, hf, hbi, hij]
    · have hb : (x._id == j) = false := by simpa using hxj
      simp only [hb]
      by_cases hxi : x._id = i
      · have hbi : (x._id == i) = true := by simpa using hxi
        have hij : ¬ i = j := fun h => hxj (h ▸ hxi)
        simp [List.find?_cons, hbi, hij]
      · have hbi : (x._id == i) = false := by simpa using hxi
        simp only [Bool.false_eq_true, if_false, List.find?_cons, hbi]
        exact ih

theorem bulkUpdate_find? (a : ObjectId) (i : ObjectId) :
    ∀ (taskIds : List ObjectId) (tasks : List Task),
      (bulkUpdate a taskIds tasks).1.find? (fun t => t._id == i)
        = (tasks.find? (fun t => t._id == i)).map
            (fun t => if i ∈ taskIds then { t with assignedTo := some a } else t) := by
  intro taskIds
  induction taskIds with
  | nil => intro tasks; simp [bulkUpdate]
  | cons j rest ih =>
    intro tasks
    unfold bulkUpdate
    simp only
    rw [ih, find?_updateFirst_id (fun t => { t with assignedTo := some a }) (fun _ => rfl)
      i j tasks, Option.map_map]
    congr 1
    funext t
    by_cases hij : i = j
    · subst hij
      by_cases hr : i ∈ rest <;> simp [hr]
    · by_cases hr : i ∈ rest <;> simp [hr, hij]

theorem bulkUpdate_returned (a : ObjectId) :
    ∀ (taskIds : List ObjectId) (tasks : List Task),
      (∀ i ∈ taskIds, (tasks.find? (fun t => t._id == i)).isSome = true) →
      ∀ x ∈ (bulkUpdate a taskIds tasks).2, x.isSome = true := by
  intro taskIds
  induction taskIds with
  | nil => intro tasks _ x hx; simp [bulkUpdate] at hx
  | cons j rest ih =>
    intro tasks h x hx
    unfold bulkUpdate at hx
    simp only [List.mem_cons] at hx
    rcases hx with hx | hx
    · rw [hx, Option.isSome_map']
      exact h j (List.mem_cons_self _ _)
    · refine ih _ ?_ x hx
      intro i hi
      rw [find?_updateFirst_id (fun t => { t with assignedTo := some a }) (fun _ => rfl)
        i j tasks, Option.isSome_map']
      exact h i (List.mem_cons_of_mem _ hi)

theorem bulkUpdate_length (a : ObjectId) :
    ∀ (taskIds : List ObjectId) (tasks : List Task),
      (bulkUpdate a taskIds tasks).2.length = taskIds.length := by
  intro taskIds
  induction taskIds with
  | nil => intro tasks; rfl
  | cons j rest ih =>
    intro tasks
    unfold bulkUpdate
    simp only [List.length_cons, ih]

/-- C13 refuted at a concrete input: user 5 works Monday to Friday, task 40 is due on a
Saturday, which the availability check of the client refuses; `bulkAssignTasks` and
`updateTask` both answer 200 and store the task with `assignedTo = 5`. -/
theorem C13_server_assigns_on_unavailable_weekday :
    isWorkDay (getUserSchedule 5 storeSaturdayAssignment).2 0
        (.instant (2 * DAY_MS + 3600000)) = false ∧
    (bulkAssignTasks noEmail 0 ⟨some [40], some 5⟩ storeSaturdayAssignment).2.status = 200 ∧
    (bulkAssignTasks noEmail 0 ⟨some [40], some 5⟩ storeSaturdayAssignment).1.tasks.map
        (fun t => t.assignedTo) = [some 5] ∧
    (updateTask noEmail 0 40 ⟨none, some 5, none, none⟩ storeSaturdayAssignment).2.status
      = 200 ∧
    (updateTask noEmail 0 40 ⟨none, some 5, none, none⟩ storeSaturdayAssignment).1.tasks.map
        (fun t => t.assignedTo) = [some 5] := by
  decide

/-- C13 as amended: the assignment operations of the server do not consult the
availability check. For every store, email collaborator and user id, whatever the work
schedules and deadlines: `bulkAssignTasks` with a non-empty id list stores `assignedTo` on
every task the list names and leaves the other tasks as they were, and answers 200 when
every id names a task; `updateTask` with a body that passes the update validators and
carries `assignedTo` stores the updated task with that `assignedTo` and answers 200. -/
theorem C13_server_assignment_ignores_availability
    (send : User → Notification → Except String EmailResult) (clock : Date) (s : Store)
    (a : ObjectId) :
    (∀ taskIds : List ObjectId, taskIds ≠ [] →
      (∀ i : ObjectId,
        (bulkAssignTasks send clock ⟨some taskIds, some a⟩ s).1.tasks.find?
            (fun t => t._id == i)
          = (s.tasks.find? (fun t => t._id == i)).map
              (fun t => if i ∈ taskIds then { t with assignedTo := some a } else t)) ∧
      ((∀ i ∈ taskIds, (s.tasks.find? (fun t => t._id == i)).isSome = true) →
        (bulkAssignTasks send clock ⟨some taskIds, some a⟩ s).2.status = 200)) ∧
    (∀ (id : ObjectId) (body : TaskUpdate) (old : Task),
      body.validate = true → body.assignedTo = some a →
      s.tasks.find? (fun t => t._id == id) = some old →
      (updateTask send clock id body s).1.tasks.find? (fun t => t._id == id)
        = some (body.apply old) ∧
      (body.apply old).assignedTo = some a ∧
      (updateTask send clock id body s).2.status = 200) := by
  constructor
  · intro taskIds hids
    have hlen : ¬ taskIds.length = 0 := fun h => hids (List.length_eq_zero.mp h)
    constructor
    · intro i
      unfold bulkAssignTasks
      simp only [if_neg hlen]
      have hn := bulkNotify_tasks send clock a (bulkUpdate a taskIds s.tasks).2
        { s with tasks := (bulkUpdate a taskIds s.tasks).1 }
      split
      · next s2 e heq =>
        have : s2.tasks = (bulkUpdate a taskIds s.tasks).1 := by
          rw [heq] at hn
          exact hn
        simp only [this]
        exact bulkUpdate_find? a i taskIds s.tasks
      · next s2 heq =>
        have : s2.tasks = (bulkUpdate a taskIds s.tasks).1 := by
          rw [heq] at hn
          exact hn
        simp only [foldl_updateProjectStatus_tasks, this]
        exact bulkUpdate_find? a i taskIds s.tasks
    · intro hall
      unfold bulkAssignTasks
      simp only [if_neg hlen]
      have hn := bulkNotify_no_error send clock a (bulkUpdate a taskIds s.tasks).2
        { s with tasks := (bulkUpdate a taskIds s.tasks).1 }
        (bulkUpdate_returned a taskIds s.tasks hall)
      split
      · next s2 e heq =>
        rw [heq] at hn
        cases hn
      · rfl
  · intro id body old hbody ha hold
    have happly : (body.apply old).assignedTo = some a := by
      unfold TaskUpdate.apply
      rw [ha]
    refine ⟨?_, happly, ?_⟩
    · unfold updateTask
      simp only [hbody, Bool.not_true, Bool.false_eq_true, if_false, hold, ha, happly,
        bne_self_eq_false]
      have hf : (updateFirst (fun t => t._id == id) body.apply s.tasks).find?
          (fun t => t._id == id) = some (body.apply old) :=
        find?_updateFirst (fun t : Task => t._id == id) body.apply (fun _ => rfl) old s.tasks
          hold
      cases hp : (body.apply old).projectId with
      | none => simpa using hf
      | some projectId =>
        simp only [updateProjectStatus_tasks]
        exact hf
    · unfold updateTask
      simp only [hbody, Bool.not_true, Bool.false_eq_true, if_false, hold, ha, happly,
        bne_self_eq_false]
      cases hp : (body.apply old).projectId <;> rfl

/-- C13 as amended, at the concrete store: task 40, due on a Saturday, assigned to the
Monday-to-Friday user 5 through both handlers. -/
theorem C13_server_assignment_ignores_availability_witness :
    (bulkAssignTasks noEmail 0 ⟨some [40], some 5⟩ storeSaturdayAssignment).1.tasks.find?
        (fun t => t._id == 40)
      = (storeSaturdayAssignment.tasks.find? (fun t => t._id == 40)).map
          (fun t => if 40 ∈ [40] then { t with assignedTo := some 5 } else t) ∧
    (bulkAssignTasks noEmail 0 ⟨some [40], some 5⟩ storeSaturdayAssignment).2.status = 200 ∧
    (updateTask noEmail 0 40 ⟨none, some 5, none, some "in_progress"⟩
        storeSaturdayAssignment).2.status = 200 :=
  have h := C13_server_assignment_ignores_availability noEmail 0 storeSaturdayAssignment 5
  have hb := h.1 [40] (by decide)
  have hu := h.2 40 ⟨none, some 5, none, some "in_progress"⟩
    { _id := 40, title := "Deploy", assignedTo := none,
      deadline := some (2 * DAY_MS + 3600000), projectId := none, status := "todo",
      deadlineNotifications := [], deadlineExtensions := [] }
    (by decide) rfl (by decide)
  ⟨hb.1 40, hb.2 (by decide), hu.2.2⟩

/-! ## Lemmas on the scan of one task -/

theorem notificationSent_of_noEntry {ledger : List LedgerEntry} {type : String}
    {userId : ObjectId} (h : noEntry ledger type userId = true) :
    notificationSent ledger type userId = .ok false := by
  induction ledger with
  | nil => rfl
  | cons n rest ih =>
    unfold noEntry at h
    rw [List.all_cons, Bool.and_eq_true] at h
    have hrest : noEntry rest type userId = true := h.2
    have hn := h.1
    unfold notificationSent
    by_cases hty : n.type = type
    · rw [if_pos hty]
      cases hto : n.sentTo with
      | none => rw [hto] at hn; simp [hty] at hn
      | some v =>
        rw [hto] at hn
        have hne : v ≠ userId := by simpa [hty] using hn
        simp only [if_neg hne]
        exact ih hrest
    · rw [if_neg hty]
      exact ih hrest

theorem noEntry_of_noEntryFor {ledger : List LedgerEntry} {userId : ObjectId}
    (h : noEntryFor ledger userId = true) (type : String) :
    noEntry ledger type userId = true := by
  unfold noEntryFor at h
  unfold noEntry
  rw [List.all_eq_true] at *
  intro n hn
  have := h n hn
  rw [Bool.or_eq_true]
  exact Or.inr this

theorem notificationSent_append_self {ledger : List LedgerEntry} {type : String}
    {userId : ObjectId} (sentAt : Date)
    (h : notificationSent ledger type userId = .ok false) :
    notificationSent (ledger ++ [⟨type, sentAt, some userId⟩]) type userId = .ok true := by
  induction ledger with
  | nil => simp [notificationSent]
  | cons n rest ih =>
    rw [List.cons_append]
    unfold notificationSent at h ⊢
    split at h
    · next hty =>
      rw [if_pos hty]
      split at h
      · cases h
      · next v hto =>
        split at h
        · cases h
        · next hne =>
          simp only [hto, if_neg hne]
          exact ih h
    · next hty =>
      rw [if_neg hty]
      exact ih h

theorem task_validate_withLedgerEntry (task : Task) (type : String) (sentAt : Date)
    (userId : ObjectId) (hv : task.validate = true)
    (hty : TASK_LEDGER_ENUM.contains type = true) :
    (withLedgerEntry task type sentAt userId).validate = true := by
  unfold Task.validate withLedgerEntry at *
  simp only [Bool.and_eq_true, List.all_append, List.all_cons, List.all_nil, Bool.and_true]
    at *
  exact ⟨⟨⟨hv.1.1.1, hv.1.1.2⟩, hv.1.2, hty⟩, hv.2⟩

theorem overdueTaskBody_fresh (now : Date) (users : List User) (task : Task) (assignee : User)
    (hpop : populate users task.assignedTo = some assignee)
    (hv : task.validate = true)
    (hfresh : notificationSent task.deadlineNotifications "overdue" assignee._id = .ok false) :
    overdueTaskBody now users task =
      ⟨withLedgerEntry task "overdue" now assignee._id,
        [overdueTaskNotification assignee._id task._id], 1, none⟩ := by
  have hsave := task_validate_withLedgerEntry task "overdue" now assignee._id hv (by decide)
  unfold withLedgerEntry at hsave
  unfold overdueTaskBody
  rw [hpop]
  simp only [hfresh]
  have hcreate : Notification.create
      { userId := assignee._id, title := "Task Overdue", type := "deadline_overdue",
        relatedItem := ⟨"task", task._id⟩, priority := "high" }
      = .ok (overdueTaskNotification assignee._id task._id) := rfl
  rw [hcreate]
  simp only [Task.save, hsave, if_true]
  rfl

theorem overdueTaskBody_sent (now : Date) (users : List User) (task : Task) (assignee : User)
    (hpop : populate users task.assignedTo = some assignee)
    (hsent : notificationSent task.deadlineNotifications "overdue" assignee._id = .ok true) :
    overdueTaskBody now users task = ⟨task, [], 0, none⟩ := by
  unfold overdueTaskBody
  rw [hpop]
  simp only [hsent]

theorem upcomingTaskBody_fresh (now : Date) (users : List User) (task : Task) (assignee : User)
    (d : Date) (type : String)
    (hpop : populate users task.assignedTo = some assignee) (hd : task.deadline = some d)
    (hv : task.validate = true)
    (htype : notificationTypeOf (ceilDiv (d - now) DAY_MS) = some type)
    (henum : TASK_LEDGER_ENUM.contains type = true)
    (hfresh : notificationSent task.deadlineNotifications type assignee._id = .ok false) :
    upcomingTaskBody now users task =
      ⟨withLedgerEntry task type now assignee._id,
        [approachingTaskNotification assignee._id task._id
          (if ceilDiv (d - now) DAY_MS = 1 then "high" else "medium")], 1, none⟩ := by
  have hsave := task_validate_withLedgerEntry task type now assignee._id hv henum
  unfold withLedgerEntry at hsave
  unfold upcomingTaskBody
  rw [hpop]
  simp only [hd, htype, hfresh]
  have hcreate : Notification.create
      { userId := assignee._id, title := "Deadline Approaching",
        type := "deadline_approaching", relatedItem := ⟨"task", task._id⟩,
        priority := if ceilDiv (d - now) DAY_MS = 1 then "high" else "medium" }
      = .ok (approachingTaskNotification assignee._id task._id
          (if ceilDiv (d - now) DAY_MS = 1 then "high" else "medium")) := by
    unfold Notification.create Notification.validate approachingTaskNotification
    split <;> rfl
  rw [hcreate]
  have hsave2 := hsave
  rw [hd] at hsave2
  simp only [Task.save, hsave2, if_true, withLedgerEntry]
  rw [hd]

theorem upcomingTaskBody_no_type (now : Date) (users : List User) (task : Task) (d : Date)
    (hd : task.deadline = some d)
    (htype : notificationTypeOf (ceilDiv (d - now) DAY_MS) = none) :
    upcomingTaskBody now users task = ⟨task, [], 0, none⟩ := by
  unfold upcomingTaskBody
  split
  · rfl
  · simp only [hd, htype]

theorem overdueTaskQuery_eq (now : Date) (task : Task) (d : Date)
    (hd : task.deadline = some d) (hst : task.status ≠ "done") :
    overdueTaskQuery now task = decide (d < now) := by
  unfold overdueTaskQuery
  rw [hd]
  simp [hst]

theorem upcomingTaskQuery_eq (now sevenDays : Date) (task : Task) (d : Date)
    (hd : task.deadline = some d) (hst : task.status ≠ "done") :
    upcomingTaskQuery now sevenDays task = (decide (now ≤ d) && decide (d ≤ sevenDays)) := by
  unfold upcomingTaskQuery
  rw [hd]
  simp [hst]

theorem upcomingTaskBody_seven (now : Date) (users : List User) (task : Task) (assignee : User)
    (d : Date)
    (hpop : populate users task.assignedTo = some assignee) (hd : task.deadline = some d)
    (hdays : ceilDiv (d - now) DAY_MS = 7)
    (hfresh : notificationSent task.deadlineNotifications "7_days" assignee._id = .ok false) :
    upcomingTaskBody now users task =
      ⟨task, [approachingTaskNotification assignee._id task._id "medium"], 0,
        some "ValidationError"⟩ := by
  unfold upcomingTaskBody
  rw [hpop]
  simp only [hd, hdays, notificationTypeOf]
  have hcreate : Notification.create
      { userId := assignee._id, title := "Deadline Approaching",
        type := "deadline_approaching", relatedItem := ⟨"task", task._id⟩,
        priority := if (7 : Int) = 1 then "high" else "medium" }
      = .ok (approachingTaskNotification assignee._id task._id "medium") := rfl
  have hbad : Task.validate
      { task with
        deadlineNotifications :=
          task.deadlineNotifications ++ [⟨"7_days", now, some assignee._id⟩] } = false := by
    unfold Task.validate
    simp [List.all_append, TASK_LEDGER_ENUM]
  rw [hd] at hbad
  simp only [if_neg (by decide : ¬ (7 : Int) = 1), if_neg (by decide : ¬ (7 : Int) = 3)] at *
  rw [hcreate]
  simp [Task.save, hbad, hfresh]

theorem scan_single_overdue (now : Int) (users : List User) (task : Task)
    (old : List Notification) (d : Int) (r : ItemResult Task)
    (hd : task.deadline = some d) (hst : task.status ≠ "done") (hlt : d < now)
    (hbody : overdueTaskBody now users task = r)
    (hrd : r.doc.deadline = some d) :
    (sendDeadlineNotifications now ⟨users, [task], [], old⟩).1
      = ⟨users, [r.doc], [], old ++ r.created⟩ ∧
    (sendDeadlineNotifications now ⟨users, [task], [], old⟩).2.notificationsSent = r.sent := by
  have hq1 : overdueTaskQuery now task = true := by
    rw [overdueTaskQuery_eq now task d hd hst]; simpa using hlt
  have hq2 : ∀ sd, upcomingTaskQuery now sd r.doc = false := by
    intro sd
    unfold upcomingTaskQuery
    rw [hrd]
    have : ¬ now ≤ d := by omega
    simp [this]
  unfold sendDeadlineNotifications
  simp [forEachSelected, hq1, hbody, hq2]

theorem scan_single_upcoming (now : Int) (users : List User) (task : Task)
    (old : List Notification) (d : Int) (r : ItemResult Task)
    (hd : task.deadline = some d) (hst : task.status ≠ "done") (hle : now ≤ d)
    (hseven : d ≤ now + 7 * DAY_MS)
    (hbody : upcomingTaskBody now users task = r) :
    (sendDeadlineNotifications now ⟨users, [task], [], old⟩).1
      = ⟨users, [r.doc], [], old ++ r.created⟩ ∧
    (sendDeadlineNotifications now ⟨users, [task], [], old⟩).2.notificationsSent = r.sent := by
  have hq1 : overdueTaskQuery now task = false := by
    rw [overdueTaskQuery_eq now task d hd hst]
    have : ¬ d < now := by omega
    simpa using this
  have hq2 : upcomingTaskQuery now (now + 604800000) task = true := by
    rw [upcomingTaskQuery_eq now _ task d hd hst]
    have : d ≤ now + 604800000 := by unfold DAY_MS at hseven; omega
    simp [hle, this]
  unfold sendDeadlineNotifications
  simp [forEachSelected, hq1, hbody, hq2]

theorem scan_single_unselected (now : Int) (users : List User) (task : Task)
    (old : List Notification) (d : Int)
    (hd : task.deadline = some d) (hst : task.status ≠ "done") (hle : now ≤ d)
    (hseven : now + 7 * DAY_MS < d) :
    sendDeadlineNotifications now ⟨users, [task], [], old⟩
      = (⟨users, [task], [], old⟩, ⟨true, 0, []⟩) := by
  have hq1 : overdueTaskQuery now task = false := by
    rw [overdueTaskQuery_eq now task d hd hst]
    have : ¬ d < now := by omega
    simpa using this
  have hq2 : upcomingTaskQuery now (now + 604800000) task = false := by
    rw [upcomingTaskQuery_eq now _ task d hd hst]
    have : ¬ d ≤ now + 604800000 := by unfold DAY_MS at hseven; omega
    simp [this]
  unfold sendDeadlineNotifications
  simp [forEachSelected, hq1, hq2]

/-- C14 refuted at a concrete input: a task in progress, assigned to user 1 and due one hour
before the scan instant, has `daysUntil = 0`, and the scan creates the overdue notification
and the `overdue` ledger entry for it. -/
theorem C14_due_an_hour_ago_is_overdue_with_zero_days :
    ceilDiv (-3600000 - 0) DAY_MS = 0 ∧
    (sendDeadlineNotifications 0 storeDueAnHourAgo).1.notifications
      = [overdueTaskNotification 1 10] ∧
    (sendDeadlineNotifications 0 storeDueAnHourAgo).1.tasks.map
        (fun t => ledgerKeys t.deadlineNotifications)
      = [[("overdue", some 1)]] := by
  decide

/-- C14 as amended: the overdue bucket is chosen by `deadline < now`, not by `daysUntil`.
For a stored (valid) task with a non-done status, a deadline `d`, an assignee that exists
and has no ledger entry yet, scanned alone at `now` with `daysUntil = ceil((d - now) / 1 day)`:
if `d < now` the scan creates the overdue notification and appends the `overdue` entry,
and this includes `daysUntil = 0` when `d` is less than a day before `now`; if
`daysUntil = 1` it creates the high-priority approaching notification and appends `1_day`;
if `daysUntil = 3` the medium-priority one and `3_days`; if `daysUntil = 7` it creates the
medium-priority approaching notification; in every other case, that is `d = now` or
`daysUntil` another value, it creates no notification and no ledger entry. -/
theorem C14_task_bucket_by_deadline
    (now d : Int) (users : List User) (task : Task) (assignee : User)
    (old : List Notification)
    (hpop : populate users task.assignedTo = some assignee)
    (hd : task.deadline = some d) (hst : task.status ≠ "done")
    (hv : task.validate = true)
    (hfresh : noEntryFor task.deadlineNotifications assignee._id = true) :
    (d < now →
      (sendDeadlineNotifications now ⟨users, [task], [], old⟩).1
        = ⟨users, [withLedgerEntry task "overdue" now assignee._id], [],
            old ++ [overdueTaskNotification assignee._id task._id]⟩) ∧
    (ceilDiv (d - now) DAY_MS = 1 →
      (sendDeadlineNotifications now ⟨users, [task], [], old⟩).1
        = ⟨users, [withLedgerEntry task "1_day" now assignee._id], [],
            old ++ [approachingTaskNotification assignee._id task._id "high"]⟩) ∧
    (ceilDiv (d - now) DAY_MS = 3 →
      (sendDeadlineNotifications now ⟨users, [task], [], old⟩).1
        = ⟨users, [withLedgerEntry task "3_days" now assignee._id], [],
            old ++ [approachingTaskNotification assignee._id task._id "medium"]⟩) ∧
    (ceilDiv (d - now) DAY_MS = 7 →
      (sendDeadlineNotifications now ⟨users, [task], [], old⟩).1.notifications
        = old ++ [approachingTaskNotification assignee._id task._id "medium"]) ∧
    (now ≤ d → ceilDiv (d - now) DAY_MS ≠ 1 → ceilDiv (d - now) DAY_MS ≠ 3 →
      ceilDiv (d - now) DAY_MS ≠ 7 →
      (sendDeadlineNotifications now ⟨users, [task], [], old⟩).1
        = ⟨users, [task], [], old⟩) ∧
    (d < now → now - DAY_MS < d → ceilDiv (d - now) DAY_MS = 0) ∧
    (now ≤ d → (ceilDiv (d - now) DAY_MS = 0 ↔ d = now)) := by
  have hsent : ∀ type, notificationSent task.deadlineNotifications type assignee._id
      = .ok false := fun type => notificationSent_of_noEntry (noEntry_of_noEntryFor hfresh type)
  refine ⟨?_, ?_, ?_, ?_, ?_, ?_, ?_⟩
  · intro hlt
    have hb := overdueTaskBody_fresh now users task assignee hpop hv (hsent _)
    have := (scan_single_overdue now users task old d _ hd hst hlt hb
      (by unfold withLedgerEntry; exact hd)).1
    exact this
  · intro hdays
    have hrange : now ≤ d ∧ d ≤ now + 7 * DAY_MS := by
      unfold ceilDiv DAY_MS at *; omega
    have hb := upcomingTaskBody_fresh now users task assignee d "1_day" hpop hd hv
      (by rw [hdays]; rfl) (by decide) (hsent _)
    rw [hdays] at hb
    exact (scan_single_upcoming now users task old d _ hd hst hrange.1 hrange.2 hb).1
  · intro hdays
    have hrange : now ≤ d ∧ d ≤ now + 7 * DAY_MS := by
      unfold ceilDiv DAY_MS at *; omega
    have hb := upcomingTaskBody_fresh now users task assignee d "3_days" hpop hd hv
      (by rw [hdays]; rfl) (by decide) (hsent _)
    rw [hdays] at hb
    exact (scan_single_upcoming now users task old d _ hd hst hrange.1 hrange.2 hb).1
  · intro hdays
    have hrange : now ≤ d ∧ d ≤ now + 7 * DAY_MS := by
      unfold ceilDiv DAY_MS at *; omega
    have hb := upcomingTaskBody_seven now users task assignee d hpop hd hdays (hsent _)
    have := (scan_single_upcoming now users task old d _ hd hst hrange.1 hrange.2 hb).1
    rw [this]
  · intro hle h1 h3 h7
    by_cases hseven : d ≤ now + 7 * DAY_MS
    · have htype : notificationTypeOf (ceilDiv (d - now) DAY_MS) = none := by
        unfold notificationTypeOf
        rw [if_neg h1, if_neg h3, if_neg h7]
      have hb := upcomingTaskBody_no_type now users task d hd htype
      have := (scan_single_upcoming now users task old d _ hd hst hle hseven hb).1
      simpa using this
    · have := scan_single_unselected now users task old d hd hst hle (by omega)
      rw [this]
  · intro h1 h2
    unfold ceilDiv DAY_MS at *
    omega
  · intro hle
    unfold ceilDiv DAY_MS at *
    omega

/-- C14 as amended, at concrete tasks scanned at the instant 0: due one hour earlier
(overdue although `daysUntil = 0`), due in exactly one day, and due at the scan instant
(no action). -/
theorem C14_task_bucket_by_deadline_witness :
    (sendDeadlineNotifications 0 ⟨[userWithId 1], [reportTask (-3600000)], [], []⟩).1
      = ⟨[userWithId 1], [withLedgerEntry (reportTask (-3600000)) "overdue" 0 1], [],
          [overdueTaskNotification 1 10]⟩ ∧
    (sendDeadlineNotifications 0 ⟨[userWithId 1], [reportTask 86400000], [], []⟩).1
      = ⟨[userWithId 1], [withLedgerEntry (reportTask 86400000) "1_day" 0 1], [],
          [approachingTaskNotification 1 10 "high"]⟩ ∧
    (sendDeadlineNotifications 0 ⟨[userWithId 1], [reportTask 0], [], []⟩).1
      = ⟨[userWithId 1], [reportTask 0], [], []⟩ :=
  ⟨(C14_task_bucket_by_deadline 0 (-3600000) [userWithId 1] (reportTask (-3600000))
      (userWithId 1) [] rfl rfl (by decide) (by decide) (by decide)).1 (by decide),
    (C14_task_bucket_by_deadline 0 86400000 [userWithId 1] (reportTask 86400000)
      (userWithId 1) [] rfl rfl (by decide) (by decide) (by decide)).2.1 (by decide),
    (C14_task_bucket_by_deadline 0 0 [userWithId 1] (reportTask 0)
      (userWithId 1) [] rfl rfl (by decide) (by decide) (by decide)).2.2.2.2.1
      (by decide) (by decide) (by decide) (by decide)⟩

/-- C15, evaluated at the failing input: a project in progress with members 7 and 8 and
an empty ledger, due in exactly 1, 3 or 7 days. The scan at the instant 0 leaves the store
as it is and reports no notification; the same project due one millisecond ago gets one
notification and one `overdue` entry per member. -/
theorem C15_project_due_in_1_3_7_days_is_not_notified :
    ceilDiv (1 * DAY_MS - 0) DAY_MS = 1 ∧
    sendDeadlineNotifications 0 (storeLaunch (1 * DAY_MS))
      = (storeLaunch (1 * DAY_MS), ⟨true, 0, []⟩) ∧
    ceilDiv (3 * DAY_MS - 0) DAY_MS = 3 ∧
    sendDeadlineNotifications 0 (storeLaunch (3 * DAY_MS))
      = (storeLaunch (3 * DAY_MS), ⟨true, 0, []⟩) ∧
    ceilDiv (7 * DAY_MS - 0) DAY_MS = 7 ∧
    sendDeadlineNotifications 0 (storeLaunch (7 * DAY_MS))
      = (storeLaunch (7 * DAY_MS), ⟨true, 0, []⟩) ∧
    (sendDeadlineNotifications 0 (storeLaunch (-1))).1.notifications.map (fun n => n.userId)
      = [7, 8] ∧
    (sendDeadlineNotifications 0 (storeLaunch (-1))).1.projects.map
        (fun p => ledgerKeys p.deadlineNotifications)
      = [[("overdue", some 7), ("overdue", some 8)]] := by
  decide

/-! ## Lemmas on repeated scans of one task -/

theorem scan_single_already_notified (now t d : Int) (users : List User) (task : Task)
    (assignee : User) (notifications : List Notification)
    (hpop : populate users task.assignedTo = some assignee)
    (hd : task.deadline = some d) (hlt : d < now) (hle : now ≤ t)
    (hst : task.status ≠ "done")
    (hsent : notificationSent task.deadlineNotifications "overdue" assignee._id = .ok true) :
    (sendDeadlineNotifications t ⟨users, [task], [], notifications⟩).1
      = ⟨users, [task], [], notifications⟩ := by
  have hb := overdueTaskBody_sent t users task assignee hpop hsent
  have := (scan_single_overdue t users task notifications d _ hd hst (by omega) hb hd).1
  simpa using this

theorem runScans_already_notified (now d : Int) (users : List User) (task : Task)
    (assignee : User) (notifications : List Notification)
    (hpop : populate users task.assignedTo = some assignee)
    (hd : task.deadline = some d) (hlt : d < now) (hst : task.status ≠ "done")
    (hsent : notificationSent task.deadlineNotifications "overdue" assignee._id = .ok true) :
    ∀ laters : List Int, (∀ t ∈ laters, now ≤ t) →
      runScans laters ⟨users, [task], [], notifications⟩
        = ⟨users, [task], [], notifications⟩ := by
  intro laters
  induction laters with
  | nil => intro _; rfl
  | cons t rest ih =>
    intro h
    unfold runScans
    rw [scan_single_already_notified now t d users task assignee notifications hpop hd hlt
      (h t (List.mem_cons_self _ _)) hst hsent]
    exact ih (fun x hx => h x (List.mem_cons_of_mem _ hx))

/-- C16: a stored (valid) task whose deadline is before `now`, whose status is not `done`,
whose assignee U exists and has no `overdue` entry in the ledger, scanned alone. The scan at
`now` creates exactly one notification, the `deadline_overdue` one for U, and appends
exactly one ledger entry, `overdue` for U. After any further scans at instants not before
`now`, the notifications and the ledger are still the same: nothing more is created for the
task. -/
theorem C16_overdue_task_is_notified_once
    (now d : Int) (users : List User) (task : Task) (assignee : User)
    (old : List Notification) (laters : List Int)
    (hpop : populate users task.assignedTo = some assignee)
    (hd : task.deadline = some d) (hlt : d < now) (hst : task.status ≠ "done")
    (hv : task.validate = true)
    (hfresh : noEntry task.deadlineNotifications "overdue" assignee._id = true)
    (hlater : ∀ t ∈ laters, now ≤ t) :
    (sendDeadlineNotifications now ⟨users, [task], [], old⟩).1
      = ⟨users, [withLedgerEntry task "overdue" now assignee._id], [],
          old ++ [overdueTaskNotification assignee._id task._id]⟩ ∧
    (sendDeadlineNotifications now ⟨users, [task], [], old⟩).2.notificationsSent = 1 ∧
    runScans (now :: laters) ⟨users, [task], [], old⟩
      = ⟨users, [withLedgerEntry task "overdue" now assignee._id], [],
          old ++ [overdueTaskNotification assignee._id task._id]⟩ := by
  have hsent := notificationSent_of_noEntry hfresh
  have hb := overdueTaskBody_fresh now users task assignee hpop hv hsent
  have hscan := scan_single_overdue now users task old d _ hd hst hlt hb
    (by unfold withLedgerEntry; exact hd)
  refine ⟨hscan.1, hscan.2, ?_⟩
  unfold runScans
  rw [hscan.1]
  exact runScans_already_notified now d users (withLedgerEntry task "overdue" now assignee._id)
    assignee _ (by unfold withLedgerEntry; exact hpop) (by unfold withLedgerEntry; exact hd)
    hlt (by unfold withLedgerEntry; exact hst)
    (by unfold withLedgerEntry; exact notificationSent_append_self now hsent) laters hlater

/-- C16 at the concrete task: due two days before the instant 0, in progress, assigned to
user 1; scanned at the instant 0 and again one hour later. -/
theorem C16_overdue_task_is_notified_once_witness :
    (sendDeadlineNotifications 0 ⟨[userWithId 1], [reportTask (-172800000)], [], []⟩).1
      = ⟨[userWithId 1], [withLedgerEntry (reportTask (-172800000)) "overdue" 0 1], [],
          [overdueTaskNotification 1 10]⟩ ∧
    (sendDeadlineNotifications 0
        ⟨[userWithId 1], [reportTask (-172800000)], [], []⟩).2.notificationsSent = 1 ∧
    runScans [0, 3600000] ⟨[userWithId 1], [reportTask (-172800000)], [], []⟩
      = ⟨[userWithId 1], [withLedgerEntry (reportTask (-172800000)) "overdue" 0 1], [],
          [overdueTaskNotification 1 10]⟩ :=
  C16_overdue_task_is_notified_once 0 (-172800000) [userWithId 1] (reportTask (-172800000))
    (userWithId 1) [] [3600000] rfl rfl (by decide) (by decide) (by decide) (by decide)
    (by decide)

/-! ## Lemmas on the independence of the items of a scan -/

theorem forEachSelected_cons {α : Type} (query : α → Bool) (body : α → ItemResult α)
    (mkError : α → String → ScanError) (d : α) (ds : List α) :
    forEachSelected query body mkError (d :: ds) =
      if query d then
        ⟨(body d).doc :: (forEachSelected query body mkError ds).docs,
          (body d).created ++ (forEachSelected query body mkError ds).created,
          (body d).sent + (forEachSelected query body mkError ds).sent,
          (match (body d).error with
            | none => []
            | some e => [mkError d e]) ++ (forEachSelected query body mkError ds).errors⟩
      else
        ⟨d :: (forEachSelected query body mkError ds).docs,
          (forEachSelected query body mkError ds).created,
          (forEachSelected query body mkError ds).sent,
          (forEachSelected query body mkError ds).errors⟩ := rfl

theorem forEachSelected_append {α : Type} (query : α → Bool) (body : α → ItemResult α)
    (mkError : α → String → ScanError) (xs ys : List α) :
    forEachSelected query body mkError (xs ++ ys) =
      ⟨(forEachSelected query body mkError xs).docs ++ (forEachSelected query body mkError ys).docs,
        (forEachSelected query body mkError xs).created
          ++ (forEachSelected query body mkError ys).created,
        (forEachSelected query body mkError xs).sent + (forEachSelected query body mkError ys).sent,
        (forEachSelected query body mkError xs).errors
          ++ (forEachSelected query body mkError ys).errors⟩ := by
  induction xs with
  | nil => simp [forEachSelected]
  | cons x rest ih =>
    rw [List.cons_append, forEachSelected_cons, forEachSelected_cons, ih]
    split <;> simp [List.append_assoc, Nat.add_assoc]

theorem scan_tasks_append (now : Date) (users : List User) (xs ys : List Task)
    (projects : List Project) (notifications : List Notification) :
    (sendDeadlineNotifications now ⟨users, xs ++ ys, projects, notifications⟩).1.tasks
      = (sendDeadlineNotifications now ⟨users, xs, projects, notifications⟩).1.tasks
        ++ (sendDeadlineNotifications now ⟨users, ys, projects, notifications⟩).1.tasks := by
  unfold sendDeadlineNotifications
  simp only [forEachSelected_append]

theorem scan_projects_append (now : Date) (users : List User) (tasks : List Task)
    (xs ys : List Project) (notifications : List Notification) :
    (sendDeadlineNotifications now ⟨users, tasks, xs ++ ys, notifications⟩).1.projects
      = (sendDeadlineNotifications now ⟨users, tasks, xs, notifications⟩).1.projects
        ++ (sendDeadlineNotifications now ⟨users, tasks, ys, notifications⟩).1.projects := by
  unfold sendDeadlineNotifications
  simp only [forEachSelected_append]

theorem forEachSelected_mem_errors {α : Type} (query : α → Bool) (body : α → ItemResult α)
    (mkError : α → String → ScanError) (pre post : List α) (x : α) (e : String)
    (hq : query x = true) (he : (body x).error = some e) :
    mkError x e ∈ (forEachSelected query body mkError (pre ++ x :: post)).errors := by
  rw [forEachSelected_append, forEachSelected_cons, if_pos hq, he]
  simp

theorem forEachSelected_unselected {α : Type} (query : α → Bool) (body : α → ItemResult α)
    (mkError : α → String → ScanError) :
    ∀ docs : List α, (∀ d ∈ docs, query d = false) →
      forEachSelected query body mkError docs = ⟨docs, [], 0, []⟩ := by
  intro docs
  induction docs with
  | nil => intro _; rfl
  | cons d ds ih =>
    intro h
    rw [forEachSelected_cons, h d (List.mem_cons_self _ _),
      ih (fun x hx => h x (List.mem_cons_of_mem _ hx))]
    simp

theorem upcoming_not_overdue (now sevenDays : Date) (task : Task)
    (h : upcomingTaskQuery now sevenDays task = true) : overdueTaskQuery now task = false := by
  unfold upcomingTaskQuery at h
  unfold overdueTaskQuery
  cases hd : task.deadline with
  | none => rfl
  | some d =>
    rw [hd] at h
    simp only [Bool.and_eq_true, decide_eq_true_eq] at h
    have h1 : now ≤ d := h.1.1
    have : ¬ d < now := not_lt.mpr h1
    simp [this]

/-- C17: partial-failure semantics of the scan. For every store and instant the scan
returns `success = true`. For a task `x` of the store whose processing throws, `errors`
holds the entry `Task <x._id>: <message>`, and every other item is processed as if `x` were
absent: the tasks after the scan are those of the scan without `x`, with the result for `x`
at its place, the projects do not depend on `x`, and the notifications are those of the scan
without `x` together with those of scanning `x` alone. Likewise for a project `y` whose
processing throws, with the entry `Project <y._id>: <message>`. -/
theorem C17_scan_partial_failure (now : Date) (s : Store) :
    (sendDeadlineNotifications now s).2.success = true ∧
    (∀ (pre post : List Task) (x : Task) (ex : String),
      s.tasks = pre ++ x :: post → TaskThrows now s.users x ex →
      (⟨"Task", x._id, ex⟩ : ScanError) ∈ (sendDeadlineNotifications now s).2.errors ∧
      (sendDeadlineNotifications now s).1.tasks
        = (sendDeadlineNotifications now { s with tasks := pre }).1.tasks
          ++ (sendDeadlineNotifications now { s with tasks := [x] }).1.tasks
          ++ (sendDeadlineNotifications now { s with tasks := post }).1.tasks ∧
      (sendDeadlineNotifications now { s with tasks := pre ++ post }).1.tasks
        = (sendDeadlineNotifications now { s with tasks := pre }).1.tasks
          ++ (sendDeadlineNotifications now { s with tasks := post }).1.tasks ∧
      (sendDeadlineNotifications now { s with tasks := pre ++ post }).1.projects
        = (sendDeadlineNotifications now s).1.projects ∧
      (sendDeadlineNotifications now s).1.notifications.Perm
        ((sendDeadlineNotifications now { s with tasks := pre ++ post }).1.notifications
          ++ (sendDeadlineNotifications now ⟨s.users, [x], [], []⟩).1.notifications)) ∧
    (∀ (ppre ppost : List Project) (y : Project) (ey : String),
      s.projects = ppre ++ y :: ppost → ProjectThrows now s.users y ey →
      (⟨"Project", y._id, ey⟩ : ScanError) ∈ (sendDeadlineNotifications now s).2.errors ∧
      (sendDeadlineNotifications now s).1.projects
        = (sendDeadlineNotifications now { s with projects := ppre }).1.projects
          ++ (sendDeadlineNotifications now { s with projects := [y] }).1.projects
          ++ (sendDeadlineNotifications now { s with projects := ppost }).1.projects ∧
      (sendDeadlineNotifications now { s with projects := ppre ++ ppost }).1.projects
        = (sendDeadlineNotifications now { s with projects := ppre }).1.projects
          ++ (sendDeadlineNotifications now { s with projects := ppost }).1.projects ∧
      (sendDeadlineNotifications now { s with projects := ppre ++ ppost }).1.tasks
        = (sendDeadlineNotifications now s).1.tasks ∧
      (sendDeadlineNotifications now s).1.notifications.Perm
        ((sendDeadlineNotifications now { s with projects := ppre ++ ppost }).1.notifications
          ++ (sendDeadlineNotifications now ⟨s.users, [], [y], []⟩).1.notifications)) := by
  obtain ⟨users, tasks, projects, notifications⟩ := s
  refine ⟨rfl, ?_, ?_⟩
  · intro pre post x ex htasks hx
    simp only at htasks hx
    subst htasks
    have hxs : pre ++ x :: post = pre ++ ([x] ++ post) := rfl
    refine ⟨?_, ?_, ?_, rfl, ?_⟩
    · unfold sendDeadlineNotifications
      rcases hx with ⟨hq, he⟩ | ⟨hq, he⟩
      · exact List.mem_append_left _ (List.mem_append_left _
          (forEachSelected_mem_errors _ _ (fun task e => ⟨"Task", task._id, e⟩)
            pre post x ex hq he))
      · refine List.mem_append_left _ (List.mem_append_right _ ?_)
        have hq1 := upcoming_not_overdue now _ x hq
        simp only
        rw [forEachSelected_append, forEachSelected_cons, hq1]
        simp only [Bool.false_eq_true, if_false]
        exact forEachSelected_mem_errors _ _ (fun task e => ⟨"Task", task._id, e⟩) _ _ x ex
          hq he
    · show (sendDeadlineNotifications now ⟨users, pre ++ ([x] ++ post), _, _⟩).1.tasks = _
      rw [scan_tasks_append, scan_tasks_append, List.append_assoc]
    · exact scan_tasks_append now users pre post _ _
    · rw [hxs]
      unfold sendDeadlineNotifications
      simp only [forEachSelected_append]
      rw [← Multiset.coe_eq_coe]
      simp only [← Multiset.coe_add, forEachSelected, List.append_nil, List.nil_append]
      abel
  · intro ppre ppost y ey hprojects hy
    simp only at hprojects hy
    subst hprojects
    have hys : ppre ++ y :: ppost = ppre ++ ([y] ++ ppost) := rfl
    refine ⟨?_, ?_, ?_, rfl, ?_⟩
    · unfold sendDeadlineNotifications
      exact List.mem_append_right _
        (forEachSelected_mem_errors _ _ (fun project e => ⟨"Project", project._id, e⟩)
          ppre ppost y ey hy.1 hy.2)
    · show (sendDeadlineNotifications now ⟨users, _, ppre ++ ([y] ++ ppost), _⟩).1.projects = _
      rw [scan_projects_append, scan_projects_append, List.append_assoc]
    · exact scan_projects_append now users _ ppre ppost _
    · rw [hys]
      unfold sendDeadlineNotifications
      simp only [forEachSelected_append]
      rw [← Multiset.coe_eq_coe]
      simp only [← Multiset.coe_add, forEachSelected, List.append_nil, List.nil_append]
      abel

/-- C17 at the concrete store: the task due in seven days (id 10) and the project with the
malformed ledger (id 21) throw; both are recorded, the scan succeeds, and the two overdue
tasks and the overdue project around them are notified as without them. -/
theorem C17_scan_partial_failure_witness :
    (sendDeadlineNotifications 0 storeWithFailingItems).2.success = true ∧
    (⟨"Task", 10, "ValidationError"⟩ : ScanError)
      ∈ (sendDeadlineNotifications 0 storeWithFailingItems).2.errors ∧
    (⟨"Project", 21, "TypeError"⟩ : ScanError)
      ∈ (sendDeadlineNotifications 0 storeWithFailingItems).2.errors ∧
    (sendDeadlineNotifications 0
        { storeWithFailingItems with
          tasks := [{ reportTask (-3600000) with _id := 11 }]
            ++ [{ reportTask (-7200000) with _id := 12 }] }).1.tasks
      = (sendDeadlineNotifications 0
          { storeWithFailingItems with
            tasks := [{ reportTask (-3600000) with _id := 11 }] }).1.tasks
        ++ (sendDeadlineNotifications 0
          { storeWithFailingItems with
            tasks := [{ reportTask (-7200000) with _id := 12 }] }).1.tasks ∧
    (sendDeadlineNotifications 0 storeWithFailingItems).1.notifications.map
        (fun n => (n.userId, n.type, n.relatedItem.id))
      = [(1, "deadline_overdue", 11), (1, "deadline_overdue", 12),
         (1, "deadline_approaching", 10), (7, "deadline_overdue", 20),
         (8, "deadline_overdue", 20)] :=
  have h := C17_scan_partial_failure 0 storeWithFailingItems
  have ht := h.2.1 [{ reportTask (-3600000) with _id := 11 }]
    [{ reportTask (-7200000) with _id := 12 }] (reportTask (7 * DAY_MS)) "ValidationError"
    rfl (Or.inr ⟨by decide, by decide⟩)
  have hp := h.2.2 [] [launchProject (-1)] malformedProject "TypeError" rfl
    ⟨by decide, by decide⟩
  ⟨h.1, ht.1, hp.1, ht.2.2.1, by decide⟩

/-! ## Lemmas on the ledger entries behind the notifications of a scan -/

theorem notification_create_ok {n created : Notification}
    (h : Notification.create n = .ok created) : created = n := by
  unfold Notification.create at h
  split at h
  · injection h with h; exact h.symm
  · cases h

theorem overdueTaskBody_created (now : Date) (users : List User) (task : Task) :
    (overdueTaskBody now users task).doc._id = task._id ∧
    ∀ n ∈ (overdueTaskBody now users task).created,
      n.relatedItem = ⟨"task", task._id⟩ ∧
      ((overdueTaskBody now users task).error = none →
        ∃ l ∈ (overdueTaskBody now users task).doc.deadlineNotifications, Matches n l) := by
  unfold overdueTaskBody
  split
  · exact ⟨rfl, fun n hn => by cases hn⟩
  · split
    · exact ⟨rfl, fun n hn => by cases hn⟩
    · exact ⟨rfl, fun n hn => by cases hn⟩
    · split
      · exact ⟨rfl, fun n hn => by cases hn⟩
      · next created hcreate =>
        have hc := notification_create_ok hcreate
        subst hc
        split
        · refine ⟨rfl, fun n hn => ?_⟩
          rw [List.mem_singleton] at hn
          subst hn
          exact ⟨rfl, fun h => by cases h⟩
        · next saved hsave =>
          have hs := task_save_ok hsave
          subst hs
          refine ⟨rfl, fun n hn => ?_⟩
          rw [List.mem_singleton] at hn
          subst hn
          exact ⟨rfl, fun _ => ⟨_, List.mem_append_right _ (List.mem_singleton_self _),
            rfl, Or.inl ⟨rfl, rfl⟩⟩⟩

theorem notificationTypeOf_some {days : Int} {type : String}
    (h : notificationTypeOf days = some type) :
    type = "1_day" ∨ type = "3_days" ∨ type = "7_days" := by
  unfold notificationTypeOf at h
  split at h
  · injection h with h; exact Or.inl h.symm
  · split at h
    · injection h with h; exact Or.inr (Or.inl h.symm)
    · split at h
      · injection h with h; exact Or.inr (Or.inr h.symm)
      · cases h

theorem upcomingTaskBody_created (now : Date) (users : List User) (task : Task) :
    (upcomingTaskBody now users task).doc._id = task._id ∧
    (∀ l ∈ task.deadlineNotifications,
      l ∈ (upcomingTaskBody now users task).doc.deadlineNotifications) ∧
    ∀ n ∈ (upcomingTaskBody now users task).created,
      n.relatedItem = ⟨"task", task._id⟩ ∧
      ((upcomingTaskBody now users task).error = none →
        ∃ l ∈ (upcomingTaskBody now users task).doc.deadlineNotifications, Matches n l) := by
  unfold upcomingTaskBody
  split
  · exact ⟨rfl, fun l hl => hl, fun n hn => by cases hn⟩
  · split
    · exact ⟨rfl, fun l hl => hl, fun n hn => by cases hn⟩
    · simp only
      split
      · exact ⟨rfl, fun l hl => hl, fun n hn => by cases hn⟩
      · next type htype =>
        split
        · exact ⟨rfl, fun l hl => hl, fun n hn => by cases hn⟩
        · exact ⟨rfl, fun l hl => hl, fun n hn => by cases hn⟩
        · split
          · exact ⟨rfl, fun l hl => hl, fun n hn => by cases hn⟩
          · next created hcreate =>
            have hc := notification_create_ok hcreate
            subst hc
            split
            · refine ⟨rfl, fun l hl => hl, fun n hn => ?_⟩
              rw [List.mem_singleton] at hn
              subst hn
              exact ⟨rfl, fun h => by cases h⟩
            · next saved hsave =>
              have hs := task_save_ok hsave
              subst hs
              refine ⟨rfl, fun l hl => List.mem_append_left _ hl, fun n hn => ?_⟩
              rw [List.mem_singleton] at hn
              subst hn
              exact ⟨rfl, fun _ => ⟨_, List.mem_append_right _ (List.mem_singleton_self _),
                rfl, Or.inr ⟨rfl, notificationTypeOf_some htype⟩⟩⟩

theorem overdueProjectLoop_created (now : Date) (projectId : ObjectId) (members : List User) :
    ∀ acc : MemberLoop,
      (∀ n ∈ acc.created, n.relatedItem = ⟨"project", projectId⟩ ∧
        ∃ l ∈ acc.ledger, Matches n l) →
      ∀ n ∈ (overdueProjectLoop now projectId members acc).1.created,
        n.relatedItem = ⟨"project", projectId⟩ ∧
        ∃ l ∈ (overdueProjectLoop now projectId members acc).1.ledger, Matches n l := by
  induction members with
  | nil => intro acc h; exact h
  | cons member rest ih =>
    intro acc h
    unfold overdueProjectLoop
    split
    · exact h
    · exact ih acc h
    · split
      · exact h
      · next created hcreate =>
        have hc := notification_create_ok hcreate
        subst hc
        apply ih
        intro n hn
        simp only [List.mem_append, List.mem_singleton] at hn
        rcases hn with hn | hn
        · obtain ⟨h1, l, hl, hm⟩ := h n hn
          exact ⟨h1, l, List.mem_append_left _ hl, hm⟩
        · subst hn
          exact ⟨rfl, ⟨"overdue", now, some member._id⟩, by simp, rfl, Or.inl ⟨rfl, rfl⟩⟩

theorem overdueProjectBody_created (now : Date) (users : List User) (project : Project) :
    (overdueProjectBody now users project).doc._id = project._id ∧
    ∀ n ∈ (overdueProjectBody now users project).created,
      n.relatedItem = ⟨"project", project._id⟩ ∧
      ((overdueProjectBody now users project).error = none →
        ∃ l ∈ (overdueProjectBody now users project).doc.deadlineNotifications,
          Matches n l) := by
  have hloop := overdueProjectLoop_created now project._id
    (populateMany users project.members) ⟨project.deadlineNotifications, [], 0⟩
    (fun n hn => by cases hn)
  unfold overdueProjectBody
  split
  · next acc e heq =>
    rw [heq] at hloop
    exact ⟨rfl, fun n hn => ⟨(hloop n hn).1, fun h => by cases h⟩⟩
  · next acc heq =>
    rw [heq] at hloop
    split
    · exact ⟨rfl, fun n hn => ⟨(hloop n hn).1, fun h => by cases h⟩⟩
    · next saved hsave =>
      have hs := project_save_ok hsave
      refine ⟨by rw [hs], fun n hn => ⟨(hloop n hn).1, fun _ => ?_⟩⟩
      obtain ⟨l, hl, hm⟩ := (hloop n hn).2
      exact ⟨l, by rw [hs]; exact hl, hm⟩

theorem forEachSelected_mem_created {α : Type} (query : α → Bool) (body : α → ItemResult α)
    (mkError : α → String → ScanError) :
    ∀ (docs : List α) (n : Notification),
      n ∈ (forEachSelected query body mkError docs).created →
      ∃ d ∈ docs, query d = true ∧ n ∈ (body d).created ∧
        (body d).doc ∈ (forEachSelected query body mkError docs).docs ∧
        ∀ e, (body d).error = some e →
          mkError d e ∈ (forEachSelected query body mkError docs).errors := by
  intro docs
  induction docs with
  | nil => intro n hn; simp [forEachSelected] at hn
  | cons x rest ih =>
    intro n hn
    rw [forEachSelected_cons] at hn ⊢
    by_cases hq : query x = true
    · rw [if_pos hq] at hn ⊢
      simp only [List.mem_append] at hn
      rcases hn with hn | hn
      · refine ⟨x, List.mem_cons_self _ _, hq, hn, List.mem_cons_self _ _, ?_⟩
        intro e he
        simp [he]
      · obtain ⟨d, hd, hqd, hnd, hdoc, herr⟩ := ih n hn
        exact ⟨d, List.mem_cons_of_mem _ hd, hqd, hnd, List.mem_cons_of_mem _ hdoc,
          fun e he => List.mem_append_right _ (herr e he)⟩
    · rw [if_neg hq] at hn ⊢
      obtain ⟨d, hd, hqd, hnd, hdoc, herr⟩ := ih n hn
      exact ⟨d, List.mem_cons_of_mem _ hd, hqd, hnd, List.mem_cons_of_mem _ hdoc,
        fun e he => herr e he⟩

theorem forEachSelected_mem_docs {α : Type} (query : α → Bool) (body : α → ItemResult α)
    (mkError : α → String → ScanError) :
    ∀ (docs : List α) (d : α), d ∈ docs →
      (if query d then (body d).doc else d) ∈ (forEachSelected query body mkError docs).docs := by
  intro docs
  induction docs with
  | nil => intro d hd; cases hd
  | cons x rest ih =>
    intro d hd
    rw [forEachSelected_cons]
    rcases List.mem_cons.mp hd with h | h
    · subst h
      split <;> exact List.mem_cons_self _ _
    · split <;> exact List.mem_cons_of_mem _ (ih d h)

theorem createdInRun_eq (now : Date) (s : Store) :
    createdInRun now s =
      (forEachSelected (overdueTaskQuery now) (overdueTaskBody now s.users)
        (fun task e => ⟨"Task", task._id, e⟩) s.tasks).created
      ++ (forEachSelected (upcomingTaskQuery now (now + 7 * 24 * 60 * 60 * 1000))
        (upcomingTaskBody now s.users) (fun task e => ⟨"Task", task._id, e⟩)
        (forEachSelected (overdueTaskQuery now) (overdueTaskBody now s.users)
          (fun task e => ⟨"Task", task._id, e⟩) s.tasks).docs).created
      ++ (forEachSelected (overdueProjectQuery now) (overdueProjectBody now s.users)
        (fun project e => ⟨"Project", project._id, e⟩) s.projects).created := by
  unfold createdInRun sendDeadlineNotifications
  simp only [List.append_assoc, List.drop_left]

/-- C18 refuted at concrete inputs. An overdue project whose stored status is not one of the
schema: both members are notified, `project.save()` is rejected, and the stored ledger stays
empty. A task due in exactly seven days: the assignee is notified, `task.save()` is
rejected, and the stored ledger stays empty. -/
theorem C18_notification_without_ledger_entry_when_save_fails :
    (createdInRun 0 storeInvalidProject).map (fun n => (n.userId, n.type, n.relatedItem))
      = [(7, "deadline_overdue", ⟨"project", 22⟩), (8, "deadline_overdue", ⟨"project", 22⟩)] ∧
    (sendDeadlineNotifications 0 storeInvalidProject).1.projects.map
        (fun p => p.deadlineNotifications) = [[]] ∧
    (sendDeadlineNotifications 0 storeInvalidProject).2.errors
      = [⟨"Project", 22, "ValidationError"⟩] ∧
    (createdInRun 0 storeSevenDays).map (fun n => (n.userId, n.type, n.relatedItem))
      = [(1, "deadline_approaching", ⟨"task", 10⟩)] ∧
    (sendDeadlineNotifications 0 storeSevenDays).1.tasks.map
        (fun t => t.deadlineNotifications) = [[]] := by
  decide

/-- C18 as amended: a notification the scan creates is matched by a persisted ledger entry
when processing of its item did not throw. For every store and instant and every
notification created in the run: if it is for a task and `errors` has no entry for that task
id, a task with that id is stored after the run whose ledger holds an entry with the
notification's recipient and bucket; likewise for a project. -/
theorem C18_notification_has_ledger_entry_unless_item_threw
    (now : Date) (s : Store) (n : Notification) (hn : n ∈ createdInRun now s) :
    (n.relatedItem.type = "task" →
      (∀ e, (⟨"Task", n.relatedItem.id, e⟩ : ScanError)
        ∉ (sendDeadlineNotifications now s).2.errors) →
      ∃ t ∈ (sendDeadlineNotifications now s).1.tasks, t._id = n.relatedItem.id ∧
        ∃ l ∈ t.deadlineNotifications, Matches n l) ∧
    (n.relatedItem.type = "project" →
      (∀ e, (⟨"Project", n.relatedItem.id, e⟩ : ScanError)
        ∉ (sendDeadlineNotifications now s).2.errors) →
      ∃ p ∈ (sendDeadlineNotifications now s).1.projects, p._id = n.relatedItem.id ∧
        ∃ l ∈ p.deadlineNotifications, Matches n l) := by
  rw [createdInRun_eq, List.mem_append, List.mem_append] at hn
  rcases hn with (hn | hn) | hn
  · obtain ⟨d, _, _, hnd, hdoc, herr⟩ := forEachSelected_mem_created _ _ _ s.tasks n hn
    obtain ⟨hid, hcr⟩ := overdueTaskBody_created now s.users d
    obtain ⟨hrel, hentry⟩ := hcr n hnd
    constructor
    · intro _ hno
      have hnone : (overdueTaskBody now s.users d).error = none := by
        cases he : (overdueTaskBody now s.users d).error with
        | none => rfl
        | some e =>
          exfalso
          apply hno e
          have := herr e he
          rw [hrel]
          exact List.mem_append_left _ (List.mem_append_left _ this)
      obtain ⟨l, hl, hm⟩ := hentry hnone
      have h2 := forEachSelected_mem_docs
        (upcomingTaskQuery now (now + 7 * 24 * 60 * 60 * 1000)) (upcomingTaskBody now s.users)
        (fun task e => ⟨"Task", task._id, e⟩) _ _ hdoc
      obtain ⟨hid2, hmono, _⟩ := upcomingTaskBody_created now s.users
        (overdueTaskBody now s.users d).doc
      refine ⟨_, h2, ?_, l, ?_, hm⟩
      · rw [hrel]
        split
        · rw [hid2, hid]
        · exact hid
      · split
        · exact hmono l hl
        · exact hl
    · intro h
      rw [hrel] at h
      exact absurd h (by simp)
  · obtain ⟨d, _, _, hnd, hdoc, herr⟩ := forEachSelected_mem_created _ _ _ _ n hn
    obtain ⟨hid, _, hcr⟩ := upcomingTaskBody_created now s.users d
    obtain ⟨hrel, hentry⟩ := hcr n hnd
    constructor
    · intro _ hno
      have hnone : (upcomingTaskBody now s.users d).error = none := by
        cases he : (upcomingTaskBody now s.users d).error with
        | none => rfl
        | some e =>
          exfalso
          apply hno e
          have := herr e he
          rw [hrel]
          exact List.mem_append_left _ (List.mem_append_right _ this)
      obtain ⟨l, hl, hm⟩ := hentry hnone
      exact ⟨_, hdoc, by rw [hrel]; exact hid, l, hl, hm⟩
    · intro h
      rw [hrel] at h
      exact absurd h (by simp)
  · obtain ⟨d, _, _, hnd, hdoc, herr⟩ := forEachSelected_mem_created _ _ _ s.projects n hn
    obtain ⟨hid, hcr⟩ := overdueProjectBody_created now s.users d
    obtain ⟨hrel, hentry⟩ := hcr n hnd
    constructor
    · intro h
      rw [hrel] at h
      exact absurd h (by simp)
    · intro _ hno
      have hnone : (overdueProjectBody now s.users d).error = none := by
        cases he : (overdueProjectBody now s.users d).error with
        | none => rfl
        | some e =>
          exfalso
          apply hno e
          have := herr e he
          rw [hrel]
          exact List.mem_append_right _ this
      obtain ⟨l, hl, hm⟩ := hentry hnone
      exact ⟨_, hdoc, by rw [hrel]; exact hid, l, hl, hm⟩

/-- C18 as amended, at the concrete store: the task due an hour before the instant 0 is
processed without error, and its overdue notification has its `overdue` entry for user 1. -/
theorem C18_notification_has_ledger_entry_unless_item_threw_witness :
    overdueTaskNotification 1 10 ∈ createdInRun 0 storeDueAnHourAgo ∧
    ∃ t ∈ (sendDeadlineNotifications 0 storeDueAnHourAgo).1.tasks,
      t._id = (overdueTaskNotification 1 10).relatedItem.id ∧
      ∃ l ∈ t.deadlineNotifications, Matches (overdueTaskNotification 1 10) l :=
  have hn : overdueTaskNotification 1 10 ∈ createdInRun 0 storeDueAnHourAgo := by decide
  have herr : (sendDeadlineNotifications 0 storeDueAnHourAgo).2.errors = [] := by decide
  ⟨hn, (C18_notification_has_ledger_entry_unless_item_threw 0 storeDueAnHourAgo
    (overdueTaskNotification 1 10) hn).1 rfl
    (fun e h => by rw [herr] at h; cases h)⟩

/-- C19: `createNotificationWithEmail` on notification data that passes validation and has
the email fields at their defaults returns for every email collaborator, whether it
answers or throws. The first effect is the save of the notification as given, before any
email attempt; the store afterwards holds the returned notification. `emailSent` of the
returned notification is true iff the recipient exists, has an email address and the
collaborator answered with `success`; then `emailSentAt` is the time of the call, and
otherwise the returned notification is the one given, with `emailSent = false` and no
`emailSentAt`. `sendEmail` reports success iff notifications are enabled, the configuration
is valid and the transport accepted the mail. -/
theorem C19_createNotificationWithEmail_never_fails_on_email
    (send : User → Notification → Except String EmailResult) (clock : Date)
    (data : Notification) (s : Store) (cfg : EmailConfig)
    (sendMail : String → Except String String) (recipient : String)
    (hv : data.validate = true) (hsent : data.emailSent = false)
    (hat : data.emailSentAt = none) :
    (∃ d, createNotificationWithEmail send clock data s = .ok d ∧
      (∃ rest, d.effects = .saved data :: rest) ∧
      d.store.notifications = s.notifications ++ [d.notification] ∧
      (d.notification.emailSent = true ↔
        ∃ user r, s.users.find? (fun u => u._id == data.userId) = some user ∧
          user.email ≠ "" ∧ send user data = .ok r ∧ r.success = true) ∧
      (d.notification.emailSent = true →
        d.notification = { data with emailSent := true, emailSentAt := some clock }) ∧
      (d.notification.emailSent = false →
        d.notification = data ∧ d.notification.emailSentAt = none)) ∧
    ((sendEmail cfg sendMail recipient).success = true ↔
      cfg.enableEmailNotifications = true ∧ validateEmailConfigErrors cfg = [] ∧
        ∃ id, sendMail recipient = .ok id) := by
  constructor
  · unfold createNotificationWithEmail Notification.create
    rw [if_pos hv]
    simp only
    cases hu : s.users.find? (fun u => u._id == data.userId) with
    | none =>
      refine ⟨_, rfl, ⟨_, rfl⟩, rfl, ?_, ?_, ?_⟩
      · simp [hsent]
      · intro h; simp [hsent] at h
      · intro _; exact ⟨rfl, hat⟩
    | some user =>
      simp only
      by_cases he : user.email = ""
      · rw [if_pos he]
        refine ⟨_, rfl, ⟨_, rfl⟩, rfl, ?_, ?_, ?_⟩
        · simp [hsent, he]
        · intro h; simp [hsent] at h
        · intro _; exact ⟨rfl, hat⟩
      · rw [if_neg he]
        cases hs : send user data with
        | error e =>
          refine ⟨_, rfl, ⟨_, rfl⟩, rfl, ?_, ?_, ?_⟩
          · simp [hsent, hs]
          · intro h; simp [hsent] at h
          · intro _; exact ⟨rfl, hat⟩
        | ok r =>
          simp only
          by_cases hr : r.success = true
          · rw [if_pos hr]
            refine ⟨_, rfl, ⟨_, rfl⟩, rfl, ?_, ?_, ?_⟩
            · simp only [true_iff]
              exact ⟨user, r, rfl, he, hs, hr⟩
            · intro _; rfl
            · intro h; simp at h
          · rw [if_neg hr]
            refine ⟨_, rfl, ⟨_, rfl⟩, rfl, ?_, ?_, ?_⟩
            · simp only [hsent, Bool.false_eq_true, false_iff]
              rintro ⟨u, r2, hu2, _, hs2, hr2⟩
              injection hu2 with hu2
              subst hu2
              rw [hs] at hs2
              injection hs2 with hs2
              subst hs2
              exact hr hr2
            · intro h; simp [hsent] at h
            · intro _; exact ⟨rfl, hat⟩
  · unfold sendEmail
    cases hen : cfg.enableEmailNotifications with
    | false => simp
    | true =>
      by_cases herr : validateEmailConfigErrors cfg = []
      · simp only [herr, Bool.not_true, Bool.false_eq_true, if_false, List.length_nil,
          bne_self_eq_false, true_and]
        cases hm : sendMail recipient with
        | error e => simp
        | ok id => simp
      · have hlen : ((validateEmailConfigErrors cfg).length != 0) = true := by
          simpa using herr
        simp [hlen, herr]

/-- C19 at concrete inputs: for user 1 of `storeDueAnHourAgo` (who has an email address)
and the overdue notification, a collaborator that throws leaves the persisted notification
with `emailSent = false`, and one that reports success gives `emailSent = true` with
`emailSentAt` the time of the call. -/
theorem C19_createNotificationWithEmail_never_fails_on_email_witness :
    (∃ d, createNotificationWithEmail brokenEmail 50 (overdueTaskNotification 1 10)
        storeDueAnHourAgo = .ok d ∧
      (∃ rest, d.effects = .saved (overdueTaskNotification 1 10) :: rest) ∧
      d.store.notifications = storeDueAnHourAgo.notifications ++ [d.notification]) ∧
    createNotificationWithEmail brokenEmail 50 (overdueTaskNotification 1 10)
        storeDueAnHourAgo
      = .ok ⟨{ storeDueAnHourAgo with notifications := [overdueTaskNotification 1 10] },
          overdueTaskNotification 1 10,
          [.saved (overdueTaskNotification 1 10), .emailAttempt 1]⟩ ∧
    (createNotificationWithEmail workingEmail 50 (overdueTaskNotification 1 10)
        storeDueAnHourAgo).map (fun d => (d.notification.emailSent, d.notification.emailSentAt))
      = .ok (true, some 50) :=
  have h := (C19_createNotificationWithEmail_never_fails_on_email brokenEmail 50
    (overdueTaskNotification 1 10) storeDueAnHourAgo ⟨"", "", false⟩ (fun _ => .ok "id") ""
    (by decide) rfl rfl).1
  ⟨h.elim (fun d hd => ⟨d, hd.1, hd.2.1, hd.2.2.1⟩), by decide, by decide⟩

/-- C20, evaluated at the failing input: the request
`PUT /deadlines/task/10/extension/1` with body `status: approved, reviewerId: 8` (no
`extensionId` in the body) on a store whose task 10 has the pending request 1. The handler
looks the request up by the body field, finds nothing, answers 200 with the success
message, and the store is as before: request 1 is still pending and the deadline is
unchanged. The same for the project route. -/
theorem C20_review_by_path_id_applies_no_transition :
    reviewExtensionHandler ⟨"task", 10, some 1, none, "approved", some 8⟩ 900 storeWithPending
      = (storeWithPending, ⟨200, none, some "Extension approved successfully"⟩) ∧
    reviewExtensionHandler ⟨"project", 20, some 1, none, "approved", some 8⟩ 900
        storeWithPending
      = (storeWithPending, ⟨200, none, some "Extension approved successfully"⟩) ∧
    storeWithPending.tasks.map
        (fun t => (t.deadline, t.deadlineExtensions.map (fun e => (e._id, e.status))))
      = [(some 1000, [(1, "pending")])] ∧
    (taskWithPending.reviewExtension 900 (some 1) "approved" (some 8)).map
        (fun t => (t.deadline, t.deadlineExtensions.map (fun e => (e._id, e.status))))
      = .ok (some 5000, [(1, "approved")]) := by
  decide

/-! ## The properties of the specification, C21 to C30 -/

theorem reviewNotification_rejected (req : ReviewRequest) (extension : ExtensionRequest) :
    Notification.create (reviewNotification req extension) = .error "ValidationError" := by
  simp [Notification.create, Notification.validate, reviewNotification, NOTIFICATION_TYPE_ENUM]

theorem reviewExtensionHandler_notifications (req : ReviewRequest) (clock : Date) (s : Store) :
    (reviewExtensionHandler req clock s).1.notifications = s.notifications := by
  unfold reviewExtensionHandler
  split
  · split
    · rfl
    · split
      · rfl
      · split
        · rfl
        · rw [reviewNotification_rejected]
  · split
    · split
      · rfl
      · split
        · rfl
        · split
          · rfl
          · rw [reviewNotification_rejected]
    · rfl

/-- C21, evaluated at the failing input: the request
`PUT /deadlines/task/10/extension/1` with body `extensionId: 1, status: approved,
reviewerId: 8` on a store whose task 10 has the pending request 1 of user 7. The review is
saved (request 1 is `approved`, the deadline is 5000), then the notification for the
requester is rejected by the schema (`deadline_extension_review` is not in the `enum` of
`type`), the handler answers 500 and no notification is stored. The same for `rejected`
and for the project route; for no request at all does the handler store a notification. -/
theorem C21_review_of_existing_request_stores_no_notification :
    NOTIFICATION_TYPE_ENUM.contains "deadline_extension_review" = false ∧
    (∀ (req : ReviewRequest) (extension : ExtensionRequest),
      Notification.create (reviewNotification req extension) = .error "ValidationError") ∧
    (∀ (req : ReviewRequest) (clock : Date) (s : Store),
      (reviewExtensionHandler req clock s).1.notifications = s.notifications) ∧
    (reviewExtensionHandler ⟨"task", 10, some 1, some 1, "approved", some 8⟩ 900
        storeWithPending).2 = ⟨500, some "ValidationError", none⟩ ∧
    (reviewExtensionHandler ⟨"task", 10, some 1, some 1, "approved", some 8⟩ 900
        storeWithPending).1.notifications = [] ∧
    (reviewExtensionHandler ⟨"task", 10, some 1, some 1, "approved", some 8⟩ 900
        storeWithPending).1.tasks.map
        (fun t => (t.deadline,
          t.deadlineExtensions.map (fun e => (e.requestedBy, e.status))))
      = [(some 5000, [(7, "approved")])] ∧
    (reviewExtensionHandler ⟨"project", 20, some 1, some 1, "rejected", some 8⟩ 900
        storeWithPending).2 = ⟨500, some "ValidationError", none⟩ ∧
    (reviewExtensionHandler ⟨"project", 20, some 1, some 1, "rejected", some 8⟩ 900
        storeWithPending).1.notifications = [] ∧
    (reviewExtensionHandler ⟨"project", 20, some 1, some 1, "rejected", some 8⟩ 900
        storeWithPending).1.projects.map
        (fun p => (p.deadline,
          p.deadlineExtensions.map (fun e => (e.requestedBy, e.status))))
      = [(some 1000, [(7, "rejected")])] :=
  ⟨by decide, reviewNotification_rejected, reviewExtensionHandler_notifications,
    by decide, by decide, by decide, by decide, by decide, by decide⟩

/-- C22: `getUserSchedule` for a user of the store. When the stored `workSchedule` is absent
or has no `monday`, the default schedule is written to the user (the stored preferred hours
and time zone are kept, or set to 09:00-17:00 when absent and to UTC when absent or empty)
and the answer has
`workDays` Monday to Friday; the default schedule has every day from 09:00 to 17:00, Monday
to Friday available and the weekend not. When the stored schedule has a `monday`, the store
is left as it is and the answer is computed from the stored schedule. -/
theorem C22_getUserSchedule_default_schedule (userId : ObjectId) (s : Store) (user : User)
    (hfind : s.users.find? (fun u => u._id == userId) = some user) :
    ((user.workSchedule = none ∨ ∃ w, user.workSchedule = some w ∧ w.monday = none) →
      ∃ schedule,
        getUserSchedule userId s =
          ({ s with
              users := updateFirst (fun u => u._id == userId)
                (fun _ =>
                  { user with
                    workSchedule := some defaultWorkSchedule
                    preferredWorkingHours :=
                      some (user.preferredWorkingHours.getD ⟨"09:00", "17:00"⟩)
                    timezone :=
                      some (if user.timezone.getD "" = "" then "UTC"
                        else user.timezone.getD "") })
                s.users },
            .ok schedule) ∧
        schedule.workDays = ["monday", "tuesday", "wednesday", "thursday", "friday"]) ∧
    (∀ w day, user.workSchedule = some w → w.monday = some day →
      ∃ schedule,
        getUserSchedule userId s = (s, .ok schedule) ∧ schedule.workDays = workDaysOf w) ∧
    ["monday", "tuesday", "wednesday", "thursday", "friday", "saturday", "sunday"].map
        defaultWorkSchedule.get
      = [some ⟨"09:00", "17:00", true⟩, some ⟨"09:00", "17:00", true⟩,
         some ⟨"09:00", "17:00", true⟩, some ⟨"09:00", "17:00", true⟩,
         some ⟨"09:00", "17:00", true⟩, some ⟨"09:00", "17:00", false⟩,
         some ⟨"09:00", "17:00", false⟩] := by
  refine ⟨?_, ?_, by decide⟩
  · intro h
    unfold getUserSchedule
    simp only [hfind]
    rcases h with h | ⟨w, hw, hm⟩
    · cases hp : user.preferredWorkingHours <;> cases ht : user.timezone with
      | none => simp only [h, if_true, Option.getD]; exact ⟨_, rfl, rfl⟩
      | some tz =>
        by_cases htz : tz = ""
        · simp only [h, htz, if_true, Option.getD]; exact ⟨_, rfl, rfl⟩
        · simp only [h, htz, if_true, if_false, Option.getD]; exact ⟨_, rfl, rfl⟩
    · cases hp : user.preferredWorkingHours <;> cases ht : user.timezone with
      | none => simp only [hw, hm, Option.isNone_none, if_true, Option.getD]; exact ⟨_, rfl, rfl⟩
      | some tz =>
        by_cases htz : tz = ""
        · simp only [hw, hm, htz, Option.isNone_none, if_true, Option.getD]
          exact ⟨_, rfl, rfl⟩
        · simp only [hw, hm, htz, Option.isNone_none, if_true, if_false, Option.getD]
          exact ⟨_, rfl, rfl⟩
  · intro w day hw hm
    unfold getUserSchedule
    simp only [hfind, hw, hm, Option.isNone_some, Bool.false_eq_true, if_false]
    exact ⟨_, rfl, rfl⟩

/-- C22 at a concrete store: user 1 has no stored schedule and user 4 only a `tuesday`
entry, so both get the default schedule and the answer Monday to Friday; `weekdayWorker`
has a stored schedule and the store is left as it is. -/
theorem C22_getUserSchedule_default_schedule_witness :
    (∃ schedule,
      getUserSchedule 1 storeSchedules =
        ({ storeSchedules with
            users := updateFirst (fun u => u._id == 1)
              (fun _ =>
                { userWithId 1 with
                  workSchedule := some defaultWorkSchedule
                  preferredWorkingHours :=
                    some ((userWithId 1).preferredWorkingHours.getD ⟨"09:00", "17:00"⟩)
                  timezone :=
                    some (if (userWithId 1).timezone.getD "" = "" then "UTC"
                      else (userWithId 1).timezone.getD "") })
              storeSchedules.users },
          .ok schedule) ∧
      schedule.workDays = ["monday", "tuesday", "wednesday", "thursday", "friday"]) ∧
    (getUserSchedule 4 storeSchedules).2
      = .ok ⟨["monday", "tuesday", "wednesday", "thursday", "friday"], "09:00", "17:00", "CET"⟩ ∧
    getUserSchedule 5 storeSchedules = (storeSchedules, .ok mondayToFriday) :=
  ⟨(C22_getUserSchedule_default_schedule 1 storeSchedules (userWithId 1) (by decide)).1
      (Or.inl rfl),
    by decide, by decide⟩

/-- C23, evaluated at the failing input: the kind `7_days`, which the scan chooses for a
task whose `daysUntilDeadline` is 7, is not in the `enum` of
`TaskSchema.deadlineNotifications.type`, so `task.save()` rejects every task the entry was
pushed to. For the task of `storeSevenDays` (due exactly seven days after the instant 0) the
body of the loop creates the notification and then ends in its `catch` with the validation
error; the stored ledger stays empty. The other kinds written for tasks are in the `enum` of
the task schema, and all four kinds are in the `enum` of the project schema. -/
theorem C23_seven_days_entry_of_task_is_rejected :
    TASK_SCAN_KINDS.filter (fun kind => !TASK_LEDGER_ENUM.contains kind) = ["7_days"] ∧
    PROJECT_SCAN_KINDS.filter (fun kind => !PROJECT_LEDGER_ENUM.contains kind) = [] ∧
    TASK_SCAN_KINDS.filter (fun kind => !PROJECT_LEDGER_ENUM.contains kind) = [] ∧
    (∀ days : Int,
      (notificationTypeOf days).all (fun kind => TASK_LEDGER_ENUM.contains kind)
        = decide (days ≠ 7)) ∧
    (∀ (task : Task) (sentAt : Date) (userId : ObjectId),
      Task.save (withLedgerEntry task "7_days" sentAt userId) = .error "ValidationError") ∧
    (storeSevenDays.tasks.map
      (fun task =>
        ((upcomingTaskBody 0 storeSevenDays.users task).created.map (fun n => n.userId),
          (upcomingTaskBody 0 storeSevenDays.users task).error,
          (upcomingTaskBody 0 storeSevenDays.users task).doc.deadlineNotifications)))
      = [([1], some "ValidationError", [])] ∧
    (sendDeadlineNotifications 0 storeSevenDays).2
      = ⟨true, 0, [⟨"Task", 10, "ValidationError"⟩]⟩ := by
  refine ⟨by decide, by decide, by decide, ?_, ?_, by decide, by decide⟩
  · intro days
    unfold notificationTypeOf
    by_cases h1 : days = 1
    · subst h1; decide
    · by_cases h3 : days = 3
      · subst h3; decide
      · by_cases h7 : days = 7
        · subst h7; decide
        · simp [h1, h3, h7]
  · intro task sentAt userId
    unfold Task.save Task.validate withLedgerEntry
    simp [TASK_LEDGER_ENUM]

/-- C24 refuted at a concrete input: a utilization of exactly 80 is shown in red, the
colour of the overloaded bucket, by the text and by the bar. -/
theorem C24_utilization_80_is_shown_red :
    getWorkloadColor (.int 80) = "text-red-400" ∧ workloadBarColor (.int 80) = "bg-red-500" ∧
    getWorkloadColor (.int 79) = "text-yellow-400" ∧
    workloadBarColor (.int 79) = "bg-yellow-500" := by
  decide

/-- C24 as amended: for every integer utilization `u` the text is green iff `u < 50`, yellow
iff `50 ≤ u < 80` and red iff `80 ≤ u`; the bar has the colour of the text for every value
the client receives. -/
theorem C24_utilization_buckets_with_80_overloaded :
    (∀ u : Int,
      (getWorkloadColor (.int u) = "text-green-400" ↔ u < 50) ∧
      (getWorkloadColor (.int u) = "text-yellow-400" ↔ 50 ≤ u ∧ u < 80) ∧
      (getWorkloadColor (.int u) = "text-red-400" ↔ 80 ≤ u)) ∧
    (∀ x : Utilization,
      (getWorkloadColor x, workloadBarColor x) ∈
        [("text-green-400", "bg-green-500"), ("text-yellow-400", "bg-yellow-500"),
          ("text-red-400", "bg-red-500")]) := by
  refine ⟨?_, ?_⟩
  · intro u
    unfold getWorkloadColor Utilization.lt
    by_cases h50 : u < 50
    · have h80 : u < 80 := by omega
      simp [h50]
      omega
    · by_cases h80 : u < 80
      · simp [h50, h80]
        omega
      · simp [h50, h80]
        omega
  · intro x
    unfold getWorkloadColor workloadBarColor
    cases h50 : x.lt 50
    · cases h80 : x.lt 80 <;> simp
    · simp

/-! ## Lemmas on the scheduler configuration -/

theorem validateConfig_errors_nil (validTimeZone : String → Bool) (c : CronConfig) :
    (validateConfig validTimeZone c).errors = [] ↔
      cronRegex c.deadlineNotifications.schedule = true ∧
      cronRegex c.overdueChecks.schedule = true ∧
      validTimeZone c.deadlineNotifications.timezone = true ∧
      validTimeZone c.overdueChecks.timezone = true := by
  unfold validateConfig
  cases cronRegex c.deadlineNotifications.schedule <;>
    cases cronRegex c.overdueChecks.schedule <;>
    cases validTimeZone c.deadlineNotifications.timezone <;>
    cases validTimeZone c.overdueChecks.timezone <;> simp

theorem validateConfig_isValid (validTimeZone : String → Bool) (c : CronConfig) :
    (validateConfig validTimeZone c).isValid = true ↔
      (validateConfig validTimeZone c).errors = [] := by
  unfold validateConfig
  simp

/-- C25: `validateConfig` answers `isValid = true` iff its `errors` list is empty, and that
is the case iff both schedules pass `cronRegex` and both time zones are accepted. When a
schedule or a time zone of either job is not valid, `isValid` is false, `errors` is not
empty, and `initCronJobs` makes no call of `cron.schedule`, whatever jobs are enabled. -/
theorem C25_invalid_configuration_schedules_nothing (validTimeZone : String → Bool)
    (cronAccepts : String → String → Bool) (c : CronConfig) :
    ((validateConfig validTimeZone c).isValid = true ↔
      (validateConfig validTimeZone c).errors = []) ∧
    ((validateConfig validTimeZone c).isValid = true ↔
      cronRegex c.deadlineNotifications.schedule = true ∧
      cronRegex c.overdueChecks.schedule = true ∧
      validTimeZone c.deadlineNotifications.timezone = true ∧
      validTimeZone c.overdueChecks.timezone = true) ∧
    (cronRegex c.deadlineNotifications.schedule = false ∨
      cronRegex c.overdueChecks.schedule = false ∨
      validTimeZone c.deadlineNotifications.timezone = false ∨
      validTimeZone c.overdueChecks.timezone = false →
      (validateConfig validTimeZone c).isValid = false ∧
      (validateConfig validTimeZone c).errors ≠ [] ∧
      initCronJobs validTimeZone cronAccepts c = []) := by
  have hvalid := validateConfig_isValid validTimeZone c
  have herrors := validateConfig_errors_nil validTimeZone c
  refine ⟨hvalid, hvalid.trans herrors, ?_⟩
  intro h
  have hne : (validateConfig validTimeZone c).errors ≠ [] := by
    intro hnil
    obtain ⟨h1, h2, h3, h4⟩ := herrors.mp hnil
    rcases h with h | h | h | h
    · rw [h1] at h; cases h
    · rw [h2] at h; cases h
    · rw [h3] at h; cases h
    · rw [h4] at h; cases h
  have hfalse : (validateConfig validTimeZone c).isValid = false := by
    cases hv : (validateConfig validTimeZone c).isValid with
    | false => rfl
    | true => exact absurd (hvalid.mp hv) hne
  refine ⟨hfalse, hne, ?_⟩
  unfold initCronJobs
  simp [hfalse]

/-- C25 at concrete configurations: the default configuration is valid and the enabled job
is scheduled; with the schedule `every morning` for the deadline job, or the time zone
`Mars/Olympus` for the overdue job (which is not enabled), nothing is scheduled. -/
theorem C25_invalid_configuration_schedules_nothing_witness :
    cronRegex "every morning" = false ∧
    ((validateConfig knownTimeZone
        { defaultCronConfig with deadlineNotifications := ⟨true, "every morning", "UTC"⟩ }).isValid
        = false ∧
      (validateConfig knownTimeZone
        { defaultCronConfig with deadlineNotifications := ⟨true, "every morning", "UTC"⟩ }).errors
        ≠ [] ∧
      initCronJobs knownTimeZone cronAcceptsAll
        { defaultCronConfig with deadlineNotifications := ⟨true, "every morning", "UTC"⟩ }
        = []) ∧
    validateConfig knownTimeZone
        { defaultCronConfig with overdueChecks := ⟨false, "0 */6 * * *", "Mars/Olympus"⟩ }
      = ⟨false, ["Invalid overdue checks timezone"]⟩ ∧
    initCronJobs knownTimeZone cronAcceptsAll
        { defaultCronConfig with overdueChecks := ⟨false, "0 */6 * * *", "Mars/Olympus"⟩ }
      = [] ∧
    validateConfig knownTimeZone defaultCronConfig = ⟨true, []⟩ ∧
    initCronJobs knownTimeZone cronAcceptsAll defaultCronConfig
      = [⟨"deadlineNotifications", "0 9 * * *", "UTC"⟩] ∧
    [cronRegex "0 9 * * *", cronRegex "0 */6 * * *", cronRegex "59 23 31 12 6",
      cronRegex "60 9 * * *", cronRegex "0 24 * * *", cronRegex "0 9 * * 7",
      cronRegex "0 9 * * 1-5", cronRegex "0  9 * * *", cronRegex "0 9 * *",
      cronRegex "05 9 * * *", cronRegex "*/15 * * * *"]
      = [true, true, true, false, false, false, false, false, false, false, true] :=
  have h : cronRegex "every morning" = false := by decide
  ⟨h,
    (C25_invalid_configuration_schedules_nothing knownTimeZone cronAcceptsAll
      { defaultCronConfig with deadlineNotifications := ⟨true, "every morning", "UTC"⟩ }).2.2
      (Or.inl h),
    by decide, by decide, by decide, by decide, by decide⟩

/-! ## Lemmas on the user routes -/

theorem find?_updateFirst_key {α : Type} (key : α → ObjectId) (f : α → α)
    (hf : ∀ x, key (f x) = key x) (i j : ObjectId) :
    ∀ xs : List α,
      (updateFirst (fun x => key x == j) f xs).find? (fun x => key x == i)
        = (xs.find? (fun x => key x == i)).map (fun x => if i = j then f x else x) := by
  intro xs
  induction xs with
  | nil => rfl
  | cons x rest ih =>
    unfold updateFirst
    by_cases hxj : key x = j
    · have hb : (key x == j) = true := by simpa using hxj
      simp only [hb, if_true]
      by_cases hxi : key x = i
      · subst hxi
        subst hxj
        simp [List.find?_cons, hf]
      · have hbi : (key x == i) = false := by simpa using hxi
        have hij : ¬ i = j := fun h => hxi (h ▸ hxj)
        simp [List.find?_cons, hf, hbi, hij]
    · have hb : (key x == j) = false := by simpa using hxj
      simp only [hb]
      by_cases hxi : key x = i
      · have hbi : (key x == i) = true := by simpa using hxi
        have hij : ¬ i = j := fun h => hxj (h ▸ hxi)
        simp [List.find?_cons, hbi, hij]
      · have hbi : (key x == i) = false := by simpa using hxi
        simp only [Bool.false_eq_true, if_false, List.find?_cons, hbi]
        exact ih

theorem adminCount_cons (u : User) (users : List User) :
    adminCount (u :: users)
      = (if u.role = "admin" ∧ u.isActive = true then 1 else 0) + adminCount users := by
  unfold adminCount
  by_cases hr : u.role = "admin"
  · cases ha : u.isActive with
    | false => simp [List.filter_cons, hr, ha]
    | true =>
      simp [List.filter_cons, hr, ha]
      omega
  · simp [List.filter_cons, hr]

theorem adminCount_softDelete (clock : Date) (p : User → Bool) (user : User) :
    ∀ users : List User, users.find? p = some user →
      adminCount (updateFirst p (fun u => { u with isActive := false, deletedAt := some clock })
          users)
        + (if user.role = "admin" ∧ user.isActive = true then 1 else 0)
        = adminCount users := by
  intro users
  induction users with
  | nil => intro h; cases h
  | cons a rest ih =>
    intro h
    rw [List.find?_cons] at h
    unfold updateFirst
    cases hp : p a with
    | true =>
      rw [hp] at h
      injection h with h
      subst h
      simp only [if_true, adminCount_cons]
      simp
      omega
    | false =>
      rw [hp] at h
      simp only [Bool.false_eq_true, if_false, adminCount_cons]
      have := ih h
      omega

/-- C26: the route `DELETE /users/:id`. From a store with at least one active admin, the
store after the request has at least one active admin, for every id. When the target has
role `admin` and at most one active admin exists, the answer is 400 with
`Cannot delete the last admin user` and the store is as before. Otherwise the answer is
200; the target then has `isActive = false` and `deletedAt` the time of the request, its
other fields are as before, every other user is as before, and so are the other
collections. An id without a user is answered with 404. -/
theorem C26_delete_keeps_an_active_admin (clock : Date) (id : ObjectId) (s : Store) :
    (0 < adminCount s.users → 0 < adminCount (deleteUserRoute clock id s).1.users) ∧
    (∀ user, s.users.find? (fun u => u._id == id) = some user →
      user.role = "admin" → adminCount s.users ≤ 1 →
      deleteUserRoute clock id s
        = (s, ⟨400, some "Cannot delete the last admin user", none⟩)) ∧
    (∀ user, s.users.find? (fun u => u._id == id) = some user →
      (user.role ≠ "admin" ∨ 1 < adminCount s.users) →
      (deleteUserRoute clock id s).2 = ⟨200, none, some "User deleted successfully"⟩ ∧
      (deleteUserRoute clock id s).1.users.find? (fun u => u._id == id)
        = some { user with isActive := false, deletedAt := some clock } ∧
      (∀ other, other ≠ id →
        (deleteUserRoute clock id s).1.users.find? (fun u => u._id == other)
          = s.users.find? (fun u => u._id == other)) ∧
      (deleteUserRoute clock id s).1.users.length = s.users.length ∧
      (deleteUserRoute clock id s).1.tasks = s.tasks ∧
      (deleteUserRoute clock id s).1.projects = s.projects ∧
      (deleteUserRoute clock id s).1.notifications = s.notifications) ∧
    (s.users.find? (fun u => u._id == id) = none →
      deleteUserRoute clock id s = (s, ⟨404, some "User not found", none⟩)) := by
  refine ⟨?_, ?_, ?_, ?_⟩
  · intro hpos
    unfold deleteUserRoute
    cases hfind : s.users.find? (fun u => u._id == id) with
    | none => exact hpos
    | some user =>
      simp only
      split
      · exact hpos
      · next hcond =>
        have hcount := adminCount_softDelete clock (fun u => u._id == id) user s.users hfind
        simp only
        by_cases hr : user.role = "admin"
        · have : ¬ adminCount s.users ≤ 1 := fun h => hcond ⟨hr, h⟩
          split at hcount <;> omega
        · have hz : (if user.role = "admin" ∧ user.isActive = true then 1 else 0) = 0 := by
            simp [hr]
          rw [hz] at hcount
          omega
  · intro user hfind hr hcount
    unfold deleteUserRoute
    simp [hfind, hr, hcount]
  · intro user hfind hcase
    have hcond : ¬ (user.role = "admin" ∧ adminCount s.users ≤ 1) := by
      rintro ⟨hr, hc⟩
      rcases hcase with h | h
      · exact h hr
      · omega
    have hkey := find?_updateFirst_key (fun u : User => u._id)
      (fun u => { u with isActive := false, deletedAt := some clock }) (fun _ => rfl)
    unfold deleteUserRoute
    simp only [hfind, if_neg hcond]
    refine ⟨trivial, ?_, ?_, ?_, trivial, trivial, trivial⟩
    · rw [hkey id id s.users, hfind]
      simp
    · intro other hne
      rw [hkey other id s.users]
      cases s.users.find? (fun u => u._id == other) <;> simp [hne]
    · clear hfind hkey
      induction s.users with
      | nil => rfl
      | cons a rest ih =>
        unfold updateFirst
        split <;> simp [ih]
  · intro hfind
    unfold deleteUserRoute
    simp [hfind]

/-- C26 at concrete stores: with two active admins, deleting admin 1 leaves one active
admin and marks user 1 as deleted at the time of the request; with one active admin,
deleting admin 1, or the admin 2 deleted earlier, is refused and the store is as before. -/
theorem C26_delete_keeps_an_active_admin_witness :
    (0 < adminCount storeTwoAdmins.users ∧
      0 < adminCount (deleteUserRoute 900 1 storeTwoAdmins).1.users) ∧
    (deleteUserRoute 900 1 storeTwoAdmins).1.users.map
        (fun u => (u._id, u.isActive, u.deletedAt))
      = [(1, false, some 900), (2, true, none), (3, true, none)] ∧
    deleteUserRoute 900 1 storeOneAdmin
      = (storeOneAdmin, ⟨400, some "Cannot delete the last admin user", none⟩) ∧
    deleteUserRoute 900 2 storeOneAdmin
      = (storeOneAdmin, ⟨400, some "Cannot delete the last admin user", none⟩) ∧
    (deleteUserRoute 900 3 storeOneAdmin).2 = ⟨200, none, some "User deleted successfully"⟩ :=
  have hpos : 0 < adminCount storeTwoAdmins.users := by decide
  ⟨⟨hpos, (C26_delete_keeps_an_active_admin 900 1 storeTwoAdmins).1 hpos⟩,
    by decide,
    (C26_delete_keeps_an_active_admin 900 1 storeOneAdmin).2.1
      { userWithId 1 with role := "admin" } (by decide) rfl (by decide),
    by decide, by decide⟩

/-! ## Lemmas on the priority of the notifications of a scan -/

theorem priority_of_notificationTypeOf {days : Int} {bucket : String}
    (h : notificationTypeOf days = some bucket) :
    (if days = 1 then "high" else "medium") = bucketPriority bucket := by
  unfold notificationTypeOf at h
  split at h
  · next h1 =>
    injection h with h
    subst h
    rw [if_pos h1]
    decide
  · next h1 =>
    rw [if_neg h1]
    split at h
    · injection h with h
      subst h
      decide
    · split at h
      · injection h with h
        subst h
        decide
      · cases h

theorem overdueTaskBody_priority (now : Date) (users : List User) (task : Task) :
    (overdueTaskBody now users task).doc.deadline = task.deadline ∧
    ∀ n ∈ (overdueTaskBody now users task).created,
      n.type = "deadline_overdue" ∧ n.priority = "high" := by
  unfold overdueTaskBody
  split
  · exact ⟨rfl, fun n hn => by cases hn⟩
  · split
    · exact ⟨rfl, fun n hn => by cases hn⟩
    · exact ⟨rfl, fun n hn => by cases hn⟩
    · split
      · exact ⟨rfl, fun n hn => by cases hn⟩
      · next created hcreate =>
        have hc := notification_create_ok hcreate
        subst hc
        split
        · refine ⟨rfl, fun n hn => ?_⟩
          rw [List.mem_singleton] at hn
          subst hn
          exact ⟨rfl, rfl⟩
        · next saved hsave =>
          have hs := task_save_ok hsave
          subst hs
          refine ⟨rfl, fun n hn => ?_⟩
          rw [List.mem_singleton] at hn
          subst hn
          exact ⟨rfl, rfl⟩

theorem upcomingTaskBody_priority (now : Date) (users : List User) (task : Task) :
    ∀ n ∈ (upcomingTaskBody now users task).created,
      n.type = "deadline_approaching" ∧
      ∃ d bucket, task.deadline = some d ∧
        notificationTypeOf (ceilDiv (d - now) DAY_MS) = some bucket ∧
        n.priority = bucketPriority bucket := by
  unfold upcomingTaskBody
  split
  · exact fun n hn => by cases hn
  · split
    · exact fun n hn => by cases hn
    · next d hd =>
      simp only
      split
      · exact fun n hn => by cases hn
      · next bucket hbucket =>
        split
        · exact fun n hn => by cases hn
        · exact fun n hn => by cases hn
        · split
          · exact fun n hn => by cases hn
          · next created hcreate =>
            have hc := notification_create_ok hcreate
            subst hc
            split
            · intro n hn
              rw [List.mem_singleton] at hn
              subst hn
              exact ⟨rfl, d, bucket, hd, hbucket, priority_of_notificationTypeOf hbucket⟩
            · intro n hn
              rw [List.mem_singleton] at hn
              subst hn
              exact ⟨rfl, d, bucket, hd, hbucket, priority_of_notificationTypeOf hbucket⟩

theorem overdueProjectLoop_priority (now : Date) (projectId : ObjectId) (members : List User) :
    ∀ acc : MemberLoop,
      (∀ n ∈ acc.created, n.type = "deadline_overdue" ∧ n.priority = "high") →
      ∀ n ∈ (overdueProjectLoop now projectId members acc).1.created,
        n.type = "deadline_overdue" ∧ n.priority = "high" := by
  induction members with
  | nil => intro acc h; exact h
  | cons member rest ih =>
    intro acc h
    unfold overdueProjectLoop
    split
    · exact h
    · exact ih acc h
    · split
      · exact h
      · next created hcreate =>
        have hc := notification_create_ok hcreate
        subst hc
        apply ih
        intro n hn
        simp only [List.mem_append, List.mem_singleton] at hn
        rcases hn with hn | hn
        · exact h n hn
        · subst hn
          exact ⟨rfl, rfl⟩

theorem overdueProjectBody_priority (now : Date) (users : List User) (project : Project) :
    ∀ n ∈ (overdueProjectBody now users project).created,
      n.type = "deadline_overdue" ∧ n.priority = "high" := by
  have hloop := overdueProjectLoop_priority now project._id
    (populateMany users project.members) ⟨project.deadlineNotifications, [], 0⟩
    (fun n hn => by cases hn)
  unfold overdueProjectBody
  split
  · next acc e heq =>
    rw [heq] at hloop
    exact hloop
  · next acc heq =>
    rw [heq] at hloop
    split
    · exact hloop
    · exact hloop

theorem forEachSelected_docs_origin {α : Type} (query : α → Bool) (body : α → ItemResult α)
    (mkError : α → String → ScanError) :
    ∀ (docs : List α) (d : α), d ∈ (forEachSelected query body mkError docs).docs →
      ∃ d0 ∈ docs, d = if query d0 then (body d0).doc else d0 := by
  intro docs
  induction docs with
  | nil => intro d hd; simp [forEachSelected] at hd
  | cons x rest ih =>
    intro d hd
    rw [forEachSelected_cons] at hd
    by_cases hq : query x = true
    · rw [if_pos hq] at hd
      rcases List.mem_cons.mp hd with h | h
      · exact ⟨x, List.mem_cons_self _ _, by rw [if_pos hq]; exact h⟩
      · obtain ⟨d0, hd0, heq⟩ := ih d h
        exact ⟨d0, List.mem_cons_of_mem _ hd0, heq⟩
    · rw [if_neg hq] at hd
      rcases List.mem_cons.mp hd with h | h
      · exact ⟨x, List.mem_cons_self _ _, by rw [if_neg hq]; exact h⟩
      · obtain ⟨d0, hd0, heq⟩ := ih d h
        exact ⟨d0, List.mem_cons_of_mem _ hd0, heq⟩

/-- C27: every notification a scan creates has the priority of its bucket. A notification
of type `deadline_overdue` (an overdue task or project) has priority `high`; a notification
of type `deadline_approaching` is for a task of the store with a deadline whose day count
selects a bucket `1_day`, `3_days` or `7_days`, and its priority is `high` for `1_day` and
`medium` for the other two. No notification of a scan has another priority. -/
theorem C27_scan_priority_by_bucket (now : Date) (s : Store) (n : Notification)
    (hn : n ∈ createdInRun now s) :
    (n.priority = "high" ∨ n.priority = "medium") ∧
    ((n.type = "deadline_overdue" ∧ n.priority = bucketPriority "overdue") ∨
      (n.type = "deadline_approaching" ∧
        ∃ task ∈ s.tasks, ∃ d bucket,
          n.relatedItem = ⟨"task", task._id⟩ ∧ task.deadline = some d ∧
          notificationTypeOf (ceilDiv (d - now) DAY_MS) = some bucket ∧
          n.priority = bucketPriority bucket)) ∧
    [bucketPriority "overdue", bucketPriority "1_day", bucketPriority "3_days",
      bucketPriority "7_days"] = ["high", "high", "medium", "medium"] := by
  have hmain : (n.type = "deadline_overdue" ∧ n.priority = bucketPriority "overdue") ∨
      (n.type = "deadline_approaching" ∧
        ∃ task ∈ s.tasks, ∃ d bucket,
          n.relatedItem = ⟨"task", task._id⟩ ∧ task.deadline = some d ∧
          notificationTypeOf (ceilDiv (d - now) DAY_MS) = some bucket ∧
          n.priority = bucketPriority bucket) := by
    rw [createdInRun_eq, List.mem_append, List.mem_append] at hn
    rcases hn with (hn | hn) | hn
    · obtain ⟨d, _, _, hnd, _, _⟩ := forEachSelected_mem_created _ _ _ s.tasks n hn
      exact Or.inl ((overdueTaskBody_priority now s.users d).2 n hnd)
    · obtain ⟨t, ht, _, hnt, _, _⟩ := forEachSelected_mem_created _ _ _ _ n hn
      obtain ⟨htype, d, bucket, hd, hbucket, hprio⟩ :=
        upcomingTaskBody_priority now s.users t n hnt
      obtain ⟨hrel, _⟩ := (upcomingTaskBody_created now s.users t).2.2 n hnt
      obtain ⟨t0, ht0, heq⟩ := forEachSelected_docs_origin _ _ _ s.tasks t ht
      have hsame : t._id = t0._id ∧ t.deadline = t0.deadline := by
        rw [heq]
        split
        · exact ⟨(overdueTaskBody_created now s.users t0).1,
            (overdueTaskBody_priority now s.users t0).1⟩
        · exact ⟨rfl, rfl⟩
      refine Or.inr ⟨htype, t0, ht0, d, bucket, ?_, ?_, hbucket, hprio⟩
      · rw [hrel, hsame.1]
      · rw [← hsame.2]; exact hd
    · obtain ⟨d, _, _, hnd, _, _⟩ := forEachSelected_mem_created _ _ _ s.projects n hn
      exact Or.inl (overdueProjectBody_priority now s.users d n hnd)
  refine ⟨?_, hmain, by decide⟩
  rcases hmain with ⟨_, hp⟩ | ⟨_, _, _, _, bucket, _, _, hbucket, hp⟩
  · exact Or.inl hp
  · rcases notificationTypeOf_some hbucket with h | h | h
    · subst h; exact Or.inl hp
    · subst h; exact Or.inr hp
    · subst h; exact Or.inr hp

/-- C27 at concrete stores scanned at the instant 0: the notification for the task due in
exactly seven days has priority `medium`, and the notifications of the store with two
overdue tasks, a task due in seven days and two overdue projects (one of which throws) have
priorities `high`, `high`, `medium`, `high`, `high`. -/
theorem C27_scan_priority_by_bucket_witness :
    approachingTaskNotification 1 10 "medium" ∈ createdInRun 0 storeSevenDays ∧
    ((approachingTaskNotification 1 10 "medium").priority = "high" ∨
      (approachingTaskNotification 1 10 "medium").priority = "medium") ∧
    (createdInRun 0 storeWithFailingItems).map (fun n => (n.type, n.priority))
      = [("deadline_overdue", "high"), ("deadline_overdue", "high"),
         ("deadline_approaching", "medium"), ("deadline_overdue", "high"),
         ("deadline_overdue", "high")] :=
  have hn : approachingTaskNotification 1 10 "medium" ∈ createdInRun 0 storeSevenDays := by
    decide
  ⟨hn, (C27_scan_priority_by_bucket 0 storeSevenDays _ hn).1, by decide⟩

/-- The `milestones` of the answer of `getCalendarData` for a range of two dates: the
milestones due in the range of the projects that have the user as a member and their own
deadline in the range. -/
theorem getCalendarData_milestones (clock : Date) (userId : ObjectId)
    (start «end» : Date) (s : Store) :
    ∃ data, getCalendarData clock userId (.instant start) (.instant «end») s = .ok data ∧
      ∀ e : CalendarMilestone, e ∈ data.milestones ↔
        ∃ p ∈ s.projects, ∃ m ∈ p.milestones,
          userId ∈ p.members ∧
          (∃ d, p.deadline = some d ∧ start ≤ d ∧ d ≤ «end») ∧
          start ≤ m.dueDate ∧ m.dueDate ≤ «end» ∧
          e = ⟨m._id, m.title, m.dueDate, "milestone", p._id, p.name, m.completed⟩ := by
  refine ⟨_, rfl, ?_⟩
  intro e
  have hwithin : ∀ deadline : Option Date, deadlineWithin start «end» deadline = true ↔
      ∃ d, deadline = some d ∧ start ≤ d ∧ d ≤ «end» := by
    intro deadline
    cases deadline with
    | none => simp [deadlineWithin]
    | some d => simp [deadlineWithin]
  simp only [List.mem_flatten, List.mem_map, List.mem_filter, Bool.and_eq_true,
    decide_eq_true_eq, hwithin]
  constructor
  · rintro ⟨l, ⟨p, ⟨hp, hmem, hdl⟩, rfl⟩, he⟩
    simp only [List.mem_map, List.mem_filter, Bool.and_eq_true, decide_eq_true_eq] at he
    obtain ⟨m, ⟨hm, h1, h2⟩, rfl⟩ := he
    exact ⟨p, hp, m, hm, by simpa using hmem, hdl, h1, h2, rfl⟩
  · rintro ⟨p, hp, m, hm, hmem, hdl, h1, h2, rfl⟩
    refine ⟨_, ⟨p, ⟨hp, by simpa using hmem, hdl⟩, rfl⟩, ?_⟩
    simp only [List.mem_map, List.mem_filter, Bool.and_eq_true, decide_eq_true_eq]
    exact ⟨m, ⟨hm, h1, h2⟩, rfl⟩

theorem getCalendarData_milestones_of_listed_projects (clock : Date) (userId : ObjectId)
    (start «end» : Date) (s : Store) :
    ∃ data, getCalendarData clock userId (.instant start) (.instant «end») s = .ok data ∧
      data.milestones.all
        (fun e => data.projects.any (fun p => p.id == e.projectId && p.date != none)) = true := by
  refine ⟨_, rfl, ?_⟩
  rw [List.all_eq_true]
  intro e he
  simp only [List.mem_flatten, List.mem_map, List.mem_filter, Bool.and_eq_true] at he
  obtain ⟨l, ⟨p, ⟨hp, hmem, hdl⟩, rfl⟩, he⟩ := he
  simp only [List.mem_map, List.mem_filter] at he
  obtain ⟨m, _, rfl⟩ := he
  rw [List.any_eq_true]
  refine ⟨_, List.mem_map.mpr ⟨p, List.mem_filter.mpr ⟨hp, ?_⟩, rfl⟩, ?_⟩
  · rw [hmem, hdl]; rfl
  · cases hd : p.deadline with
    | none => rw [hd] at hdl; simp [deadlineWithin] at hdl
    | some d => simp [hd]

/-- C28, evaluated at the failing input: user 7 is a member of project 20 (deadline 1000,
after the range) with milestone 3 due at 800, of project 23 (no deadline) with milestone 4
due at 700, and of project 24 (deadline 850) with milestone 5 due at 600. For the range 500
to 900 the calendar lists milestone 5 only, while its task list holds task 50 of project 20,
due at 700: the tasks are taken from every project of the user, the milestones only from
the projects whose own deadline is in the range. For every store, user and range, every
milestone listed belongs to a project that is listed with its deadline. -/
theorem C28_milestone_of_project_outside_range_is_left_out :
    (getCalendarData 900 7 (.instant 500) (.instant 900) storeCalendar).map
        (fun data => data.milestones)
      = .ok [⟨5, "Draft", 600, "milestone", 24, "Website", false⟩] ∧
    (getCalendarData 900 7 (.instant 500) (.instant 900) storeCalendar).map
        (fun data => data.projects.map (fun p => p.id))
      = .ok [24] ∧
    (getCalendarData 900 7 (.instant 500) (.instant 900) storeCalendar).map
        (fun data => data.tasks.map (fun task => (task.id, task.date, task.projectName)))
      = .ok [(50, some 700, some "Launch")] ∧
    storeCalendar.projects.map
        (fun p => (p._id, p.members.contains 7, p.deadline,
          p.milestones.map (fun m => (m._id, m.dueDate))))
      = [(20, true, some 1000, [(3, 800)]), (23, true, none, [(4, 700)]),
         (24, true, some 850, [(5, 600), (6, 2000)])] ∧
    (∀ (clock : Date) (userId : ObjectId) (start «end» : Date) (s : Store),
      ∃ data, getCalendarData clock userId (.instant start) (.instant «end») s = .ok data ∧
        data.milestones.all
          (fun e => data.projects.any (fun p => p.id == e.projectId && p.date != none))
          = true) :=
  ⟨by decide, by decide, by decide, by decide, getCalendarData_milestones_of_listed_projects⟩

/-! ## Lemmas on the handlers that create notifications -/

theorem notifyMembers_rejected (title type priority : String) (projectId : ObjectId)
    (htype : NOTIFICATION_TYPE_ENUM.contains type = false) (members : List ObjectId) :
    (notifyMembers title type priority projectId members).1 = [] := by
  cases members with
  | nil => rfl
  | cons memberId rest =>
    have hc : Notification.create
        { userId := memberId, title := title, type := type,
          relatedItem := ⟨"project", projectId⟩, priority := priority }
        = .error "ValidationError" := by
      unfold Notification.create Notification.validate
      simp only [htype, Bool.false_and, Bool.false_eq_true, if_false]
    unfold notifyMembers
    rw [hc]

theorem addMilestoneHandler_notifications (projectId newId : ObjectId) (title : Option String)
    (description : Option String) (dueDate : JsDateArg) (s : Store) :
    (addMilestoneHandler projectId newId title description dueDate s).1.notifications
      = s.notifications := by
  unfold addMilestoneHandler
  split
  · rfl
  · split
    · rfl
    · next saved _ =>
      have h := notifyMembers_rejected "New Milestone Added" "milestone" "medium" projectId
        (by decide) saved.members
      split
      · next created e heq => rw [heq] at h; simp only at h; simp [h]
      · next created heq => rw [heq] at h; simp only at h; simp [h]

theorem completeMilestoneHandler_notifications (projectId : ObjectId)
    (milestoneId : Option ObjectId) (clock : Date) (s : Store) :
    (completeMilestoneHandler projectId milestoneId clock s).1.notifications
      = s.notifications := by
  unfold completeMilestoneHandler
  split
  · rfl
  · split
    · rfl
    · next saved _ =>
      have h := notifyMembers_rejected "Milestone Completed" "milestone_complete" "low"
        projectId (by decide) saved.members
      split
      · rfl
      · split
        · next created e heq => rw [heq] at h; simp only at h; simp [h]
        · next created heq => rw [heq] at h; simp only at h; simp [h]

theorem requestProjectExtension_notifications (projectId newId : ObjectId) (clock : Date)
    (userId : Option ObjectId) (newDeadline : JsDateArg) (reason : Option String)
    (s : Store) :
    (requestProjectExtension projectId newId clock userId newDeadline reason s).1.notifications
      = s.notifications := by
  unfold requestProjectExtension
  split
  · rfl
  · split
    · rfl
    · next saved _ =>
      have h := notifyMembers_rejected "Project Deadline Extension Request"
        "deadline_extension" "high" projectId (by decide)
        (saved.members.filter (fun memberId => some memberId != userId))
      split
      · next created e heq => rw [heq] at h; simp only at h; simp [h]
      · next created heq => rw [heq] at h; simp only at h; simp [h]

theorem requestTaskExtension_notifications (taskId newId : ObjectId) (clock : Date)
    (userId : Option ObjectId) (newDeadline : JsDateArg) (reason : Option String)
    (s : Store) :
    (requestTaskExtension taskId newId clock userId newDeadline reason s).1.notifications
      = s.notifications := by
  unfold requestTaskExtension
  split
  · rfl
  · split
    · rfl
    · simp only
      split
      · rfl
      · simp [Notification.create, Notification.validate, NOTIFICATION_TYPE_ENUM]

/-- C29, evaluated at the failing inputs. Of the types the call sites pass,
`deadline_extension`, `deadline_extension_review`, `milestone`, `milestone_complete` and
`welcome` are not in the `enum` of `NotificationSchema.type`, and `Notification.create`
rejects every record of such a type. So the handlers `requestTaskExtension`,
`requestProjectExtension`, `addMilestone` and `completeMilestone` never store a
notification; on a project with members they save their change to the item and then answer
500. The types of the scan and of `requestVacation` are in the `enum`. -/
theorem C29_notification_types_outside_the_enum :
    (NOTIFICATION_CALL_SITES.map (fun site => site.2)).eraseDups.filter
        (fun type => !NOTIFICATION_TYPE_ENUM.contains type)
      = ["deadline_extension", "deadline_extension_review", "milestone",
         "milestone_complete", "welcome"] ∧
    (NOTIFICATION_CALL_SITES.map (fun site => site.2)).eraseDups.filter
        (fun type => NOTIFICATION_TYPE_ENUM.contains type)
      = ["deadline_overdue", "deadline_approaching", "vacation_request"] ∧
    (∀ n : Notification,
      ["deadline_extension", "deadline_extension_review", "milestone", "milestone_complete",
        "welcome"].all
        (fun type => decide (Notification.create { n with type := type }
          = .error "ValidationError")) = true) ∧
    (∀ taskId newId clock userId newDeadline reason s,
      (requestTaskExtension taskId newId clock userId newDeadline reason s).1.notifications
        = s.notifications) ∧
    (∀ projectId newId clock userId newDeadline reason s,
      (requestProjectExtension projectId newId clock userId newDeadline reason
        s).1.notifications = s.notifications) ∧
    (∀ projectId newId title description dueDate s,
      (addMilestoneHandler projectId newId title description dueDate s).1.notifications
        = s.notifications) ∧
    (∀ projectId milestoneId clock s,
      (completeMilestoneHandler projectId milestoneId clock s).1.notifications
        = s.notifications) ∧
    (requestTaskExtension 10 2 950 (some 7) (.instant 7000) (some "more time")
        storeWithPending).2 = ⟨500, some "ValidationError", none⟩ ∧
    (requestTaskExtension 10 2 950 (some 7) (.instant 7000) (some "more time")
        storeWithPending).1.tasks.map
        (fun t => t.deadlineExtensions.map (fun e => (e._id, e.status)))
      = [[(1, "pending"), (2, "pending")]] ∧
    (requestProjectExtension 20 2 950 (some 7) (.instant 7000) none storeWithPending).2
      = ⟨500, some "ValidationError", none⟩ ∧
    (addMilestoneHandler 20 4 (some "GA") none (.instant 9000) storeWithPending).2
      = ⟨500, some "ValidationError", none⟩ ∧
    (addMilestoneHandler 20 4 (some "GA") none (.instant 9000) storeWithPending).1.projects.map
        (fun p => p.milestones.map (fun m => (m._id, m.title)))
      = [[(3, "Beta"), (4, "GA")]] ∧
    (completeMilestoneHandler 20 (some 3) 950 storeWithPending).2
      = ⟨500, some "ValidationError", none⟩ ∧
    (requestVacation 3 (.instant 1000) (.instant 2000) (some "leave") storeTwoAdmins).2
      = ⟨200, none, none⟩ ∧
    (requestVacation 3 (.instant 1000) (.instant 2000) (some "leave")
        storeTwoAdmins).1.notifications.map (fun n => (n.userId, n.type))
      = [(1, "vacation_request"), (2, "vacation_request")] := by
  refine ⟨by decide, by decide, ?_, requestTaskExtension_notifications,
    requestProjectExtension_notifications, addMilestoneHandler_notifications,
    completeMilestoneHandler_notifications, by decide, by decide, by decide, by decide,
    by decide, by decide, by decide, by decide⟩
  intro n
  simp [Notification.create, Notification.validate, NOTIFICATION_TYPE_ENUM]

/-! ## Lemmas on the schedule update -/

theorem workDaysOf_all_days (startTime endTime : String) (b1 b2 b3 b4 b5 b6 b7 : Bool) :
    workDaysOf
        { monday := some ⟨startTime, endTime, b1⟩, tuesday := some ⟨startTime, endTime, b2⟩,
          wednesday := some ⟨startTime, endTime, b3⟩, thursday := some ⟨startTime, endTime, b4⟩,
          friday := some ⟨startTime, endTime, b5⟩, saturday := some ⟨startTime, endTime, b6⟩,
          sunday := some ⟨startTime, endTime, b7⟩ }
      = (if b1 then ["monday"] else []) ++ (if b2 then ["tuesday"] else [])
        ++ (if b3 then ["wednesday"] else []) ++ (if b4 then ["thursday"] else [])
        ++ (if b5 then ["friday"] else []) ++ (if b6 then ["saturday"] else [])
        ++ (if b7 then ["sunday"] else []) := by
  cases b1 <;> cases b2 <;> cases b3 <;> cases b4 <;> cases b5 <;> cases b6 <;> cases b7 <;> rfl

theorem weekdays_filter (p : String → Bool) :
    WEEKDAYS.filter p
      = (if p "monday" then ["monday"] else []) ++ (if p "tuesday" then ["tuesday"] else [])
        ++ (if p "wednesday" then ["wednesday"] else [])
        ++ (if p "thursday" then ["thursday"] else [])
        ++ (if p "friday" then ["friday"] else []) ++ (if p "saturday" then ["saturday"] else [])
        ++ (if p "sunday" then ["sunday"] else []) := by
  unfold WEEKDAYS
  cases h1 : p "monday" <;> cases h2 : p "tuesday" <;> cases h3 : p "wednesday" <;>
    cases h4 : p "thursday" <;> cases h5 : p "friday" <;> cases h6 : p "saturday" <;>
    cases h7 : p "sunday" <;> simp [List.filter_cons, h1, h2, h3, h4, h5, h6, h7]

theorem updateUserSchedule_workDays (body : ScheduleBody) :
    workDaysOf
        { monday := some ⟨body.startTime, body.endTime, body.workDays.contains "monday"⟩
          tuesday := some ⟨body.startTime, body.endTime, body.workDays.contains "tuesday"⟩
          wednesday := some ⟨body.startTime, body.endTime, body.workDays.contains "wednesday"⟩
          thursday := some ⟨body.startTime, body.endTime, body.workDays.contains "thursday"⟩
          friday := some ⟨body.startTime, body.endTime, body.workDays.contains "friday"⟩
          saturday := some ⟨body.startTime, body.endTime, body.workDays.contains "saturday"⟩
          sunday := some ⟨body.startTime, body.endTime, body.workDays.contains "sunday"⟩ }
      = WEEKDAYS.filter (fun day => body.workDays.contains day) := by
  rw [workDaysOf_all_days, weekdays_filter]

/-- C30 refuted at a concrete input: the body with `workDays` Monday and the empty string
for `startTime`, `endTime` and `timezone`, for user 1 of `storeSchedules`. The empty strings
are stored, and `getUserSchedule` answers with 09:00, 17:00 and UTC in their place. -/
theorem C30_empty_times_come_back_as_defaults :
    (getUserSchedule 1 (updateUserSchedule 1 ⟨["monday"], "", "", ""⟩ storeSchedules).1).2
      = .ok ⟨["monday"], "09:00", "17:00", "UTC"⟩ ∧
    ((updateUserSchedule 1 ⟨["monday"], "", "", ""⟩ storeSchedules).1.users.find?
        (fun u => u._id == 1)).map
        (fun u => (u.workSchedule.bind (fun w => w.monday), u.preferredWorkingHours, u.timezone))
      = some (some ⟨"", "", true⟩, some ⟨"", ""⟩, some "") := by
  decide

/-- C30 as amended: for a user of the store and a body with all four fields,
`updateUserSchedule` followed by `getUserSchedule` leaves the store as the update made it
and answers with `workDays` the seven weekday names, Monday first, filtered to those in the
submitted list, and with the submitted `startTime`, `endTime` and `timezone`, each replaced
by its default (09:00, 17:00, UTC) when it is the empty string; the update itself answers
the same. Two submitted lists that hold the same weekday names give the same `workDays`.
Every weekday entry stored has `start = startTime`, `end = endTime` and `available` iff the
day is in the list. -/
theorem C30_schedule_round_trip (userId : ObjectId) (body : ScheduleBody) (s : Store)
    (user : User) (hfind : s.users.find? (fun u => u._id == userId) = some user) :
    getUserSchedule userId (updateUserSchedule userId body s).1
      = ((updateUserSchedule userId body s).1,
         .ok
          { workDays := WEEKDAYS.filter (fun day => body.workDays.contains day)
            startTime := if body.startTime = "" then "09:00" else body.startTime
            endTime := if body.endTime = "" then "17:00" else body.endTime
            timezone := if body.timezone = "" then "UTC" else body.timezone }) ∧
    (updateUserSchedule userId body s).2
      = .ok
          { workDays := WEEKDAYS.filter (fun day => body.workDays.contains day)
            startTime := if body.startTime = "" then "09:00" else body.startTime
            endTime := if body.endTime = "" then "17:00" else body.endTime
            timezone := if body.timezone = "" then "UTC" else body.timezone } ∧
    (∀ other : List String,
      (∀ day ∈ WEEKDAYS, other.contains day = body.workDays.contains day) →
      WEEKDAYS.filter (fun day => other.contains day)
        = WEEKDAYS.filter (fun day => body.workDays.contains day)) ∧
    (∃ stored w, (updateUserSchedule userId body s).1.users.find? (fun u => u._id == userId)
        = some stored ∧ stored.workSchedule = some w ∧
      ∀ day ∈ WEEKDAYS,
        w.get day = some ⟨body.startTime, body.endTime, body.workDays.contains day⟩) := by
  have hkey := find?_updateFirst_key (fun u : User => u._id)
    (fun u =>
      { u with
        workSchedule := some
          { monday := some ⟨body.startTime, body.endTime, body.workDays.contains "monday"⟩
            tuesday := some ⟨body.startTime, body.endTime, body.workDays.contains "tuesday"⟩
            wednesday :=
              some ⟨body.startTime, body.endTime, body.workDays.contains "wednesday"⟩
            thursday := some ⟨body.startTime, body.endTime, body.workDays.contains "thursday"⟩
            friday := some ⟨body.startTime, body.endTime, body.workDays.contains "friday"⟩
            saturday := some ⟨body.startTime, body.endTime, body.workDays.contains "saturday"⟩
            sunday := some ⟨body.startTime, body.endTime, body.workDays.contains "sunday"⟩ }
        timezone := some body.timezone
        preferredWorkingHours := some ⟨body.startTime, body.endTime⟩ })
    (fun _ => rfl) userId userId s.users
  rw [hfind] at hkey
  simp only [Option.map_some', if_true] at hkey
  refine ⟨?_, ?_, ?_, ?_⟩
  · unfold updateUserSchedule
    simp only [hfind]
    unfold getUserSchedule
    simp only [hkey, Option.isNone_some, Bool.false_eq_true, if_false,
      updateUserSchedule_workDays]
  · unfold updateUserSchedule
    simp only [hfind, updateUserSchedule_workDays]
  · intro other hsame
    apply List.filter_congr
    intro day hday
    exact hsame day hday
  · unfold updateUserSchedule
    simp only [hfind]
    refine ⟨_, _, hkey, rfl, ?_⟩
    intro day hday
    unfold WEEKDAYS at hday
    simp only [List.mem_cons, List.mem_singleton, List.not_mem_nil, or_false] at hday
    rcases hday with h | h | h | h | h | h | h <;> subst h <;> rfl

/-- C30 as amended, at a concrete input: for user 1 of `storeSchedules` the list
`sunday, monday, monday, someday` with 08:00, 16:00 and CET comes back as `monday, sunday`
with the submitted times and time zone. -/
theorem C30_schedule_round_trip_witness :
    storeSchedules.users.find? (fun u => u._id == 1) = some (userWithId 1) ∧
    (getUserSchedule 1
        (updateUserSchedule 1 ⟨["sunday", "monday", "monday", "someday"], "08:00", "16:00", "CET"⟩
          storeSchedules).1).2
      = .ok ⟨["monday", "sunday"], "08:00", "16:00", "CET"⟩ :=
  have hfind : storeSchedules.users.find? (fun u => u._id == 1) = some (userWithId 1) := by
    decide
  ⟨hfind,
    (congrArg Prod.snd
      (C30_schedule_round_trip 1 ⟨["sunday", "monday", "monday", "someday"], "08:00", "16:00", "CET"⟩
        storeSchedules (userWithId 1) hfind).1).trans (by decide)⟩

end TaskMgmt
